import Mathlib

/-!
# BlackHoleSignature: the procedural scene animator

A shallow embedding of `src/components/BlackHoleSignature/BlackHoleSignature.jsx`.

Conventions of the embedding.

* A JavaScript number that holds an integer is an `Int` (or a `Nat` when it cannot be
  negative); seeds are integers.  The 32-bit operators (`>>>`, `^`, `|`, `Math.imul`) are
  modelled through `ToUint32` / `ToInt32`, that is, with explicit reduction modulo `2^32`.
* The only place where a double leaves the range of exactly representable integers is the
  counter `t` of `mulberry32`; the addition there is followed by `roundDouble`.
* All other numbers are elements of an ordered field `K`; the functions of the `Math`
  object that are not field operations are a parameter `JSMath K`.  Statements that need
  their values use the real functions (`realMath`), so doubles are idealised as reals.
* Closures and refs become explicit state; a ref to a scene node is an `Option`, `none`
  while the node is not mounted, as the source tests `ref.current` before every use.
* Time is a sequence of events: renders with a `stage` prop, ticks of the tweening library,
  frames of the render loop.
-/

namespace BlackHoleSignature

/-! ## Integer conversions of JavaScript -/

/-- The abstract operation `ToUint32` on an integer-valued number. -/
def toUint32 (z : Int) : Nat := (z % 4294967296).toNat

/-- The abstract operation `ToInt32` on an integer-valued number. -/
def toInt32 (z : Int) : Int :=
  let u := z % 4294967296
  if 2147483648 ≤ u then u - 4294967296 else u

/-- The operator `a ^ b`. -/
def xor32 (a b : Int) : Int := toInt32 ((toUint32 a ^^^ toUint32 b : Nat) : Int)

/-- The operator `a | b`. -/
def or32 (a b : Int) : Int := toInt32 ((toUint32 a ||| toUint32 b : Nat) : Int)

/-- The operator `a >>> k`, whose result is an unsigned 32-bit integer. -/
def ushr32 (a : Int) (k : Nat) : Int := ((toUint32 a >>> (k % 32) : Nat) : Int)

/-- The function `Math.imul`. -/
def imul (a b : Int) : Int := toInt32 (toInt32 a * toInt32 b)

/-- Rounding of a non-negative integer to the nearest double (ties to even): integers
below `2^53` are exact, larger ones keep 53 significant bits. -/
def roundDouble (n : Nat) : Nat :=
  if n < 9007199254740992 then n
  else
    let e := Nat.log2 n - 52
    let q := n / 2 ^ e
    let r := n % 2 ^ e
    let half := 2 ^ (e - 1)
    if r < half then q * 2 ^ e
    else if half < r then (q + 1) * 2 ^ e
    else if q % 2 = 0 then q * 2 ^ e
    else (q + 1) * 2 ^ e

/-! ## mulberry32 -/

/-- The call `mulberry32(seed)`: the closure is represented by its captured counter `t`,
initialised by `let t = seed >>> 0`. -/
def mulberry32 (seed : Int) : Nat := toUint32 seed

/-- The 32-bit integer `(x ^ (x >>> 14)) >>> 0` that `rand` computes from the counter value
`t` it has just incremented. -/
def randBits (t : Nat) : Nat :=
  let x : Int := (t : Int)
  let x := imul (xor32 x (ushr32 x 15)) (or32 x 1)
  let x := xor32 x (x + imul (xor32 x (ushr32 x 7)) (or32 x 61))
  toUint32 (ushr32 (xor32 x (ushr32 x 14)) 0)

/-- One call of the closure `rand`: the returned number and the new counter. -/
def rand (t : Nat) : ℚ × Nat :=
  let t := roundDouble (t + 0x6d2b79f5)
  ((randBits t : ℚ) / 4294967296, t)

/-- The counter after `n` calls of `rand`. -/
def randState (seed : Int) : Nat → Nat
  | 0 => mulberry32 seed
  | n + 1 => (rand (randState seed n)).2

/-- The number returned by the `n`-th call (`n = 1` is the first call) of the generator
created by `mulberry32(seed)`. -/
def randOutput (seed : Int) (n : Nat) : ℚ := (rand (randState seed (n - 1))).1

/-! ### The reference generator

The generator as the specification describes it: the state is a 32-bit unsigned integer
that wraps at `2^32`, and all arithmetic is unsigned 32-bit arithmetic. -/

/-- State advance of the reference generator. -/
def refAdvance (a : Nat) : Nat := (a + 0x6d2b79f5) % 4294967296

/-- Output mixing of the reference generator, in unsigned 32-bit arithmetic. -/
def refMix (a : Nat) : Nat :=
  let x := ((a ^^^ (a >>> 15)) * (a ||| 1)) % 4294967296
  let x := x ^^^ ((x + ((x ^^^ (x >>> 7)) * (x ||| 61)) % 4294967296) % 4294967296)
  x ^^^ (x >>> 14)

/-- The state of the reference generator after `n` calls. -/
def refState (seed : Int) : Nat → Nat
  | 0 => toUint32 seed
  | n + 1 => refAdvance (refState seed n)

/-- The `n`-th output of the reference generator. -/
def refOutput (seed : Int) (n : Nat) : ℚ := (refMix (refState seed n) : ℚ) / 4294967296

/-! ## Numbers and the `Math` object -/

/-- The members of `Math` that are not field operations, as functions on the number type
`K`.  The source obtains them from the host; they are a parameter of the embedding. -/
structure JSMath (K : Type) where
  pow : K → K → K
  sin : K → K
  cos : K → K
  acos : K → K
  hypot : K → K → K
  atan2 : K → K → K
  PI : K

/-- A triple of numbers: a `{x, y, z}` literal, a `Vector3`, or the `x, y, z` of an `Euler`. -/
structure Vec3 (K : Type) where
  x : K
  y : K
  z : K

section Generator

variable {K : Type} [LinearOrderedField K]

/-! ## makeNebulaPositions -/

/-- The array `clumps` of `makeNebulaPositions`. -/
def clumps : List (Vec3 K) :=
  [⟨-0.9, 0.35, 0.15⟩, ⟨0.65, -0.25, -0.35⟩, ⟨0.15, 0.55, -0.1⟩, ⟨-0.35, -0.15, 0.25⟩]

/-- The local variables of one iteration of the loop of `makeNebulaPositions`.
`rDraw` is the value of the `rand()` call inside `Math.pow`; `xs ys zs` are `x y z` as
first assigned (spherical to Cartesian); `yFlat` is `y` after `y *= 0.55`; `x y z` are the
values stored in the array. -/
structure NebulaSample (K : Type) where
  isClump : Bool
  c : Vec3 K
  rDraw : K
  r : K
  theta : K
  u : K
  phi : K
  xs : K
  ys : K
  zs : K
  yFlat : K
  x : K
  y : K
  z : K

/-- One iteration of the loop of `makeNebulaPositions`, from the counter `t` of `rand`;
returns the locals of the iteration and the new counter.  The sixth draw (`tight`) is made
only when `isClump` holds: otherwise the stored point is the point before the pull and the
counter is the one left by the fifth draw. -/
def nebulaIter (M : JSMath K) (radius : K) (t : Nat) : NebulaSample K × Nat :=
  let d1 := rand t
  let isClump : Bool := decide (d1.1 < 0.72)
  let d2 := rand d1.2
  let c : Vec3 K := (clumps (K := K)).getD (Int.toNat ⌊d2.1 * 4⌋) ⟨0, 0, 0⟩
  let d3 := rand d2.2
  let r := radius * M.pow (d3.1 : K) (if isClump then 2.35 else 1.35)
  let d4 := rand d3.2
  let theta := (d4.1 : K) * M.PI * 2
  let d5 := rand d4.2
  let u := (d5.1 : K) * 2 - 1
  let phi := M.acos u
  let xs := r * M.sin phi * M.cos theta
  let ys := r * M.sin phi * M.sin theta
  let zs := r * M.cos phi
  let yFlat := ys * 0.55
  let d6 := rand d5.2
  let tight := 0.48 + (d6.1 : K) * 0.32
  ({ isClump := isClump, c := c, rDraw := (d3.1 : K), r := r, theta := theta, u := u,
     phi := phi, xs := xs, ys := ys, zs := zs, yFlat := yFlat,
     x := if isClump then xs * tight + c.x else xs,
     y := if isClump then yFlat * tight + c.y else yFlat,
     z := if isClump then zs * tight + c.z else zs },
   if isClump then d6.2 else d5.2)

/-- The loop of `makeNebulaPositions`: `count` iterations from counter `t`. -/
def nebulaLoop (M : JSMath K) (radius : K) : Nat → Nat → List (NebulaSample K)
  | 0, _ => []
  | n + 1, t =>
    let it := nebulaIter M radius t
    it.1 :: nebulaLoop M radius n it.2

/-- The iterations performed by `makeNebulaPositions({ count, radius, seed })`. -/
def nebulaSamples (M : JSMath K) (count : Nat) (radius : K) (seed : Int) :
    List (NebulaSample K) :=
  nebulaLoop M radius count (mulberry32 seed)

/-- The array returned by `makeNebulaPositions({ count, radius, seed })` (the rounding of
the stored values to 32-bit floats is not modelled). -/
def makeNebulaPositions (M : JSMath K) (count : Nat) (radius : K) (seed : Int) : List K :=
  (nebulaSamples M count radius seed).flatMap fun s => [s.x, s.y, s.z]

/-! ## One-shot effect pulses -/

/-- The object held by `shockRef`, `burstRef` or `microFlashRef`. -/
structure Pulse (K : Type) where
  a : K
  s : K

/-- The scene nodes of an effect component: `meshRef.current` (its scale) and
`matRef.current` (its opacity); `none` while not mounted. -/
structure FxNode (K : Type) where
  meshScale : Option (Vec3 K)
  matOpacity : Option K

/-- The frame callback of `BurstSprite`. -/
def BurstSprite.useFrame (delta : K) (n : FxNode K) (p : Pulse K) : FxNode K × Pulse K :=
  match n.meshScale, n.matOpacity with
  | some _, some _ =>
    ({ meshScale := some ⟨p.s, p.s, 1⟩, matOpacity := some p.a },
     { a := max 0 (p.a - delta * 3.2), s := max 0 (p.s - delta * 0.35) })
  | _, _ => (n, p)

/-- The frame callback of `ShockwaveRing`. -/
def ShockwaveRing.useFrame (delta : K) (n : FxNode K) (p : Pulse K) : FxNode K × Pulse K :=
  match n.meshScale, n.matOpacity with
  | some _, some _ =>
    ({ meshScale := some ⟨p.s, p.s, 1⟩, matOpacity := some p.a },
     { a := max 0 (p.a - delta * 1.8), s := min 20 (p.s + delta * 6.0) })
  | _, _ => (n, p)

/-- The frame callback of `MicroExplosion`. -/
def MicroExplosion.useFrame (delta : K) (n : FxNode K) (p : Pulse K) : FxNode K × Pulse K :=
  match n.meshScale, n.matOpacity with
  | some _, some _ =>
    ({ meshScale := some ⟨p.s, p.s, 1⟩, matOpacity := some p.a },
     { a := max 0 (p.a - delta * 2.8), s := max 0 (p.s - delta * 0.2) })
  | _, _ => (n, p)

/-- A run of frames of an effect component: each frame callback `f` is applied to the
delta of the frame, oldest frame first. -/
def runFx (f : K → FxNode K → Pulse K → FxNode K × Pulse K) :
    List K → FxNode K × Pulse K → FxNode K × Pulse K
  | [], st => st
  | delta :: ds, st => runFx f ds (f delta st.1 st.2)

/-- An effect component whose mesh and material are mounted. -/
def FxNode.mounted (n : FxNode K) : Prop := n.meshScale.isSome ∧ n.matOpacity.isSome

/-- What every frame callback of an effect component guarantees, whether or not its
nodes are mounted: the floor at `0` is kept, and mounted nodes stay mounted. -/
def FloorKept (f : K → FxNode K → Pulse K → FxNode K × Pulse K) : Prop :=
  ∀ (delta : K) (n : FxNode K) (p : Pulse K), 0 ≤ delta → 0 ≤ p.a → 0 ≤ p.s →
    0 ≤ (f delta n p).2.a ∧ 0 ≤ (f delta n p).2.s ∧
      (n.mounted → (f delta n p).1.mounted)

end Generator

/-! ## Scene nodes and animation state -/

/-- The fields of an `Object3D` that the animator reads or writes. -/
structure Mesh (K : Type) where
  position : Vec3 K
  rotation : Vec3 K
  scale : Vec3 K

/-- The fields of the core's `meshStandardMaterial` that the animator writes. -/
structure CoreMat (K : Type) where
  opacity : K
  emissiveIntensity : K

/-- Five values, one per gas cloud (`A` to `E`): the arrays `meshes`, `GAS_SPEEDS` and
`gasStartRef.current`. -/
structure Five (α : Type) where
  a : α
  b : α
  c : α
  d : α
  e : α

/-- The method `Array.prototype.map` on an array of five. -/
def Five.map {α β : Type} (f : α → β) (v : Five α) : Five β :=
  ⟨f v.a, f v.b, f v.c, f v.d, f v.e⟩

/-- Index-wise combination of two arrays of five (the body of a `for` loop over `i`). -/
def Five.zipWith {α β γ : Type} (f : α → β → γ) (u : Five α) (v : Five β) : Five γ :=
  ⟨f u.a v.a, f u.b v.b, f u.c v.c, f u.d v.d, f u.e v.e⟩

/-- The elements of an array of five, in order. -/
def Five.toList {α : Type} (v : Five α) : List α := [v.a, v.b, v.c, v.d, v.e]

/-- An entry of `gasStartRef.current`: the polar snapshot of a gas-cloud node. -/
structure GasStart (K : Type) where
  r0 : K
  theta0 : K
  z0 : K
  scale : Vec3 K
  rotZ : K

/-- The refs of `BlackHoleSignature` and of its effect components.  A ref to a scene node
holds `none` while the node is not mounted; a material ref holds the fields of the material
that the animator writes. -/
structure Anim (K : Type) where
  coreRef : Option (Mesh K)
  coreMatRef : Option (CoreMat K)
  diskRef : Option (Mesh K)
  /-- The `opacity` of the disk material. -/
  diskMatRef : Option K
  /-- The `opacity` of the highlight material. -/
  highlightMatRef : Option K
  highlightOpacityRef : K
  /-- The `opacity` of the three particle-layer materials. -/
  nebulaOuterMatRef : Option K
  nebulaMidMatRef : Option K
  nebulaCoreMatRef : Option K
  /-- The uniform `uOpacity` of the five gas materials (`gasARef` to `gasERef`). -/
  gasRefs : Five (Option K)
  /-- The five gas meshes (`gasAMeshRef` to `gasEMeshRef`). -/
  gasMeshRefs : Five (Option (Mesh K))
  spinRef : K
  nebulaOpacityRef : K
  swirlRef : K
  swirlTargetRef : K
  swirlStarsOpacityRef : K
  microFlashRef : Pulse K
  burstRef : Pulse K
  shockRef : Pulse K
  lastStageRef : String
  gasStartRef : Option (Five (GasStart K))
  /-- The nodes of `MicroExplosion`, `BurstSprite` and `ShockwaveRing`. -/
  microFlashNode : FxNode K
  burstNode : FxNode K
  shockNode : FxNode K

/-- An entry of the table `STAGES`. -/
structure StageProfile (K : Type) where
  coreGlow : K
  coreOpacity : K
  coreScale : K
  diskScale : K
  spin : K
  nebulaOpacity : K
  diskOpacity : K
  highlightOpacity : K

section Animator

variable {K : Type} [LinearOrderedField K]

/-- The entry `STAGES.nebula`. -/
def STAGES.nebula : StageProfile K :=
  { coreGlow := 0.05, coreOpacity := 0.08, coreScale := 0.65, diskScale := 0.0, spin := 0.05,
    nebulaOpacity := 1.0, diskOpacity := 0.0, highlightOpacity := 0.0 }

/-- The entry `STAGES.star`. -/
def STAGES.star : StageProfile K :=
  { coreGlow := 1.35, coreOpacity := 1.0, coreScale := 1.05, diskScale := 1.6, spin := 0.5,
    nebulaOpacity := 0.45, diskOpacity := 0.5, highlightOpacity := 0.25 }

/-- The entry `STAGES.supergiant`. -/
def STAGES.supergiant : StageProfile K :=
  { coreGlow := 2.2, coreOpacity := 1.0, coreScale := 1.25, diskScale := 2.6, spin := 0.9,
    nebulaOpacity := 0.25, diskOpacity := 0.65, highlightOpacity := 0.35 }

/-- The lookup `STAGES[stage]`; `none` is `undefined`. -/
def STAGES.lookup (stage : String) : Option (StageProfile K) :=
  if stage = "nebula" then some STAGES.nebula
  else if stage = "star" then some STAGES.star
  else if stage = "supergiant" then some STAGES.supergiant
  else none

/-- The table `GAS_BASE`, as the node that the mount effect of `NebulaGas` sets up. -/
def GAS_BASE : Five (Mesh K) :=
  ⟨{ position := ⟨0.0, 0.0, -0.35⟩, rotation := ⟨0, 0, 0.10⟩, scale := ⟨9.6, 5.4, 1⟩ },
   { position := ⟨0.6, -0.2, -0.28⟩, rotation := ⟨0, 0, -0.22⟩, scale := ⟨7.8, 4.3, 1⟩ },
   { position := ⟨-0.7, 0.25, -0.25⟩, rotation := ⟨0, 0, 0.32⟩, scale := ⟨6.3, 3.7, 1⟩ },
   { position := ⟨1.05, 0.15, -0.22⟩, rotation := ⟨0, 0, -0.55⟩, scale := ⟨5.6, 3.2, 1⟩ },
   { position := ⟨-1.05, -0.15, -0.20⟩, rotation := ⟨0, 0, 0.62⟩, scale := ⟨5.2, 3.0, 1⟩ }⟩

/-- The table `GAS_SPEEDS`. -/
def GAS_SPEEDS : Five K := ⟨0.010, 0.012, 0.009, 0.008, 0.007⟩

/-- The constant `BASE_OUTER`. -/
def BASE_OUTER : K := 1.6

/-- The constant `BASE_MID`. -/
def BASE_MID : K := 1.35

/-- The constant `BASE_CORE`. -/
def BASE_CORE : K := 1.1

/-- The constant `Y_FLATTEN`. -/
def Y_FLATTEN : K := 0.55

/-- The constant `SWIRL_TURNS`. -/
def SWIRL_TURNS : K := 6.0

/-! ## The frame callback of `BlackHoleSignature` -/

/-- The statement `node.rotation.y += amount`. -/
def Mesh.addRotationY (amount : K) (m : Mesh K) : Mesh K :=
  { m with rotation := { m.rotation with y := m.rotation.y + amount } }

/-- The statement `m.rotation.z += amount`. -/
def Mesh.addRotationZ (amount : K) (m : Mesh K) : Mesh K :=
  { m with rotation := { m.rotation with z := m.rotation.z + amount } }

/-- The smoothing statement
`swirlRef.current += (swirlTargetRef.current - swirlRef.current) * (1 - Math.pow(0.0008, delta))`:
the new value of `swirlRef.current`. -/
def swirlSmooth (M : JSMath K) (target delta progress : K) : K :=
  progress + (target - progress) * (1 - M.pow 0.0008 delta)

/-- The polar capture of a gas mesh: the object literal built both in the stage handler and
as the fallback of the frame callback. -/
def GasStart.capture (M : JSMath K) (m : Mesh K) : GasStart K :=
  { r0 := M.hypot m.position.x m.position.y
    theta0 := M.atan2 m.position.y m.position.x
    z0 := m.position.z
    scale := m.scale
    rotZ := m.rotation.z }

/-- The angle `theta = start.theta0 + p * SWIRL_TURNS`, the argument of `Math.cos` and
`Math.sin` in the swirl transform. -/
def swirlTheta (theta0 p : K) : K := theta0 + p * SWIRL_TURNS

/-- The body of the swirl loop for a mounted mesh `m` with start record `start`. -/
def swirlTransform (M : JSMath K) (p : K) (start : GasStart K) (m : Mesh K) : Mesh K :=
  let theta := swirlTheta start.theta0 p
  let r := start.r0 * (1 - p)
  let x := M.cos theta * r
  let y := M.sin theta * r * Y_FLATTEN
  let k := 1 - p * 0.78
  { position := ⟨x, y, start.z0⟩
    scale := ⟨start.scale.x * k, start.scale.y * k, start.scale.z⟩
    rotation := { m.rotation with z := start.rotZ + p * 1.25 } }

/-- One iteration of the loop under `if (p < 0.0001)`. -/
def gasPassive (delta : K) (speed : K) (m : Option (Mesh K)) : Option (Mesh K) :=
  m.map (Mesh.addRotationZ (delta * speed))

/-- One iteration of the loop under `if (p > 0.0001)`; `start` is
`gasStartRef.current?.[i]`, and the fallback `??` is the capture of the mesh as it is. -/
def gasSwirl (M : JSMath K) (p : K) (start : Option (GasStart K)) (m : Option (Mesh K)) :
    Option (Mesh K) :=
  m.map fun m => swirlTransform M p (start.getD (GasStart.capture M m)) m

/-- The array of `gasStartRef.current?.[i]` for the five indices. -/
def gasStarts (g : Option (Five (GasStart K))) : Five (Option (GasStart K)) :=
  match g with
  | none => ⟨none, none, none, none, none⟩
  | some v => v.map some

/-- The frame callback `useFrame((state, delta) => ...)` of `BlackHoleSignature`. -/
def useFrame (M : JSMath K) (delta : K) (s : Anim K) : Anim K :=
  let core := s.coreRef.map (Mesh.addRotationY (delta * 0.12))
  let disk := s.diskRef.map (Mesh.addRotationY (delta * s.spinRef))
  let highlight := s.highlightMatRef.map fun _ => s.highlightOpacityRef
  let swirl := swirlSmooth M s.swirlTargetRef delta s.swirlRef
  let o := s.nebulaOpacityRef
  let outer := s.nebulaOuterMatRef.map fun _ => BASE_OUTER * o
  let mid := s.nebulaMidMatRef.map fun _ => BASE_MID * o
  let inner := s.nebulaCoreMatRef.map fun _ => BASE_CORE * o
  let gas : Five (Option K) :=
    ⟨s.gasRefs.a.map fun _ => 0.45 * o, s.gasRefs.b.map fun _ => 0.30 * o,
     s.gasRefs.c.map fun _ => 0.18 * o, s.gasRefs.d.map fun _ => 0.16 * o,
     s.gasRefs.e.map fun _ => 0.14 * o⟩
  let p := swirl
  let meshes := s.gasMeshRefs
  let meshes :=
    if p < 0.0001 then Five.zipWith (gasPassive delta) GAS_SPEEDS meshes
    else meshes
  let meshes :=
    if p > 0.0001 then
      Five.zipWith (gasSwirl M p) (gasStarts s.gasStartRef) meshes
    else meshes
  { s with
    coreRef := core, diskRef := disk, highlightMatRef := highlight, swirlRef := swirl,
    nebulaOuterMatRef := outer, nebulaMidMatRef := mid, nebulaCoreMatRef := inner,
    gasRefs := gas, gasMeshRefs := meshes }

/-- All frame callbacks that touch the animation state, for one frame: the callback of
`BlackHoleSignature` and those of the three effect components (they act on disjoint
fields, so their order is immaterial). -/
def frame (M : JSMath K) (delta : K) (s : Anim K) : Anim K :=
  let shock := ShockwaveRing.useFrame delta s.shockNode s.shockRef
  let burst := BurstSprite.useFrame delta s.burstNode s.burstRef
  let flash := MicroExplosion.useFrame delta s.microFlashNode s.microFlashRef
  useFrame M delta
    { s with
      shockNode := shock.1, shockRef := shock.2, burstNode := burst.1, burstRef := burst.2,
      microFlashNode := flash.1, microFlashRef := flash.2 }

end Animator

/-! ## The tweening library

`gsap` is an external collaborator whose code is not part of the repository.  Its model
follows the contract of the specification (a tween interpolates named numeric fields of a
target over a duration with an easing curve; a timeline fires its children at fixed
offsets from its start, in order; cancelling a timeline stops all its pending work without
executing it) and keeps what the stage handler relies on: a tween records the values of
its properties when it is first rendered and ends exactly on its end values; a tween
created with `overwrite: true` kills every other tween of the same target.  The calls
that build a timeline (`gsap.timeline`, `tl.to`, `tl.add`) are one operation that takes the
list of children. -/

/-- The eases named in the source (`power2.out`, `power3.out`, `power3.inOut`). -/
inductive Ease where
  | power2Out
  | power3Out
  | power3InOut
  deriving DecidableEq

/-- The target objects of the tweens of the source and the properties tweened on them:
a ref (`current`), `coreRef.current.scale` and `diskRef.current.scale` (`x, y, z`),
`coreMatRef.current` (`opacity, emissiveIntensity`), `diskMatRef.current` (`opacity`). -/
inductive Target where
  | highlightOpacityRef
  | swirlTargetRef
  | nebulaOpacityRef
  | coreScale
  | coreMat
  | diskScale
  | diskMat
  | spinRef
  | swirlStarsOpacityRef
  deriving DecidableEq

/-- The callbacks added to a timeline by the source: the ignition callback at `1.42`. -/
inductive Callback where
  | boom
  deriving DecidableEq

/-- A tween `to(target, { ...vars, duration, ease })`: the end values `vars` of the
tweened properties of `target`. -/
structure Tween (K : Type) where
  target : Target
  vars : List K
  duration : K
  ease : Ease

/-- A child of a timeline, at position `pos`: a tween, with the start values it recorded
when it was first rendered (`none` before), or a callback. -/
inductive Child (K : Type) where
  | tween (pos : K) (tw : Tween K) (start : Option (List K))
  | call (pos : K) (cb : Callback)

/-- A timeline with its playhead `time`.  A tween made by `gsap.to` alone is a timeline
with that single child. -/
structure Timeline (K : Type) where
  id : Nat
  time : K
  children : List (Child K)

/-- The live animations of the library and the next fresh identifier. -/
structure Gsap (K : Type) where
  root : List (Timeline K)
  nextId : Nat

/-- The state of the mounted component: the refs, the live animations, the `stage` prop of
the last render (`none` before the first) and the timeline killed by the cleanup function
that the last run of the stage effect returned. -/
structure World (K : Type) where
  anim : Anim K
  gsap : Gsap K
  stage : Option String
  cleanup : Option Nat

/-- What can happen to the mounted component: a render with the given `stage` prop, a tick
of the tweening library, a frame of the render loop. -/
inductive Event (K : Type) where
  | setStage (stage : String)
  | tick (dt : K)
  | frame (delta : K)

section Sequencer

variable {K : Type} [LinearOrderedField K]

/-- Modelled from the spec: the easing curves of the tweening library, which is external;
`powerN.out` is `1 - (1 - p)^(N+1)` and `powerN.inOut` its symmetric two-sided form.  No
statement below depends on the shape of a curve. -/
def Ease.apply (e : Ease) (p : K) : K :=
  match e with
  | .power2Out => 1 - (1 - p) ^ 3
  | .power3Out => 1 - (1 - p) ^ 4
  | .power3InOut => if p < 0.5 then (p * 2) ^ 4 / 2 else 1 - ((1 - p) * 2) ^ 4 / 2

/-- The current values of the tweened properties of a target (empty when the node is not
mounted). -/
def Target.read (x : Target) (s : Anim K) : List K :=
  match x with
  | .highlightOpacityRef => [s.highlightOpacityRef]
  | .swirlTargetRef => [s.swirlTargetRef]
  | .nebulaOpacityRef => [s.nebulaOpacityRef]
  | .coreScale =>
    match s.coreRef with
    | some m => [m.scale.x, m.scale.y, m.scale.z]
    | none => []
  | .coreMat =>
    match s.coreMatRef with
    | some m => [m.opacity, m.emissiveIntensity]
    | none => []
  | .diskScale =>
    match s.diskRef with
    | some m => [m.scale.x, m.scale.y, m.scale.z]
    | none => []
  | .diskMat =>
    match s.diskMatRef with
    | some o => [o]
    | none => []
  | .spinRef => [s.spinRef]
  | .swirlStarsOpacityRef => [s.swirlStarsOpacityRef]

/-- Assignment of the tweened properties of a target. -/
def Target.write (x : Target) (v : List K) (s : Anim K) : Anim K :=
  match x, v with
  | .highlightOpacityRef, [c] => { s with highlightOpacityRef := c }
  | .swirlTargetRef, [c] => { s with swirlTargetRef := c }
  | .nebulaOpacityRef, [c] => { s with nebulaOpacityRef := c }
  | .coreScale, [x, y, z] =>
    { s with coreRef := s.coreRef.map fun m => { m with scale := ⟨x, y, z⟩ } }
  | .coreMat, [o, e] =>
    { s with coreMatRef := s.coreMatRef.map fun _ => { opacity := o, emissiveIntensity := e } }
  | .diskScale, [x, y, z] =>
    { s with diskRef := s.diskRef.map fun m => { m with scale := ⟨x, y, z⟩ } }
  | .diskMat, [o] => { s with diskMatRef := s.diskMatRef.map fun _ => o }
  | .spinRef, [c] => { s with spinRef := c }
  | .swirlStarsOpacityRef, [c] => { s with swirlStarsOpacityRef := c }
  | _, _ => s

/-- The ignition callback added at `1.42`. -/
def boomCallback (s : Anim K) : Anim K :=
  { s with
    shockRef := { a := 0.9, s := 0.15 }
    burstRef := { a := 1.0, s := 3.4 }
    microFlashRef := { a := 0.9, s := 1.2 } }

/-- Execution of a callback. -/
def Callback.run (cb : Callback) (s : Anim K) : Anim K :=
  match cb with
  | .boom => boomCallback s

/-- Modelled from the spec: rendering of a tween of the tweening library (external) at local
time `t`, the time since its start position.  The start values are recorded on the first
render; the properties are set to `start + (end - start) * weight`, where `weight` is `1`
from the end of the duration on.  Returns the recorded start values and the new state. -/
def Tween.render (t : K) (tw : Tween K) (start : Option (List K)) (s : Anim K) :
    List K × Anim K :=
  let st := start.getD (tw.target.read s)
  let weight := if tw.duration ≤ t then 1 else tw.ease.apply (t / tw.duration)
  (st, tw.target.write (List.zipWith (fun a b => a + (b - a) * weight) st tw.vars) s)

/-- Modelled from the spec: rendering of a child of a timeline of the tweening library
(external) when the playhead moves from `t0` to `t1`.  A tween that the playhead has not
reached, or that was complete at `t0`, is left alone; a callback runs when the playhead
passes its position. -/
def Child.advance (t0 t1 : K) (c : Child K) (s : Anim K) : Child K × Anim K :=
  match c with
  | .tween pos tw start =>
    if t1 < pos then (c, s)
    else if pos + tw.duration ≤ t0 then (c, s)
    else
      let r := tw.render (t1 - pos) start s
      (.tween pos tw (some r.1), r.2)
  | .call pos cb =>
    if t0 < pos ∧ pos ≤ t1 then (c, cb.run s) else (c, s)

/-- Modelled from the spec: rendering of the children of a timeline of the tweening library
(external), in order. -/
def advanceChildren (t0 t1 : K) : List (Child K) → Anim K → List (Child K) × Anim K
  | [], s => ([], s)
  | c :: cs, s =>
    let r := c.advance t0 t1 s
    let rs := advanceChildren t0 t1 cs r.2
    (r.1 :: rs.1, rs.2)

/-- Modelled from the spec: advance of the playhead of a timeline of the tweening library
(external) by `dt`. -/
def Timeline.advance (dt : K) (tl : Timeline K) (s : Anim K) : Timeline K × Anim K :=
  let r := advanceChildren tl.time (tl.time + dt) tl.children s
  ({ tl with time := tl.time + dt, children := r.1 }, r.2)

/-- Modelled from the spec: advance of the live timelines of the tweening library (external)
by `dt`, in order. -/
def advanceAll (dt : K) : List (Timeline K) → Anim K → List (Timeline K) × Anim K
  | [], s => ([], s)
  | tl :: tls, s =>
    let r := tl.advance dt s
    let rs := advanceAll dt tls r.2
    (r.1 :: rs.1, rs.2)

/-- Modelled from the spec: a tick of the tweening library (external); every live animation
advances by `dt`. -/
def Gsap.tick (dt : K) (g : Gsap K) (s : Anim K) : Gsap K × Anim K :=
  let r := advanceAll dt g.root s
  ({ g with root := r.1 }, r.2)

/-- The target of a child that is a tween. -/
def Child.tweenTarget : Child K → Option Target
  | .tween _ tw _ => some tw.target
  | .call _ _ => none

/-- Whether a child is a tween of the target `x`. -/
def Child.targets (x : Target) (c : Child K) : Bool := decide (c.tweenTarget = some x)

/-- Modelled from the spec: the option `overwrite: true` of the tweening library (external).
Whether a child survives the creation of tweens of the targets `xs`: every existing tween
of one of these targets is killed. -/
def Child.survives (xs : List Target) (c : Child K) : Bool :=
  match c.tweenTarget with
  | some x => !(xs.contains x)
  | none => true

/-- Modelled from the spec: the effect of `overwrite: true` of the tweening library
(external) for new tweens of the targets `xs`. -/
def Gsap.overwrite (xs : List Target) (g : Gsap K) : Gsap K :=
  { g with
    root := g.root.map fun tl =>
      { tl with children := tl.children.filter (Child.survives xs) } }

/-- Modelled from the spec: the call `gsap.timeline({ defaults: { overwrite: true } })` of
the tweening library (external), followed by the calls `tl.to(target, vars, pos)` and
`tl.add(callback, pos)` that give it the children `children`.  The tweens of the same
targets are overwritten and the new timeline starts at time `0`.  The result is the
library state and the identifier of the timeline. -/
def Gsap.timeline (children : List (Child K)) (g : Gsap K) : Gsap K × Nat :=
  ({ root := (g.overwrite (children.filterMap Child.tweenTarget)).root
       ++ [{ id := g.nextId, time := 0, children := children }],
     nextId := g.nextId + 1 }, g.nextId)

/-- Modelled from the spec: the call
`gsap.to(target, { ...vars, duration, ease, overwrite: true })` of the tweening library
(external); a tween on its own is a timeline with that single child. -/
def Gsap.to (x : Target) (vars : List K) (duration : K) (ease : Ease) (g : Gsap K) :
    Gsap K :=
  (g.timeline
    [.tween 0 { target := x, vars := vars, duration := duration, ease := ease } none]).1

/-- Modelled from the spec: the call `tl.kill()` of the tweening library (external) on the
timeline `id`; the timeline is removed without running anything. -/
def Gsap.kill (id : Nat) (g : Gsap K) : Gsap K :=
  { g with root := g.root.filter fun tl => decide (tl.id ≠ id) }

/-! ## The stage handler -/

/-- The polar capture of the stage handler: `meshes.map(...)` when `meshes.every(Boolean)`,
`null` otherwise. -/
def captureAll (M : JSMath K) (meshes : Five (Option (Mesh K))) :
    Option (Five (GasStart K)) :=
  match meshes.a, meshes.b, meshes.c, meshes.d, meshes.e with
  | some a, some b, some c, some d, some e =>
    some ⟨GasStart.capture M a, GasStart.capture M b, GasStart.capture M c,
          GasStart.capture M d, GasStart.capture M e⟩
  | _, _, _, _, _ => none

/-- The children that the `nebula -> star` branch gives to its timeline, in the order of
the calls `tl.to` and `tl.add`; the tweens of the core and of the disk are added only when
the node is mounted. -/
def starChildren (a : Anim K) : List (Child K) :=
  let s : StageProfile K := STAGES.star
  [ .tween 0 { target := .swirlTargetRef, vars := [1], duration := 1.6,
               ease := .power3InOut } none,
    .tween 0.1 { target := .nebulaOpacityRef, vars := [s.nebulaOpacity], duration := 1.2,
                 ease := .power2Out } none,
    .call 1.42 .boom ]
    ++ (if a.coreRef.isSome then
          [.tween 1.48 { target := .coreScale,
                         vars := [s.coreScale, s.coreScale, s.coreScale],
                         duration := 0.45, ease := .power3Out } none]
        else [])
    ++ (if a.coreMatRef.isSome then
          [.tween 1.48 { target := .coreMat, vars := [s.coreOpacity, s.coreGlow],
                         duration := 0.55, ease := .power3Out } none]
        else [])
    ++ (if a.diskRef.isSome then
          [.tween 1.58 { target := .diskScale, vars := [s.diskScale, s.diskScale, 1],
                         duration := 0.9, ease := .power3Out } none]
        else [])
    ++ (if a.diskMatRef.isSome then
          [.tween 1.58 { target := .diskMat, vars := [s.diskOpacity], duration := 0.7,
                         ease := .power2Out } none]
        else [])
    ++ [ .tween 1.58 { target := .spinRef, vars := [s.spin], duration := 0.9,
                       ease := .power2Out } none,
         .tween 1.48 { target := .swirlStarsOpacityRef, vars := [0], duration := 0.35,
                       ease := .power2Out } none ]

/-- The body of the effect `useEffect(() => { ... }, [stage])`.  The field `cleanup` of the
result is the timeline that the returned cleanup function kills (`none` when the effect
returns nothing). -/
def stageEffect (M : JSMath K) (stage : String) (w : World K) : World K :=
  let prev := w.anim.lastStageRef
  let a : Anim K := { w.anim with lastStageRef := stage }
  let targetHighlight : K :=
    match STAGES.lookup (K := K) stage with
    | some profile => profile.highlightOpacity
    | none => 0
  let g := w.gsap.to .highlightOpacityRef [targetHighlight]
    (if stage = "nebula" then 0.25 else 0.6) .power2Out
  if prev = "nebula" ∧ stage = "star" then
    let a : Anim K :=
      { a with
        gasStartRef := captureAll M a.gasMeshRefs
        swirlTargetRef := a.swirlRef
        swirlStarsOpacityRef := 1 }
    let r := g.timeline (starChildren a)
    { w with anim := a, gsap := r.1, cleanup := some r.2 }
  else if stage = "nebula" then
    let n : StageProfile K := STAGES.nebula
    let a : Anim K :=
      { a with
        swirlTargetRef := 0
        swirlStarsOpacityRef := 1
        gasStartRef := none
        diskRef := a.diskRef.map fun m => { m with scale := ⟨n.diskScale, n.diskScale, 1⟩ }
        diskMatRef := a.diskMatRef.map fun _ => n.diskOpacity
        spinRef := n.spin
        microFlashRef := { a := 0, s := 1.0 }
        burstRef := { a := 0, s := 2.8 }
        shockRef := { a := 0, s := 0.15 } }
    { w with anim := a, gsap := g, cleanup := none }
  else
    { w with anim := a, gsap := g, cleanup := none }

/-- One event of the mounted component.  The scheduling of effects is that of the host
(React, external): a render with an unchanged `stage` prop does not run the effect; a
render with a new one first runs the cleanup function returned by the previous run of the
effect, then the effect.  A tick advances the tweening library, a frame runs the frame
callbacks. -/
def step (M : JSMath K) (w : World K) : Event K → World K
  | .setStage stage =>
    if w.stage = some stage then w
    else
      let g := match w.cleanup with
        | some id => w.gsap.kill id
        | none => w.gsap
      stageEffect M stage { w with gsap := g, stage := some stage, cleanup := none }
  | .tick dt =>
    let r := w.gsap.tick dt w.anim
    { w with gsap := r.1, anim := r.2 }
  | .frame delta => { w with anim := frame M delta w.anim }

/-- A sequence of events, oldest first. -/
def run (M : JSMath K) (w : World K) (es : List (Event K)) : World K :=
  es.foldl (step M) w

/-- The component before its first render commits: refs `a`, no animation. -/
def World.init (a : Anim K) : World K :=
  { anim := a, gsap := { root := [], nextId := 0 }, stage := none, cleanup := none }

/-- The refs at mount: every `useRef` at its initial value, every node mounted with the
props of its JSX element, the gas meshes placed by the mount effect of `NebulaGas`. -/
def mountAnim (M : JSMath K) : Anim K :=
  { coreRef := some { position := ⟨0, 0, 0⟩, rotation := ⟨0, 0, 0⟩, scale := ⟨1, 1, 1⟩ }
    coreMatRef := some { opacity := (STAGES.nebula (K := K)).coreOpacity,
                         emissiveIntensity := (STAGES.nebula (K := K)).coreGlow }
    diskRef := some { position := ⟨0, 0, 0⟩, rotation := ⟨M.PI / 2.2, 0, 0⟩,
                      scale := ⟨(STAGES.nebula (K := K)).diskScale,
                                (STAGES.nebula (K := K)).diskScale, 1⟩ }
    diskMatRef := some (STAGES.nebula (K := K)).diskOpacity
    highlightMatRef := some 0
    highlightOpacityRef := (STAGES.nebula (K := K)).highlightOpacity
    nebulaOuterMatRef := some 1
    nebulaMidMatRef := some 1
    nebulaCoreMatRef := some 1
    gasRefs := ⟨some 0.25, some 0.25, some 0.25, some 0.25, some 0.25⟩
    gasMeshRefs := (GAS_BASE (K := K)).map some
    spinRef := (STAGES.nebula (K := K)).spin
    nebulaOpacityRef := (STAGES.nebula (K := K)).nebulaOpacity
    swirlRef := 0
    swirlTargetRef := 0
    swirlStarsOpacityRef := 1
    microFlashRef := { a := 0, s := 1.0 }
    burstRef := { a := 0, s := 2.8 }
    shockRef := { a := 0, s := 0.15 }
    lastStageRef := "nebula"
    gasStartRef := none
    microFlashNode := { meshScale := some ⟨1, 1, 1⟩, matOpacity := some 0 }
    burstNode := { meshScale := some ⟨1, 1, 1⟩, matOpacity := some 0 }
    shockNode := { meshScale := some ⟨1, 1, 1⟩, matOpacity := some 0 } }

end Sequencer

/-- The `Math` object on the real numbers (doubles idealised as reals): the real power,
sine, cosine and arc cosine, the Euclidean norm, and the argument of `x + iy` for
`atan2(y, x)`. -/
noncomputable def realMath : JSMath ℝ :=
  { pow := fun a b => a ^ b
    sin := Real.sin
    cos := Real.cos
    acos := Real.arccos
    hypot := fun x y => Real.sqrt (x ^ 2 + y ^ 2)
    atan2 := fun y x => Complex.arg ⟨x, y⟩
    PI := Real.pi }

/-- A state of the scene in collapse: the refs at mount with the swirl target at `1`. -/
noncomputable def collapsingAnim : Anim ℝ :=
  { mountAnim realMath with swirlTargetRef := 1 }

/-! ## Invariants of the sequencer -/

section Invariant

variable {K : Type} [LinearOrderedField K]

/-- A child without the start values it has recorded. -/
def Child.forget : Child K → Child K
  | .tween pos tw _ => .tween pos tw none
  | .call pos cb => .call pos cb

/-- The condition on a child of a timeline whose playhead is at `time`, in the state `s`:
a tween has a positive duration, as many end values (and recorded start values) as its
target has tweened properties, and, once the playhead has passed its end, its target holds
exactly its end values. -/
def ChildOK (time : K) (s : Anim K) : Child K → Prop
  | .tween pos tw start =>
    0 < tw.duration ∧ (tw.target.read s).length = tw.vars.length ∧
      (∀ st, start = some st → st.length = tw.vars.length) ∧
      (pos + tw.duration ≤ time → tw.target.read s = tw.vars)
  | .call _ _ => True

/-- The targets of all live tweens, timeline by timeline. -/
def rootTargets (root : List (Timeline K)) : List Target :=
  root.flatMap fun tl => tl.children.filterMap Child.tweenTarget

/-- A timeline all of whose children are tweens of `highlightOpacityRef`. -/
def Timeline.highlightOnly (tl : Timeline K) : Prop :=
  ∀ c ∈ tl.children, c.tweenTarget = some Target.highlightOpacityRef

/-- The invariant of the live animations `g` in the state `a`, where `owner` is the
timeline that the pending cleanup function kills: every child is in order (`ChildOK`); no
two live tweens have the same target; identifiers are distinct and below the next fresh
one; and every timeline other than `owner` holds only tweens of `highlightOpacityRef`. -/
def GInv (a : Anim K) (owner : Option Nat) (g : Gsap K) : Prop :=
  (∀ tl ∈ g.root, ∀ c ∈ tl.children, ChildOK tl.time a c) ∧
    (rootTargets g.root).Nodup ∧
    (∀ tl ∈ g.root, tl.id < g.nextId) ∧
    (g.root.map fun tl => tl.id).Nodup ∧
    (∀ tl ∈ g.root, owner = some tl.id ∨ tl.highlightOnly)

/-- The relation between a timeline and the same timeline `dt` later: same identifier,
playhead advanced by `dt`, same children up to the start values they have recorded. -/
def Timeline.Later (dt : K) (tl tl2 : Timeline K) : Prop :=
  tl2.id = tl.id ∧ tl2.time = tl.time + dt ∧
    tl2.children.map Child.forget = tl.children.map Child.forget

/-- The invariant of the mounted component. -/
def Inv (w : World K) : Prop := GInv w.anim w.cleanup w.gsap

/-- Whether an event is a render with a `stage` prop. -/
def Event.isStage : Event K → Bool
  | .setStage _ => true
  | _ => false

/-- The time by which the ticks among the events advance the tweening library. -/
def tickSum : List (Event K) → K
  | [] => 0
  | .tick dt :: es => dt + tickSum es
  | _ :: es => tickSum es

/-- Which of the nodes that the stage handler tests are mounted: core mesh, core material,
disk mesh, disk material. -/
def presence (a : Anim K) : Bool × Bool × Bool × Bool :=
  (a.coreRef.isSome, a.coreMatRef.isSome, a.diskRef.isSome, a.diskMatRef.isSome)

/-- The state `a` with every property tweened by the `nebula -> star` transition (and by
the highlight tween for `star`) at its end value. -/
def settledStar (a : Anim K) : Anim K :=
  { a with
    highlightOpacityRef := (STAGES.star (K := K)).highlightOpacity
    swirlTargetRef := 1
    nebulaOpacityRef := (STAGES.star (K := K)).nebulaOpacity
    coreRef := a.coreRef.map fun m =>
      { m with scale := ⟨(STAGES.star (K := K)).coreScale, (STAGES.star (K := K)).coreScale,
                         (STAGES.star (K := K)).coreScale⟩ }
    coreMatRef := a.coreMatRef.map fun _ =>
      { opacity := (STAGES.star (K := K)).coreOpacity,
        emissiveIntensity := (STAGES.star (K := K)).coreGlow }
    diskRef := a.diskRef.map fun m =>
      { m with scale := ⟨(STAGES.star (K := K)).diskScale, (STAGES.star (K := K)).diskScale, 1⟩ }
    diskMatRef := a.diskMatRef.map fun _ => (STAGES.star (K := K)).diskOpacity
    spinRef := (STAGES.star (K := K)).spin
    swirlStarsOpacityRef := 0 }

end Invariant

/-! ## Theorems -/

/-! ### mulberry32 -/

theorem toUint32_lt (z : Int) : toUint32 z < 4294967296 := by
  unfold toUint32
  have h := Int.emod_lt_of_pos z (show (0 : Int) < 4294967296 by norm_num)
  have h0 := Int.emod_nonneg z (show (4294967296 : Int) ≠ 0 by norm_num)
  omega

theorem toUint32_cast (z : Int) : ((toUint32 z : Nat) : Int) = z % 4294967296 := by
  unfold toUint32
  have h0 := Int.emod_nonneg z (show (4294967296 : Int) ≠ 0 by norm_num)
  omega

theorem toUint32_natCast (n : Nat) : toUint32 (n : Int) = n % 4294967296 := by
  unfold toUint32
  omega

theorem toUint32_toInt32 (z : Int) : toUint32 (toInt32 z) = toUint32 z := by
  unfold toUint32 toInt32
  simp only []
  split <;> omega

theorem toUint32_of_lt (n : Nat) (h : n < 4294967296) : toUint32 (n : Int) = n := by
  rw [toUint32_natCast, Nat.mod_eq_of_lt h]

theorem toUint32_add (a b : Int) :
    toUint32 (a + b) = (toUint32 a + toUint32 b) % 4294967296 := by
  unfold toUint32
  omega

theorem toUint32_mul (a b : Int) :
    toUint32 (a * b) = (toUint32 a * toUint32 b) % 4294967296 := by
  have h : ((toUint32 (a * b) : Nat) : Int)
      = (((toUint32 a * toUint32 b) % 4294967296 : Nat) : Int) := by
    push_cast
    rw [toUint32_cast, toUint32_cast, toUint32_cast, ← Int.mul_emod]
  exact_mod_cast h

theorem toUint32_xor32 (a b : Int) : toUint32 (xor32 a b) = toUint32 a ^^^ toUint32 b := by
  unfold xor32
  rw [toUint32_toInt32, toUint32_of_lt]
  exact Nat.xor_lt_two_pow (n := 32) (toUint32_lt a) (toUint32_lt b)

theorem toUint32_or32 (a b : Int) : toUint32 (or32 a b) = toUint32 a ||| toUint32 b := by
  unfold or32
  rw [toUint32_toInt32, toUint32_of_lt]
  exact Nat.or_lt_two_pow (n := 32) (toUint32_lt a) (toUint32_lt b)

theorem toUint32_ushr32 (a : Int) (k : Nat) :
    toUint32 (ushr32 a k) = toUint32 a >>> (k % 32) := by
  unfold ushr32
  rw [toUint32_of_lt]
  rw [Nat.shiftRight_eq_div_pow]
  exact lt_of_le_of_lt (Nat.div_le_self _ _) (toUint32_lt a)

theorem toUint32_imul (a b : Int) :
    toUint32 (imul a b) = (toUint32 a * toUint32 b) % 4294967296 := by
  unfold imul
  rw [toUint32_toInt32, toUint32_mul, toUint32_toInt32, toUint32_toInt32]

theorem randBits_eq_refMix (t : Nat) : randBits t = refMix (t % 4294967296) := by
  unfold randBits refMix
  simp only [toUint32_ushr32, toUint32_xor32, toUint32_imul, toUint32_or32, toUint32_add,
    toUint32_natCast]
  have h1 : toUint32 1 = 1 := by decide
  have h61 : toUint32 61 = 61 := by decide
  simp [h1, h61]

theorem rand_fst (t : Nat) :
    (rand t).1 = (randBits (roundDouble (t + 0x6d2b79f5)) : ℚ) / 4294967296 := by
  unfold rand
  simp only []

theorem rand_snd (t : Nat) : (rand t).2 = roundDouble (t + 0x6d2b79f5) := by
  unfold rand
  simp only []

theorem randBits_lt (t : Nat) : randBits t < 4294967296 := by
  unfold randBits
  exact toUint32_lt _

theorem roundDouble_of_lt (n : Nat) (h : n < 9007199254740992) : roundDouble n = n := by
  unfold roundDouble
  rw [if_pos h]

theorem randState_exact (seed : Int) (n : Nat)
    (h : toUint32 seed + n * 0x6d2b79f5 < 9007199254740992) :
    randState seed n = toUint32 seed + n * 0x6d2b79f5 := by
  induction n with
  | zero => simp [randState, mulberry32]
  | succ n ih =>
    have ih1 := ih (by omega)
    simp only [randState, rand_snd, ih1]
    rw [roundDouble_of_lt _ (by omega)]
    ring

theorem refState_eq (seed : Int) (n : Nat) :
    refState seed n = (toUint32 seed + n * 0x6d2b79f5) % 4294967296 := by
  induction n with
  | zero =>
    simp only [refState, Nat.zero_mul, Nat.add_zero]
    exact (Nat.mod_eq_of_lt (toUint32_lt seed)).symm
  | succ n ih =>
    simp only [refState, refAdvance, ih]
    omega

theorem toUint32_congr (a b : Int) (h : a % 4294967296 = b % 4294967296) :
    toUint32 a = toUint32 b := by
  unfold toUint32
  rw [h]

/-- C1: every number returned by the generator created by `mulberry32(seed)` is
`k / 2^32` for an integer `0 ≤ k < 2^32`; hence it lies in `[0, 1)` and is never `1`. -/
theorem mulberry32_output_range (seed : Int) (n : Nat) :
    (∃ k : Nat, k < 4294967296 ∧ randOutput seed n = (k : ℚ) / 4294967296) ∧
      0 ≤ randOutput seed n ∧ randOutput seed n < 1 ∧ randOutput seed n ≠ 1 := by
  have hk := randBits_lt (roundDouble (randState seed (n - 1) + 0x6d2b79f5))
  have hq : ((randBits (roundDouble (randState seed (n - 1) + 0x6d2b79f5)) : Nat) : ℚ)
      < 4294967296 := by exact_mod_cast hk
  have h0 : (0 : ℚ) ≤ (randBits (roundDouble (randState seed (n - 1) + 0x6d2b79f5)) : ℚ) :=
    Nat.cast_nonneg _
  have hlt : randOutput seed n < 1 := by
    unfold randOutput
    rw [rand_fst, div_lt_one (by norm_num)]
    exact hq
  refine ⟨⟨_, hk, rfl⟩, ?_, hlt, ne_of_lt hlt⟩
  unfold randOutput
  rw [rand_fst]
  exact div_nonneg h0 (by norm_num)

/-- C2: as long as the counter `(seed mod 2^32) + n * 0x6d2b79f5` is below `2^53`, the
`n`-th output (`n ≥ 1`) of `mulberry32(seed)`, whose counter is never reduced, equals the
`n`-th output of the reference generator whose state wraps at `2^32`; and a seed congruent
to `seed` modulo `2^32` gives the same `n`-th output of both generators. -/
theorem mulberry32_refines_reference (seed seed2 : Int) (n : Nat) (hn : 1 ≤ n)
    (hexact : toUint32 seed + n * 0x6d2b79f5 < 9007199254740992) :
    randOutput seed n = refOutput seed n ∧
      (seed2 % 4294967296 = seed % 4294967296 →
        randOutput seed2 n = randOutput seed n ∧ refOutput seed2 n = refOutput seed n) := by
  constructor
  · obtain ⟨m, rfl⟩ : ∃ m, n = m + 1 := ⟨n - 1, by omega⟩
    have hs : randState seed m = toUint32 seed + m * 0x6d2b79f5 :=
      randState_exact seed m (by omega)
    unfold randOutput refOutput
    have he : toUint32 seed + m * 0x6d2b79f5 + 0x6d2b79f5
        = toUint32 seed + (m + 1) * 0x6d2b79f5 := by ring
    rw [rand_fst, Nat.add_sub_cancel, hs, roundDouble_of_lt _ (by omega), randBits_eq_refMix,
      refState_eq, he]
  · intro hc
    have hu : toUint32 seed2 = toUint32 seed := toUint32_congr _ _ hc
    have hst : ∀ k, randState seed2 k = randState seed k := by
      intro k
      induction k with
      | zero => simp [randState, mulberry32, hu]
      | succ k ih => simp [randState, ih]
    have hrt : ∀ k, refState seed2 k = refState seed k := by
      intro k
      induction k with
      | zero => simp [refState, hu]
      | succ k ih => simp [refState, ih]
    constructor
    · unfold randOutput
      rw [hst]
    · unfold refOutput
      rw [hrt]

/-- Witness for C2: seed `1337`, third call. -/
theorem mulberry32_refines_reference_witness :
    (1 ≤ 3 ∧ toUint32 1337 + 3 * 0x6d2b79f5 < 9007199254740992) ∧
      randOutput 1337 3 = refOutput 1337 3 ∧
      ((1337 + 4294967296 : Int) % 4294967296 = 1337 % 4294967296 →
        randOutput (1337 + 4294967296) 3 = randOutput 1337 3 ∧
          refOutput (1337 + 4294967296) 3 = refOutput 1337 3) :=
  ⟨⟨by decide, by simp [toUint32]⟩,
    mulberry32_refines_reference 1337 (1337 + 4294967296) 3 (by decide)
      (by simp [toUint32])⟩

/-! ### makeNebulaPositions -/

theorem rand_fst_nonneg (t : Nat) : 0 ≤ (rand t).1 := by
  rw [rand_fst]
  exact div_nonneg (Nat.cast_nonneg _) (by norm_num)

theorem rand_fst_lt_one (t : Nat) : (rand t).1 < 1 := by
  rw [rand_fst, div_lt_one (by norm_num)]
  exact_mod_cast randBits_lt _

theorem mem_nebulaLoop {K : Type} [LinearOrderedField K] (M : JSMath K) (radius : K)
    (s : NebulaSample K) (n t : Nat) (h : s ∈ nebulaLoop M radius n t) :
    ∃ t0, s = (nebulaIter M radius t0).1 := by
  induction n generalizing t with
  | zero => simp [nebulaLoop] at h
  | succ n ih =>
    simp only [nebulaLoop, List.mem_cons] at h
    rcases h with h | h
    · exact ⟨t, h⟩
    · exact ih _ h

theorem length_nebulaLoop {K : Type} [LinearOrderedField K] (M : JSMath K) (radius : K)
    (n t : Nat) : (nebulaLoop M radius n t).length = n := by
  induction n generalizing t with
  | zero => simp [nebulaLoop]
  | succ n ih => simp [nebulaLoop, ih]

theorem nebulaIter_rDraw {K : Type} [LinearOrderedField K] (M : JSMath K) (radius : K)
    (t : Nat) :
    (nebulaIter M radius t).1.rDraw = (((rand (rand (rand t).2).2).1 : ℚ) : K) := by
  unfold nebulaIter
  exact rfl

theorem nebulaIter_r {K : Type} [LinearOrderedField K] (M : JSMath K) (radius : K)
    (t : Nat) :
    (nebulaIter M radius t).1.r
      = radius * M.pow (nebulaIter M radius t).1.rDraw
          (if (nebulaIter M radius t).1.isClump = true then 2.35 else 1.35) := by
  unfold nebulaIter
  exact rfl

theorem nebulaIter_xs {K : Type} [LinearOrderedField K] (M : JSMath K) (radius : K)
    (t : Nat) :
    (nebulaIter M radius t).1.xs
      = (nebulaIter M radius t).1.r * M.sin (nebulaIter M radius t).1.phi
          * M.cos (nebulaIter M radius t).1.theta := by
  unfold nebulaIter
  exact rfl

theorem nebulaIter_ys {K : Type} [LinearOrderedField K] (M : JSMath K) (radius : K)
    (t : Nat) :
    (nebulaIter M radius t).1.ys
      = (nebulaIter M radius t).1.r * M.sin (nebulaIter M radius t).1.phi
          * M.sin (nebulaIter M radius t).1.theta := by
  unfold nebulaIter
  exact rfl

theorem nebulaIter_zs {K : Type} [LinearOrderedField K] (M : JSMath K) (radius : K)
    (t : Nat) :
    (nebulaIter M radius t).1.zs
      = (nebulaIter M radius t).1.r * M.cos (nebulaIter M radius t).1.phi := by
  unfold nebulaIter
  exact rfl

theorem nebulaIter_yFlat {K : Type} [LinearOrderedField K] (M : JSMath K) (radius : K)
    (t : Nat) :
    (nebulaIter M radius t).1.yFlat = (nebulaIter M radius t).1.ys * 0.55 := by
  unfold nebulaIter
  exact rfl

/-- The facts about one loop iteration that the bound on the generated points rests on. -/
theorem nebulaIter_bounds (radius : ℝ) (hr : 0 ≤ radius) (t : Nat) :
    (0 ≤ (nebulaIter realMath radius t).1.rDraw ∧ (nebulaIter realMath radius t).1.rDraw < 1) ∧
      (nebulaIter realMath radius t).1.r
        = radius * (nebulaIter realMath radius t).1.rDraw
            ^ (if (nebulaIter realMath radius t).1.isClump = true then (2.35 : ℝ) else 1.35) ∧
      (0 ≤ (nebulaIter realMath radius t).1.r ∧ (nebulaIter realMath radius t).1.r ≤ radius) ∧
      ((nebulaIter realMath radius t).1.yFlat = 0.55 * (nebulaIter realMath radius t).1.ys ∧
        |(nebulaIter realMath radius t).1.yFlat| ≤ |(nebulaIter realMath radius t).1.ys|) ∧
      Real.sqrt ((nebulaIter realMath radius t).1.xs ^ 2
        + (nebulaIter realMath radius t).1.yFlat ^ 2
        + (nebulaIter realMath radius t).1.zs ^ 2) ≤ radius := by
  have hD := nebulaIter_rDraw realMath radius t
  have hR := nebulaIter_r realMath radius t
  have hX := nebulaIter_xs realMath radius t
  have hYs := nebulaIter_ys realMath radius t
  have hZ := nebulaIter_zs realMath radius t
  have hY := nebulaIter_yFlat realMath radius t
  generalize (nebulaIter realMath radius t).1 = s at hD hR hX hYs hZ hY ⊢
  have hq0 : (0 : ℝ) ≤ s.rDraw := by
    rw [hD]
    exact_mod_cast rand_fst_nonneg _
  have hq1 : s.rDraw < 1 := by
    rw [hD]
    exact_mod_cast rand_fst_lt_one _
  have he0 : (0 : ℝ) ≤ (if s.isClump = true then (2.35 : ℝ) else 1.35) := by
    split <;> norm_num
  have hR2 : s.r = radius * s.rDraw ^ (if s.isClump = true then (2.35 : ℝ) else 1.35) := hR
  have hp0 : 0 ≤ s.rDraw ^ (if s.isClump = true then (2.35 : ℝ) else 1.35) :=
    Real.rpow_nonneg hq0 _
  have hp1 : s.rDraw ^ (if s.isClump = true then (2.35 : ℝ) else 1.35) ≤ 1 :=
    Real.rpow_le_one hq0 hq1.le he0
  have hr0 : 0 ≤ s.r := by
    rw [hR2]
    exact mul_nonneg hr hp0
  have hr1 : s.r ≤ radius := by
    rw [hR2]
    exact mul_le_of_le_one_right hr hp1
  have hY2 : s.yFlat = 0.55 * s.ys := by
    rw [hY]
    ring
  have hX2 : s.xs = s.r * Real.sin s.phi * Real.cos s.theta := hX
  have hYs2 : s.ys = s.r * Real.sin s.phi * Real.sin s.theta := hYs
  have hZ2 : s.zs = s.r * Real.cos s.phi := hZ
  have habs : |s.yFlat| ≤ |s.ys| := by
    rw [hY2, abs_mul]
    have h55 : |(0.55 : ℝ)| ≤ 1 := by
      rw [abs_of_nonneg (by norm_num)]
      norm_num
    exact mul_le_of_le_one_left (abs_nonneg _) h55
  have hsq : s.xs ^ 2 + s.ys ^ 2 + s.zs ^ 2 = s.r ^ 2 := by
    rw [hX2, hYs2, hZ2]
    have h1 := Real.sin_sq_add_cos_sq s.phi
    have h2 := Real.sin_sq_add_cos_sq s.theta
    have h3 : Real.sin s.phi ^ 2 = 1 - Real.cos s.phi ^ 2 := by linarith
    have h4 : Real.sin s.theta ^ 2 = 1 - Real.cos s.theta ^ 2 := by linarith
    ring_nf
    rw [h3, h4]
    ring
  have hle : s.xs ^ 2 + s.yFlat ^ 2 + s.zs ^ 2 ≤ radius ^ 2 := by
    have h5 : s.yFlat ^ 2 ≤ s.ys ^ 2 := by
      rw [hY2]
      nlinarith [sq_nonneg s.ys]
    have h6 : s.r ^ 2 ≤ radius ^ 2 := by nlinarith
    linarith
  refine ⟨⟨hq0, hq1⟩, hR2, ⟨hr0, hr1⟩, ⟨hY2, habs⟩, ?_⟩
  calc Real.sqrt (s.xs ^ 2 + s.yFlat ^ 2 + s.zs ^ 2)
      ≤ Real.sqrt (radius ^ 2) := Real.sqrt_le_sqrt hle
    _ = radius := Real.sqrt_sq hr

theorem nebulaIter_isClump {K : Type} [LinearOrderedField K] (M : JSMath K) (radius : K)
    (t : Nat) : (nebulaIter M radius t).1.isClump = decide ((rand t).1 < 0.72) := by
  unfold nebulaIter
  exact rfl

theorem nebulaIter_c {K : Type} [LinearOrderedField K] (M : JSMath K) (radius : K)
    (t : Nat) :
    (nebulaIter M radius t).1.c
      = (clumps (K := K)).getD (Int.toNat ⌊(rand (rand t).2).1 * 4⌋) ⟨0, 0, 0⟩ := by
  unfold nebulaIter
  exact rfl

theorem nebulaIter_theta {K : Type} [LinearOrderedField K] (M : JSMath K) (radius : K)
    (t : Nat) :
    (nebulaIter M radius t).1.theta
      = (((rand (rand (rand (rand t).2).2).2).1 : ℚ) : K) * M.PI * 2 := by
  unfold nebulaIter
  exact rfl

theorem nebulaIter_phi {K : Type} [LinearOrderedField K] (M : JSMath K) (radius : K)
    (t : Nat) :
    (nebulaIter M radius t).1.phi
      = M.acos ((((rand (rand (rand (rand (rand t).2).2).2).2).1 : ℚ) : K) * 2 - 1) := by
  unfold nebulaIter
  exact rfl

theorem nebulaIter_x {K : Type} [LinearOrderedField K] (M : JSMath K) (radius : K)
    (t : Nat) :
    (nebulaIter M radius t).1.x
      = if (nebulaIter M radius t).1.isClump = true then
          (nebulaIter M radius t).1.xs
            * (0.48 + (((rand (rand (rand (rand (rand (rand t).2).2).2).2).2).1 : ℚ) : K) * 0.32)
            + (nebulaIter M radius t).1.c.x
        else (nebulaIter M radius t).1.xs := by
  unfold nebulaIter
  exact rfl

theorem nebulaIter_y {K : Type} [LinearOrderedField K] (M : JSMath K) (radius : K)
    (t : Nat) :
    (nebulaIter M radius t).1.y
      = if (nebulaIter M radius t).1.isClump = true then
          (nebulaIter M radius t).1.yFlat
            * (0.48 + (((rand (rand (rand (rand (rand (rand t).2).2).2).2).2).1 : ℚ) : K) * 0.32)
            + (nebulaIter M radius t).1.c.y
        else (nebulaIter M radius t).1.yFlat := by
  unfold nebulaIter
  exact rfl

theorem nebulaIter_z {K : Type} [LinearOrderedField K] (M : JSMath K) (radius : K)
    (t : Nat) :
    (nebulaIter M radius t).1.z
      = if (nebulaIter M radius t).1.isClump = true then
          (nebulaIter M radius t).1.zs
            * (0.48 + (((rand (rand (rand (rand (rand (rand t).2).2).2).2).2).1 : ℚ) : K) * 0.32)
            + (nebulaIter M radius t).1.c.z
        else (nebulaIter M radius t).1.zs := by
  unfold nebulaIter
  exact rfl

theorem nebulaIter_counter {K : Type} [LinearOrderedField K] (M : JSMath K) (radius : K)
    (t : Nat) :
    (nebulaIter M radius t).2
      = if (nebulaIter M radius t).1.isClump = true then
          (rand (rand (rand (rand (rand (rand t).2).2).2).2).2).2
        else (rand (rand (rand (rand (rand t).2).2).2).2).2 := by
  unfold nebulaIter
  exact rfl


theorem nebulaLoop_succ {K : Type} [LinearOrderedField K] (M : JSMath K) (radius : K)
    (n t : Nat) :
    nebulaLoop M radius (n + 1) t
      = (nebulaIter M radius t).1 :: nebulaLoop M radius n (nebulaIter M radius t).2 := by
  rw [nebulaLoop]

theorem nebulaLoop_getElem {K : Type} [LinearOrderedField K] (M : JSMath K) (radius : K)
    (n t i : Nat) (hi : i < n) :
    (nebulaLoop M radius n t)[i]?
      = some (nebulaIter M radius ((fun c => (nebulaIter M radius c).2)^[i] t)).1 := by
  induction n generalizing t i with
  | zero => exact absurd hi (Nat.not_lt_zero _)
  | succ n ih =>
    cases i with
    | zero =>
      rw [nebulaLoop_succ, List.getElem?_cons_zero, Function.iterate_zero, id]
    | succ i =>
      rw [nebulaLoop_succ, List.getElem?_cons_succ, Function.iterate_succ_apply]
      exact ih _ _ (Nat.lt_of_succ_lt_succ hi)

theorem randOutput_succ (seed : Int) (k : Nat) :
    randOutput seed (k + 1) = (rand (randState seed k)).1 := by
  simp [randOutput]

theorem randState_succ (seed : Int) (k : Nat) :
    randState seed (k + 1) = (rand (randState seed k)).2 := by
  rw [randState]

theorem randState_add_five (seed : Int) (k : Nat) :
    randState seed (k + 5)
      = (rand (rand (rand (rand (rand (randState seed k)).2).2).2).2).2 := by
  rw [show k + 5 = k + 1 + 1 + 1 + 1 + 1 from rfl]
  simp only [randState_succ]

theorem randState_add_six (seed : Int) (k : Nat) :
    randState seed (k + 6)
      = (rand (rand (rand (rand (rand (rand (randState seed k)).2).2).2).2).2).2 := by
  rw [show k + 6 = k + 1 + 1 + 1 + 1 + 1 + 1 from rfl]
  simp only [randState_succ]

/-- The draws of six consecutive calls of `rand`, from the counter after `k` calls. -/
theorem randOutput_six (seed : Int) (k : Nat) :
    randOutput seed (k + 1) = (rand (randState seed k)).1 ∧
      randOutput seed (k + 2) = (rand (rand (randState seed k)).2).1 ∧
      randOutput seed (k + 3) = (rand (rand (rand (randState seed k)).2).2).1 ∧
      randOutput seed (k + 4) = (rand (rand (rand (rand (randState seed k)).2).2).2).1 ∧
      randOutput seed (k + 5)
        = (rand (rand (rand (rand (rand (randState seed k)).2).2).2).2).1 ∧
      randOutput seed (k + 6)
        = (rand (rand (rand (rand (rand (rand (randState seed k)).2).2).2).2).2).1 := by
  refine ⟨randOutput_succ _ _, ?_, ?_, ?_, ?_, ?_⟩
  · rw [show k + 2 = k + 1 + 1 from rfl, randOutput_succ]
    simp only [randState_succ]
  · rw [show k + 3 = k + 1 + 1 + 1 from rfl, randOutput_succ]
    simp only [randState_succ]
  · rw [show k + 4 = k + 1 + 1 + 1 + 1 from rfl, randOutput_succ]
    simp only [randState_succ]
  · rw [show k + 5 = k + 1 + 1 + 1 + 1 + 1 from rfl, randOutput_succ]
    simp only [randState_succ]
  · rw [show k + 6 = k + 1 + 1 + 1 + 1 + 1 + 1 from rfl, randOutput_succ]
    simp only [randState_succ]

theorem flatMap_three_length {α β : Type} (f g h : α → β) (l : List α) :
    (l.flatMap fun s => [f s, g s, h s]).length = 3 * l.length := by
  induction l with
  | nil => rfl
  | cons a l ih =>
    simp only [List.flatMap_cons, List.length_append, List.length_cons, List.length_nil, ih]
    omega

theorem flatMap_three_getElem {α β : Type} (f g h : α → β) (l : List α) (i : Nat) (s : α)
    (hs : l[i]? = some s) :
    (l.flatMap fun s => [f s, g s, h s])[3 * i]? = some (f s) ∧
      (l.flatMap fun s => [f s, g s, h s])[3 * i + 1]? = some (g s) ∧
      (l.flatMap fun s => [f s, g s, h s])[3 * i + 2]? = some (h s) := by
  induction l generalizing i with
  | nil => simp at hs
  | cons a l ih =>
    cases i with
    | zero =>
      simp only [List.getElem?_cons_zero, Option.some.injEq] at hs
      subst hs
      simp [List.flatMap_cons]
    | succ i =>
      simp only [List.getElem?_cons_succ] at hs
      obtain ⟨h1, h2, h3⟩ := ih i hs
      have e0 : 3 * (i + 1) = (3 * i) + 3 := by ring
      have e1 : 3 * i + 3 + 1 = (3 * i + 1) + 3 := by ring
      have e2 : 3 * i + 3 + 2 = (3 * i + 2) + 3 := by ring
      have hk : ∀ (k : Nat) (r : List β), ([f a, g a, h a] ++ r)[k + 3]? = r[k]? := by
        intro k r
        simp
      rw [List.flatMap_cons, e0, e1, e2, hk, hk, hk]
      exact ⟨h1, h2, h3⟩

/-- The counter of `rand` when iteration `i` of the loop begins is the counter after the
calls that the iterations before it have made: six for a clumped point, five for a diffuse
one. -/
theorem nebulaCounter_eq (radius : ℝ) (seed : Int) (k : Nat → Nat) (h0 : k 0 = 0)
    (hk : ∀ i, k (i + 1) = k i
      + if (nebulaIter realMath radius (randState seed (k i))).1.isClump = true then 6 else 5)
    (i : Nat) :
    (fun c => (nebulaIter realMath radius c).2)^[i] (mulberry32 seed)
      = randState seed (k i) := by
  induction i with
  | zero =>
    rw [h0, Function.iterate_zero, id, randState]
  | succ i ih =>
    rw [Function.iterate_succ_apply', ih, nebulaIter_counter, hk]
    split
    · rw [randState_add_six]
    · rw [randState_add_five]

/-- C3: for every count, radius `≥ 0` and seed, `makeNebulaPositions` returns `3 * count`
numbers, and there are call counts `k i` (the number of calls of `rand` before iteration
`i`; `k 0 = 0`, and an iteration makes six calls for a clumped point and five for a diffuse
one) such that the point of iteration `i` is drawn as follows.  It is clumped when call
`k i + 1` returns less than `0.72`; its clump is chosen by call `k i + 2`; its radial
distance is `r = radius * u ^ e` with `u` the value of call `k i + 3`, `0 ≤ u < 1`, and
`e = 2.35` if clumped and `1.35` if not, so `0 ≤ r ≤ radius`; its angles come from calls
`k i + 4` and `k i + 5`; the point before the pull is the spherical point with `y`
multiplied by `0.55`, so `|y| ≤ |y_unflattened|`, and it lies within distance `radius` of
the origin; the stored point is that point for a diffuse point, and that point scaled by
`tight = 0.48 + 0.32 * (call k i + 6)` and moved by the clump for a clumped one; and the
array holds the stored point at indices `3 i`, `3 i + 1`, `3 i + 2`. -/
theorem makeNebulaPositions_prepull_bounds (count : Nat) (radius : ℝ) (seed : Int)
    (hr : 0 ≤ radius) :
    (makeNebulaPositions realMath count radius seed).length = 3 * count ∧
      ∃ k : Nat → Nat, k 0 = 0 ∧ ∀ i < count, ∃ s : NebulaSample ℝ,
        (nebulaSamples realMath count radius seed)[i]? = some s ∧
        (s.isClump = decide (randOutput seed (k i + 1) < 0.72) ∧
          s.c = (clumps (K := ℝ)).getD (Int.toNat ⌊randOutput seed (k i + 2) * 4⌋)
            ⟨0, 0, 0⟩ ∧
          s.rDraw = (randOutput seed (k i + 3) : ℝ) ∧
          s.theta = (randOutput seed (k i + 4) : ℝ) * Real.pi * 2 ∧
          s.phi = Real.arccos ((randOutput seed (k i + 5) : ℝ) * 2 - 1) ∧
          k (i + 1) = k i + (if s.isClump = true then 6 else 5)) ∧
        ((0 ≤ s.rDraw ∧ s.rDraw < 1) ∧
          s.r = radius * s.rDraw ^ (if s.isClump = true then (2.35 : ℝ) else 1.35) ∧
          (0 ≤ s.r ∧ s.r ≤ radius)) ∧
        (s.xs = s.r * Real.sin s.phi * Real.cos s.theta ∧
          s.ys = s.r * Real.sin s.phi * Real.sin s.theta ∧
          s.zs = s.r * Real.cos s.phi ∧
          (s.yFlat = 0.55 * s.ys ∧ |s.yFlat| ≤ |s.ys|) ∧
          Real.sqrt (s.xs ^ 2 + s.yFlat ^ 2 + s.zs ^ 2) ≤ radius) ∧
        (s.x = (if s.isClump = true then
              s.xs * (0.48 + (randOutput seed (k i + 6) : ℝ) * 0.32) + s.c.x else s.xs) ∧
          s.y = (if s.isClump = true then
              s.yFlat * (0.48 + (randOutput seed (k i + 6) : ℝ) * 0.32) + s.c.y
            else s.yFlat) ∧
          s.z = (if s.isClump = true then
              s.zs * (0.48 + (randOutput seed (k i + 6) : ℝ) * 0.32) + s.c.z else s.zs)) ∧
        ((makeNebulaPositions realMath count radius seed)[3 * i]? = some s.x ∧
          (makeNebulaPositions realMath count radius seed)[3 * i + 1]? = some s.y ∧
          (makeNebulaPositions realMath count radius seed)[3 * i + 2]? = some s.z) := by
  have hlen : (nebulaSamples realMath count radius seed).length = count :=
    length_nebulaLoop _ _ _ _
  refine ⟨?_, ?_⟩
  · unfold makeNebulaPositions
    rw [flatMap_three_length, hlen]
  let k : Nat → Nat := fun i => Nat.rec 0
    (fun _ ki => ki
      + if (nebulaIter realMath radius (randState seed ki)).1.isClump = true then 6 else 5) i
  have hk0 : k 0 = 0 := rfl
  have hks : ∀ i, k (i + 1) = k i
      + if (nebulaIter realMath radius (randState seed (k i))).1.isClump = true then 6 else 5 :=
    fun _ => rfl
  refine ⟨k, hk0, ?_⟩
  intro i hi
  have hget : (nebulaSamples realMath count radius seed)[i]?
      = some (nebulaIter realMath radius (randState seed (k i))).1 := by
    unfold nebulaSamples
    rw [nebulaLoop_getElem _ _ _ _ _ hi, nebulaCounter_eq radius seed k hk0 hks]
  obtain ⟨o1, o2, o3, o4, o5, o6⟩ := randOutput_six seed (k i)
  obtain ⟨b1, b2, b3, b4, b5⟩ := nebulaIter_bounds radius hr (randState seed (k i))
  refine ⟨_, hget, ⟨?_, ?_, ?_, ?_, ?_, hks i⟩, ⟨b1, b2, b3⟩, ⟨?_, ?_, ?_, b4, b5⟩,
    ⟨?_, ?_, ?_⟩, ?_⟩
  · rw [o1]
    exact nebulaIter_isClump _ _ _
  · rw [o2]
    exact nebulaIter_c _ _ _
  · rw [o3]
    exact nebulaIter_rDraw _ _ _
  · rw [o4]
    exact nebulaIter_theta _ _ _
  · rw [o5]
    exact nebulaIter_phi _ _ _
  · exact nebulaIter_xs _ _ _
  · exact nebulaIter_ys _ _ _
  · exact nebulaIter_zs _ _ _
  · rw [o6]
    exact nebulaIter_x _ _ _
  · rw [o6]
    exact nebulaIter_y _ _ _
  · rw [o6]
    exact nebulaIter_z _ _ _
  · unfold makeNebulaPositions
    exact flatMap_three_getElem _ _ _ _ i _ hget

/-- Witness for C3: the outer particle layer of the scene (`count = 1000`, `radius = 6.6`,
`seed = 1337`). -/
theorem makeNebulaPositions_prepull_bounds_witness :
    (0 : ℝ) ≤ 6.6 ∧
      ((makeNebulaPositions realMath 1000 6.6 1337).length = 3 * 1000 ∧
        ∃ k : Nat → Nat, k 0 = 0 ∧ ∀ i < 1000, ∃ s : NebulaSample ℝ,
          (nebulaSamples realMath 1000 6.6 1337)[i]? = some s ∧
          (s.isClump = decide (randOutput 1337 (k i + 1) < 0.72) ∧
            s.c = (clumps (K := ℝ)).getD (Int.toNat ⌊randOutput 1337 (k i + 2) * 4⌋)
              ⟨0, 0, 0⟩ ∧
            s.rDraw = (randOutput 1337 (k i + 3) : ℝ) ∧
            s.theta = (randOutput 1337 (k i + 4) : ℝ) * Real.pi * 2 ∧
            s.phi = Real.arccos ((randOutput 1337 (k i + 5) : ℝ) * 2 - 1) ∧
            k (i + 1) = k i + (if s.isClump = true then 6 else 5)) ∧
          ((0 ≤ s.rDraw ∧ s.rDraw < 1) ∧
            s.r = 6.6 * s.rDraw ^ (if s.isClump = true then (2.35 : ℝ) else 1.35) ∧
            (0 ≤ s.r ∧ s.r ≤ 6.6)) ∧
          (s.xs = s.r * Real.sin s.phi * Real.cos s.theta ∧
            s.ys = s.r * Real.sin s.phi * Real.sin s.theta ∧
            s.zs = s.r * Real.cos s.phi ∧
            (s.yFlat = 0.55 * s.ys ∧ |s.yFlat| ≤ |s.ys|) ∧
            Real.sqrt (s.xs ^ 2 + s.yFlat ^ 2 + s.zs ^ 2) ≤ 6.6) ∧
          (s.x = (if s.isClump = true then
                s.xs * (0.48 + (randOutput 1337 (k i + 6) : ℝ) * 0.32) + s.c.x else s.xs) ∧
            s.y = (if s.isClump = true then
                s.yFlat * (0.48 + (randOutput 1337 (k i + 6) : ℝ) * 0.32) + s.c.y
              else s.yFlat) ∧
            s.z = (if s.isClump = true then
                s.zs * (0.48 + (randOutput 1337 (k i + 6) : ℝ) * 0.32) + s.c.z else s.zs)) ∧
          ((makeNebulaPositions realMath 1000 6.6 1337)[3 * i]? = some s.x ∧
            (makeNebulaPositions realMath 1000 6.6 1337)[3 * i + 1]? = some s.y ∧
            (makeNebulaPositions realMath 1000 6.6 1337)[3 * i + 2]? = some s.z)) :=
  ⟨by norm_num, makeNebulaPositions_prepull_bounds 1000 6.6 1337 (by norm_num)⟩

/-! ### Smoothing of the swirl progress -/

theorem frame_swirlRef {K : Type} [LinearOrderedField K] (M : JSMath K) (delta : K)
    (s : Anim K) :
    (frame M delta s).swirlRef = swirlSmooth M s.swirlTargetRef delta s.swirlRef := rfl

theorem frame_swirlTargetRef {K : Type} [LinearOrderedField K] (M : JSMath K) (delta : K)
    (s : Anim K) : (frame M delta s).swirlTargetRef = s.swirlTargetRef := rfl

theorem swirlSmooth_gap (target delta progress : ℝ) :
    target - swirlSmooth realMath target delta progress
      = (target - progress) * (0.0008 : ℝ) ^ delta := by
  simp only [swirlSmooth, realMath]
  ring

theorem iterate_frame_swirlTargetRef (a : Anim ℝ) (delta : ℝ) (n : Nat) :
    ((frame realMath delta)^[n] a).swirlTargetRef = a.swirlTargetRef := by
  induction n with
  | zero => rfl
  | succ n ih => rw [Function.iterate_succ_apply', frame_swirlTargetRef, ih]

theorem iterate_frame_gap (a : Anim ℝ) (delta : ℝ) (n : Nat) :
    a.swirlTargetRef - ((frame realMath delta)^[n] a).swirlRef
      = (a.swirlTargetRef - a.swirlRef) * ((0.0008 : ℝ) ^ delta) ^ n := by
  induction n with
  | zero => simp
  | succ n ih =>
    rw [Function.iterate_succ_apply', frame_swirlRef, iterate_frame_swirlTargetRef,
      swirlSmooth_gap, ih]
    ring

theorem decay_pos (delta : ℝ) : 0 < (0.0008 : ℝ) ^ delta :=
  Real.rpow_pos_of_pos (by norm_num) delta

theorem decay_le_one (delta : ℝ) (h : 0 ≤ delta) : (0.0008 : ℝ) ^ delta ≤ 1 :=
  Real.rpow_le_one (by norm_num) (by norm_num) h

theorem decay_sixtieth_pow : ((0.0008 : ℝ) ^ ((1 : ℝ) / 60)) ^ 120 = 0.00000064 := by
  rw [← Real.rpow_natCast, ← Real.rpow_mul (by norm_num)]
  have h : (1 : ℝ) / 60 * ((120 : ℕ) : ℝ) = ((2 : ℕ) : ℝ) := by norm_num
  rw [h, Real.rpow_natCast]
  norm_num

/-- C4: for a constant target `T` and a start `p0 ≤ T`, repeated frame updates with the
fixed delta `1/60` give a sequence of `swirlRef.current` values that never decreases and
never exceeds `T` (so never exceeds `1` when `T ≤ 1`); and for `0 ≤ p0 ≤ T ≤ 1` the value
is within `1e-6` of `T` after 120 updates and after any larger number of updates. -/
theorem swirl_smoothing_converges (a : Anim ℝ) (h : a.swirlRef ≤ a.swirlTargetRef) :
    (∀ n, ((frame realMath (1 / 60))^[n] a).swirlRef
        ≤ ((frame realMath (1 / 60))^[n + 1] a).swirlRef) ∧
      (∀ n, ((frame realMath (1 / 60))^[n] a).swirlRef ≤ a.swirlTargetRef) ∧
      (a.swirlTargetRef ≤ 1 → ∀ n, ((frame realMath (1 / 60))^[n] a).swirlRef ≤ 1) ∧
      (0 ≤ a.swirlRef → a.swirlTargetRef ≤ 1 → ∀ n, 120 ≤ n →
        |a.swirlTargetRef - ((frame realMath (1 / 60))^[n] a).swirlRef| < 0.000001) := by
  have hf0 : 0 < (0.0008 : ℝ) ^ ((1 : ℝ) / 60) := decay_pos _
  have hf1 : (0.0008 : ℝ) ^ ((1 : ℝ) / 60) ≤ 1 := decay_le_one _ (by norm_num)
  have hgap := iterate_frame_gap a (1 / 60)
  have hd : 0 ≤ a.swirlTargetRef - a.swirlRef := by linarith
  have hbound : ∀ n, ((frame realMath (1 / 60))^[n] a).swirlRef ≤ a.swirlTargetRef := by
    intro n
    have h1 := hgap n
    have h2 : 0 ≤ (a.swirlTargetRef - a.swirlRef) * ((0.0008 : ℝ) ^ ((1 : ℝ) / 60)) ^ n :=
      mul_nonneg hd (pow_nonneg hf0.le n)
    linarith
  refine ⟨?_, hbound, ?_, ?_⟩
  · intro n
    have h1 := hgap n
    have h2 := hgap (n + 1)
    have h3 : (a.swirlTargetRef - a.swirlRef) * ((0.0008 : ℝ) ^ ((1 : ℝ) / 60)) ^ (n + 1)
        ≤ (a.swirlTargetRef - a.swirlRef) * ((0.0008 : ℝ) ^ ((1 : ℝ) / 60)) ^ n := by
      apply mul_le_mul_of_nonneg_left _ hd
      rw [pow_succ]
      exact mul_le_of_le_one_right (pow_nonneg hf0.le n) hf1
    linarith
  · intro hT n
    exact le_trans (hbound n) hT
  · intro hp hT n hn
    have h1 := hgap n
    have h2 : ((0.0008 : ℝ) ^ ((1 : ℝ) / 60)) ^ n ≤ 0.00000064 := by
      rw [← decay_sixtieth_pow]
      exact pow_le_pow_of_le_one hf0.le hf1 hn
    have h3 : 0 ≤ ((0.0008 : ℝ) ^ ((1 : ℝ) / 60)) ^ n := pow_nonneg hf0.le n
    have h4 : a.swirlTargetRef - a.swirlRef ≤ 1 := by linarith
    rw [h1, abs_of_nonneg (mul_nonneg hd h3)]
    calc (a.swirlTargetRef - a.swirlRef) * ((0.0008 : ℝ) ^ ((1 : ℝ) / 60)) ^ n
        ≤ 1 * 0.00000064 := mul_le_mul h4 h2 h3 (by norm_num)
      _ < 0.000001 := by norm_num

/-- Witness for C4: the refs at mount with the swirl target at `1`. -/
theorem swirl_smoothing_converges_witness :
    collapsingAnim.swirlRef ≤ collapsingAnim.swirlTargetRef ∧
      ((∀ n, ((frame realMath (1 / 60))^[n] collapsingAnim).swirlRef
          ≤ ((frame realMath (1 / 60))^[n + 1] collapsingAnim).swirlRef) ∧
        (∀ n, ((frame realMath (1 / 60))^[n] collapsingAnim).swirlRef
          ≤ collapsingAnim.swirlTargetRef) ∧
        (collapsingAnim.swirlTargetRef ≤ 1 →
          ∀ n, ((frame realMath (1 / 60))^[n] collapsingAnim).swirlRef ≤ 1) ∧
        (0 ≤ collapsingAnim.swirlRef → collapsingAnim.swirlTargetRef ≤ 1 → ∀ n, 120 ≤ n →
          |collapsingAnim.swirlTargetRef
            - ((frame realMath (1 / 60))^[n] collapsingAnim).swirlRef| < 0.000001)) :=
  ⟨by simp [collapsingAnim, mountAnim],
    swirl_smoothing_converges collapsingAnim (by simp [collapsingAnim, mountAnim])⟩

/-- C5: the smoothing is frame-rate independent: for a constant target, an update with
delta `d1` followed by one with `d2` gives the same `swirlRef.current` as one update with
`d1 + d2`; after updates with deltas `ds` the remaining gap is the initial gap times
`0.0008 ^ (sum of ds)`; and an update with delta `0` leaves `swirlRef.current` unchanged.
This holds for all real deltas, in particular for all deltas `≥ 0`. -/
theorem swirl_smoothing_frame_rate_independent (a : Anim ℝ) (d1 d2 : ℝ) (ds : List ℝ) :
    (frame realMath d2 (frame realMath d1 a)).swirlRef
        = (frame realMath (d1 + d2) a).swirlRef ∧
      a.swirlTargetRef - (ds.foldl (fun s d => frame realMath d s) a).swirlRef
        = (a.swirlTargetRef - a.swirlRef) * (0.0008 : ℝ) ^ ds.sum ∧
      (frame realMath 0 a).swirlRef = a.swirlRef := by
  refine ⟨?_, ?_, ?_⟩
  · have h1 := swirlSmooth_gap a.swirlTargetRef d1 a.swirlRef
    have h2 := swirlSmooth_gap a.swirlTargetRef d2
      (swirlSmooth realMath a.swirlTargetRef d1 a.swirlRef)
    have h3 := swirlSmooth_gap a.swirlTargetRef (d1 + d2) a.swirlRef
    rw [Real.rpow_add (by norm_num)] at h3
    rw [frame_swirlRef, frame_swirlRef, frame_swirlRef, frame_swirlTargetRef]
    rw [h1] at h2
    linarith
  · induction ds generalizing a with
    | nil => simp
    | cons d ds ih =>
      rw [List.foldl_cons, List.sum_cons, Real.rpow_add (by norm_num)]
      have h1 := ih (frame realMath d a)
      rw [frame_swirlTargetRef, frame_swirlRef] at h1
      have h2 := swirlSmooth_gap a.swirlTargetRef d a.swirlRef
      rw [h1]
      linear_combination (0.0008 : ℝ) ^ ds.sum * h2
  · have h := swirlSmooth_gap a.swirlTargetRef 0 a.swirlRef
    rw [Real.rpow_zero] at h
    rw [frame_swirlRef]
    linarith

/-! ### Effect pulses -/

section Pulses

variable {K : Type} [LinearOrderedField K]

theorem runFx_floor (f : K → FxNode K → Pulse K → FxNode K × Pulse K) (hf : FloorKept f)
    (ds : List K) (hds : ∀ d ∈ ds, 0 ≤ d) (st : FxNode K × Pulse K)
    (ha : 0 ≤ st.2.a) (hs : 0 ≤ st.2.s) :
    0 ≤ (runFx f ds st).2.a ∧ 0 ≤ (runFx f ds st).2.s := by
  induction ds generalizing st with
  | nil => exact ⟨ha, hs⟩
  | cons d ds ih =>
    have h := hf d st.1 st.2 (hds d (List.mem_cons_self _ _)) ha hs
    exact ih (fun e he => hds e (List.mem_cons_of_mem _ he)) _ h.1 h.2.1

theorem shock_floorKept : FloorKept (ShockwaveRing.useFrame (K := K)) := by
  intro delta n p hd ha hs
  obtain ⟨m, o⟩ := n
  cases m <;> cases o <;>
    simp [ShockwaveRing.useFrame, FxNode.mounted, ha, hs]
  have h : 0 ≤ delta * 6.0 := mul_nonneg hd (by norm_num)
  linarith

theorem burst_floorKept : FloorKept (BurstSprite.useFrame (K := K)) := by
  intro delta n p hd ha hs
  obtain ⟨m, o⟩ := n
  cases m <;> cases o <;>
    simp [BurstSprite.useFrame, FxNode.mounted, ha, hs]

theorem flash_floorKept : FloorKept (MicroExplosion.useFrame (K := K)) := by
  intro delta n p hd ha hs
  obtain ⟨m, o⟩ := n
  cases m <;> cases o <;>
    simp [MicroExplosion.useFrame, FxNode.mounted, ha, hs]

theorem shock_step_le (delta : K) (n : FxNode K) (p : Pulse K) :
    (n.mounted → (ShockwaveRing.useFrame delta n p).2.s ≤ 20) ∧
      (p.s ≤ 20 → (ShockwaveRing.useFrame delta n p).2.s ≤ 20) ∧
      (n.mounted → (ShockwaveRing.useFrame delta n p).1.mounted) := by
  obtain ⟨m, o⟩ := n
  cases m <;> cases o <;>
    simp [ShockwaveRing.useFrame, FxNode.mounted]

theorem runFx_shock_le (ds : List K) (st : FxNode K × Pulse K) :
    (st.1.mounted → ds ≠ [] → (runFx ShockwaveRing.useFrame ds st).2.s ≤ 20) ∧
      (st.2.s ≤ 20 → (runFx ShockwaveRing.useFrame ds st).2.s ≤ 20) := by
  induction ds generalizing st with
  | nil => exact ⟨fun _ h => absurd rfl h, fun h => h⟩
  | cons d ds ih =>
    have h := shock_step_le d st.1 st.2
    have i := ih (ShockwaveRing.useFrame d st.1 st.2)
    refine ⟨fun hm _ => ?_, fun hs => ?_⟩
    · exact i.2 (h.1 hm)
    · exact i.2 (h.2.1 hs)

/-- C6: for each of the three pulses (shock, burst, micro-flash) starting with
`alpha ≥ 0` and `scale ≥ 0`, and every sequence of frames with deltas `≥ 0` however large,
alpha and scale are `≥ 0` after the frames; and the scale of the shock pulse is at most
`20` after any frame that advanced it (its nodes mounted), and after any frames at all
when it started at most `20`. -/
theorem pulse_decay_floor (ds : List K) (hds : ∀ d ∈ ds, 0 ≤ d) (n : FxNode K) (p : Pulse K)
    (ha : 0 ≤ p.a) (hs : 0 ≤ p.s) :
    (0 ≤ (runFx ShockwaveRing.useFrame ds (n, p)).2.a ∧
        0 ≤ (runFx ShockwaveRing.useFrame ds (n, p)).2.s) ∧
      (0 ≤ (runFx BurstSprite.useFrame ds (n, p)).2.a ∧
        0 ≤ (runFx BurstSprite.useFrame ds (n, p)).2.s) ∧
      (0 ≤ (runFx MicroExplosion.useFrame ds (n, p)).2.a ∧
        0 ≤ (runFx MicroExplosion.useFrame ds (n, p)).2.s) ∧
      (n.mounted → ds ≠ [] → (runFx ShockwaveRing.useFrame ds (n, p)).2.s ≤ 20) ∧
      (p.s ≤ 20 → (runFx ShockwaveRing.useFrame ds (n, p)).2.s ≤ 20) :=
  ⟨runFx_floor _ shock_floorKept ds hds (n, p) ha hs,
    runFx_floor _ burst_floorKept ds hds (n, p) ha hs,
    runFx_floor _ flash_floorKept ds hds (n, p) ha hs,
    (runFx_shock_le ds (n, p)).1, (runFx_shock_le ds (n, p)).2⟩

end Pulses

/-- Witness for C6: the pulse values set by the ignition callback for the shock wave,
advanced by a frame of 1000 seconds and a frame of 0 seconds, nodes mounted. -/
theorem pulse_decay_floor_witness :
    (∀ d ∈ [(1000 : ℚ), 0], 0 ≤ d) ∧ (0 : ℚ) ≤ (0.9 : ℚ) ∧ (0 : ℚ) ≤ (0.15 : ℚ) ∧
      ((0 ≤ (runFx ShockwaveRing.useFrame [(1000 : ℚ), 0]
            (⟨some ⟨1, 1, 1⟩, some 0⟩, ⟨0.9, 0.15⟩)).2.a ∧
          0 ≤ (runFx ShockwaveRing.useFrame [(1000 : ℚ), 0]
            (⟨some ⟨1, 1, 1⟩, some 0⟩, ⟨0.9, 0.15⟩)).2.s) ∧
        (0 ≤ (runFx BurstSprite.useFrame [(1000 : ℚ), 0]
            (⟨some ⟨1, 1, 1⟩, some 0⟩, ⟨0.9, 0.15⟩)).2.a ∧
          0 ≤ (runFx BurstSprite.useFrame [(1000 : ℚ), 0]
            (⟨some ⟨1, 1, 1⟩, some 0⟩, ⟨0.9, 0.15⟩)).2.s) ∧
        (0 ≤ (runFx MicroExplosion.useFrame [(1000 : ℚ), 0]
            (⟨some ⟨1, 1, 1⟩, some 0⟩, ⟨0.9, 0.15⟩)).2.a ∧
          0 ≤ (runFx MicroExplosion.useFrame [(1000 : ℚ), 0]
            (⟨some ⟨1, 1, 1⟩, some 0⟩, ⟨0.9, 0.15⟩)).2.s) ∧
        (FxNode.mounted (⟨some ⟨1, 1, 1⟩, some 0⟩ : FxNode ℚ) → [(1000 : ℚ), 0] ≠ [] →
          (runFx ShockwaveRing.useFrame [(1000 : ℚ), 0]
            (⟨some ⟨1, 1, 1⟩, some 0⟩, ⟨0.9, 0.15⟩)).2.s ≤ 20) ∧
        ((0.15 : ℚ) ≤ 20 →
          (runFx ShockwaveRing.useFrame [(1000 : ℚ), 0]
            (⟨some ⟨1, 1, 1⟩, some 0⟩, ⟨0.9, 0.15⟩)).2.s ≤ 20)) :=
  ⟨by simp, by norm_num, by norm_num,
    pulse_decay_floor [(1000 : ℚ), 0] (by simp) ⟨some ⟨1, 1, 1⟩, some 0⟩ ⟨0.9, 0.15⟩
      (by norm_num) (by norm_num)⟩

/-! ### The swirl angle -/

/-- C10 (the code at the failing input): in the swirl transform the angle passed to
`Math.cos` and `Math.sin` is `theta0 + p * 6.0` radians.  At `p = 1` it exceeds `theta0`
by `6` radians, which is not `6 * 2π` and not a multiple of `2π`: the node sweeps less
than one rotation, and `cos (theta0 + 6) ≠ cos theta0` at `theta0 = 0`. -/
theorem swirl_angle_sweep :
    (∀ (p : ℝ) (start : GasStart ℝ) (m : Mesh ℝ),
        (swirlTransform realMath p start m).position.x
          = Real.cos (start.theta0 + p * 6) * (start.r0 * (1 - p))) ∧
      (∀ theta0 : ℝ, swirlTheta theta0 1 - theta0 = 6) ∧
      (∀ theta0 : ℝ, swirlTheta theta0 1 - theta0 ≠ 6 * (2 * Real.pi)) ∧
      (∀ theta0 : ℝ, ¬ ∃ k : ℤ, swirlTheta theta0 1 - theta0 = k * (2 * Real.pi)) ∧
      Real.cos (swirlTheta 0 1) ≠ Real.cos 0 := by
  have hpi := Real.pi_gt_three
  have h6 : ∀ theta0 : ℝ, swirlTheta theta0 1 - theta0 = 6 := by
    intro theta0
    simp only [swirlTheta, SWIRL_TURNS]
    norm_num
  have hk : ∀ k : ℤ, (6 : ℝ) ≠ k * (2 * Real.pi) := by
    intro k hk
    rcases le_or_lt k 0 with h | h
    · have h1 : (k : ℝ) ≤ 0 := by exact_mod_cast h
      have h2 : (k : ℝ) * (2 * Real.pi) ≤ 0 :=
        mul_nonpos_of_nonpos_of_nonneg h1 (by linarith)
      linarith
    · have h1 : (1 : ℝ) ≤ (k : ℝ) := by exact_mod_cast h
      have h2 : 1 * (2 * Real.pi) ≤ (k : ℝ) * (2 * Real.pi) :=
        mul_le_mul_of_nonneg_right h1 (by linarith)
      linarith
  refine ⟨?_, h6, ?_, ?_, ?_⟩
  · intro p start m
    simp only [swirlTransform, swirlTheta, SWIRL_TURNS, realMath]
    norm_num
  · intro theta0
    rw [h6]
    intro h
    linarith
  · intro theta0
    rw [h6]
    rintro ⟨k, hk2⟩
    exact hk k hk2
  · have h0 : swirlTheta (0 : ℝ) 1 = 6 := by
      have := h6 0
      linarith
    rw [h0, Real.cos_zero]
    intro h
    obtain ⟨k, hk2⟩ := (Real.cos_eq_one_iff 6).1 h
    exact hk k (by linarith)

/-! ### The sequencer: reads and writes of tween targets -/

theorem read_write_same {K : Type} (x : Target) (v : List K) (s : Anim K)
    (h : (x.read s).length = v.length) : x.read (x.write v s) = v := by
  cases x
  case coreScale =>
    cases hc : s.coreRef with
    | none =>
      simp only [Target.read, hc, List.length_nil] at h
      rw [List.length_eq_zero.1 h.symm]
      simp [Target.write, Target.read, hc]
    | some m =>
      simp only [Target.read, hc] at h
      obtain ⟨c1, c2, c3, rfl⟩ := List.length_eq_three.1 h.symm
      simp [Target.write, Target.read, hc]
  case diskScale =>
    cases hc : s.diskRef with
    | none =>
      simp only [Target.read, hc, List.length_nil] at h
      rw [List.length_eq_zero.1 h.symm]
      simp [Target.write, Target.read, hc]
    | some m =>
      simp only [Target.read, hc] at h
      obtain ⟨c1, c2, c3, rfl⟩ := List.length_eq_three.1 h.symm
      simp [Target.write, Target.read, hc]
  case coreMat =>
    cases hc : s.coreMatRef with
    | none =>
      simp only [Target.read, hc, List.length_nil] at h
      rw [List.length_eq_zero.1 h.symm]
      simp [Target.write, Target.read, hc]
    | some m =>
      simp only [Target.read, hc] at h
      obtain ⟨c1, c2, rfl⟩ := List.length_eq_two.1 h.symm
      simp [Target.write, Target.read, hc]
  case diskMat =>
    cases hc : s.diskMatRef with
    | none =>
      simp only [Target.read, hc, List.length_nil] at h
      rw [List.length_eq_zero.1 h.symm]
      simp [Target.write, Target.read, hc]
    | some m =>
      simp only [Target.read, hc] at h
      obtain ⟨c1, rfl⟩ := List.length_eq_one.1 h.symm
      simp [Target.write, Target.read, hc]
  all_goals
    simp only [Target.read] at h
    obtain ⟨c1, rfl⟩ := List.length_eq_one.1 h.symm
    simp [Target.write, Target.read]

theorem read_write_length {K : Type} (x : Target) (v : List K) (s : Anim K) :
    (x.read (x.write v s)).length = (x.read s).length := by
  cases x
  case coreScale =>
    cases hc : s.coreRef <;> unfold Target.write <;> split <;> simp_all [Target.read]
  case diskScale =>
    cases hc : s.diskRef <;> unfold Target.write <;> split <;> simp_all [Target.read]
  case coreMat =>
    cases hc : s.coreMatRef <;> unfold Target.write <;> split <;> simp_all [Target.read]
  case diskMat =>
    cases hc : s.diskMatRef <;> unfold Target.write <;> split <;> simp_all [Target.read]
  all_goals
    unfold Target.write
    split <;> simp_all [Target.read]

theorem read_write_other {K : Type} (x y : Target) (h : x ≠ y) (v : List K) (s : Anim K) :
    y.read (x.write v s) = y.read s := by
  unfold Target.write
  split <;> cases y <;> first | rfl | exact absurd rfl h

theorem read_boomCallback {K : Type} [LinearOrderedField K] (y : Target) (s : Anim K) :
    y.read (boomCallback s) = y.read s := by
  cases y <;> rfl

theorem read_frame {K : Type} [LinearOrderedField K] (M : JSMath K) (delta : K) (y : Target)
    (s : Anim K) : y.read (frame M delta s) = y.read s := by
  cases y <;> simp only [Target.read, frame, useFrame]
  · cases s.coreRef <;> rfl
  · cases s.diskRef <;> rfl

theorem presence_write {K : Type} (x : Target) (v : List K) (s : Anim K) :
    presence (x.write v s) = presence s := by
  unfold Target.write
  split <;> simp [presence]

theorem presence_frame {K : Type} [LinearOrderedField K] (M : JSMath K) (delta : K)
    (s : Anim K) : presence (frame M delta s) = presence s := by
  simp [presence, frame, useFrame]

/-! ### The sequencer: a tick keeps the invariant -/

theorem zipWith_weight_one {K : Type} [LinearOrderedField K] (st vars : List K)
    (h : st.length = vars.length) :
    List.zipWith (fun a b => a + (b - a) * 1) st vars = vars := by
  induction st generalizing vars with
  | nil =>
    rw [List.length_eq_zero.1 h.symm]
    rfl
  | cons a st ih =>
    cases vars with
    | nil => simp at h
    | cons b vars =>
      simp only [List.length_cons, add_left_inj] at h
      simp only [List.zipWith_cons_cons, ih vars h]
      congr 1
      ring

theorem ChildOK_congr {K : Type} [LinearOrderedField K] (t : K) (s s2 : Anim K)
    (c : Child K) (h : ∀ x, c.tweenTarget = some x → x.read s2 = x.read s)
    (hok : ChildOK t s c) : ChildOK t s2 c := by
  cases c with
  | call pos cb => trivial
  | tween pos tw start =>
    have hx := h tw.target rfl
    simp only [ChildOK] at hok ⊢
    rw [hx]
    exact hok

theorem forget_tweenTarget {K : Type} (c : Child K) :
    c.forget.tweenTarget = c.tweenTarget := by
  cases c <;> rfl

theorem tweenTarget_of_forget_eq {K : Type} (c d : Child K) (h : c.forget = d.forget) :
    c.tweenTarget = d.tweenTarget := by
  rw [← forget_tweenTarget c, h, forget_tweenTarget]

theorem filterMap_tweenTarget_of_forget {K : Type} (cs ds : List (Child K))
    (h : cs.map Child.forget = ds.map Child.forget) :
    cs.filterMap Child.tweenTarget = ds.filterMap Child.tweenTarget := by
  have e : ∀ l : List (Child K),
      (l.map Child.forget).filterMap Child.tweenTarget = l.filterMap Child.tweenTarget := by
    intro l
    rw [List.filterMap_map]
    congr 1
    funext c
    exact forget_tweenTarget c
  rw [← e cs, h, e ds]

theorem Child.advance_spec {K : Type} [LinearOrderedField K] (t0 t1 : K) (c : Child K)
    (s : Anim K) :
    (c.advance t0 t1 s).1.forget = c.forget ∧
      (ChildOK t0 s c → ChildOK t1 (c.advance t0 t1 s).2 (c.advance t0 t1 s).1) ∧
      (∀ y, c.tweenTarget ≠ some y → y.read (c.advance t0 t1 s).2 = y.read s) ∧
      presence (c.advance t0 t1 s).2 = presence s := by
  cases c with
  | call pos cb =>
    simp only [Child.advance]
    split
    · refine ⟨rfl, fun _ => trivial, fun y _ => ?_, ?_⟩
      · cases cb
        exact read_boomCallback y s
      · cases cb
        rfl
    · exact ⟨rfl, fun _ => trivial, fun y _ => rfl, rfl⟩
  | tween pos tw start =>
    simp only [Child.advance]
    split
    · rename_i h1
      refine ⟨rfl, fun hok => ?_, fun y _ => rfl, rfl⟩
      obtain ⟨hd, hl, hs, _⟩ := hok
      exact ⟨hd, hl, hs, fun h2 => absurd h2 (by linarith)⟩
    · split
      · rename_i h1 h2
        refine ⟨rfl, fun hok => ?_, fun y _ => rfl, rfl⟩
        obtain ⟨hd, hl, hs, hc⟩ := hok
        exact ⟨hd, hl, hs, fun _ => hc h2⟩
      · rename_i h1 h2
        refine ⟨rfl, fun hok => ?_, fun y hy => ?_, ?_⟩
        · obtain ⟨hd, hl, hs, hc⟩ := hok
          have hst : (start.getD (tw.target.read s)).length = tw.vars.length := by
            cases start with
            | none => exact hl
            | some st => exact hs st rfl
          have hz : ∀ weight : K,
              (List.zipWith (fun a b => a + (b - a) * weight)
                (start.getD (tw.target.read s)) tw.vars).length = tw.vars.length := by
            intro weight
            rw [List.length_zipWith, hst, min_self]
          simp only [ChildOK, Tween.render]
          refine ⟨hd, ?_, ?_, ?_⟩
          · rw [read_write_length, hl]
          · intro st hst2
            simp only [Option.some.injEq] at hst2
            rw [← hst2]
            exact hst
          · intro hdone
            have hr : tw.duration ≤ t1 - pos := by linarith
            rw [read_write_same _ _ _ (by rw [hz, hl]), if_pos hr]
            exact zipWith_weight_one _ _ hst
        · simp only [Tween.render]
          apply read_write_other
          intro hxy
          apply hy
          simp [Child.tweenTarget, hxy]
        · simp only [Tween.render]
          exact presence_write _ _ _

theorem advanceChildren_spec {K : Type} [LinearOrderedField K] (t0 t1 : K)
    (cs : List (Child K)) (s : Anim K) :
    (advanceChildren t0 t1 cs s).1.map Child.forget = cs.map Child.forget ∧
      (∀ y, y ∉ cs.filterMap Child.tweenTarget →
        y.read (advanceChildren t0 t1 cs s).2 = y.read s) ∧
      presence (advanceChildren t0 t1 cs s).2 = presence s ∧
      ((cs.filterMap Child.tweenTarget).Nodup → (∀ c ∈ cs, ChildOK t0 s c) →
        ∀ c ∈ (advanceChildren t0 t1 cs s).1, ChildOK t1 (advanceChildren t0 t1 cs s).2 c) := by
  induction cs generalizing s with
  | nil =>
    simp [advanceChildren]
  | cons c cs ih =>
    obtain ⟨hf, hok, hrd, hpr⟩ := Child.advance_spec t0 t1 c s
    obtain ⟨ihf, ihrd, ihpr, ihok⟩ := ih (c.advance t0 t1 s).2
    simp only [advanceChildren]
    have hrest : ∀ y, y ∉ (c :: cs).filterMap Child.tweenTarget →
        c.tweenTarget ≠ some y ∧ y ∉ cs.filterMap Child.tweenTarget := by
      intro y hy
      constructor
      · intro hc
        apply hy
        simp only [List.filterMap_cons, hc]
        exact List.mem_cons_self _ _
      · intro hc
        apply hy
        simp only [List.filterMap_cons]
        split
        · exact hc
        · exact List.mem_cons_of_mem _ hc
    refine ⟨?_, ?_, ?_, ?_⟩
    · simp only [List.map_cons, hf, ihf]
    · intro y hy
      obtain ⟨h1, h2⟩ := hrest y hy
      rw [ihrd y h2, hrd y h1]
    · rw [ihpr, hpr]
    · intro hnd hall c2 hc2
      have hnd2 : (cs.filterMap Child.tweenTarget).Nodup ∧
          ∀ x, c.tweenTarget = some x → x ∉ cs.filterMap Child.tweenTarget := by
        simp only [List.filterMap_cons] at hnd
        split at hnd
        · rename_i hnone
          exact ⟨hnd, fun x hx => by simp [hnone] at hx⟩
        · rename_i x0 hsome
          rw [List.nodup_cons] at hnd
          refine ⟨hnd.2, fun x hx => ?_⟩
          rw [hsome] at hx
          simp only [Option.some.injEq] at hx
          rw [← hx]
          exact hnd.1
      have hall2 : ∀ d ∈ cs, ChildOK t0 (c.advance t0 t1 s).2 d := by
        intro d hd
        apply ChildOK_congr t0 s _ d _ (hall d (List.mem_cons_of_mem _ hd))
        intro x hx
        apply hrd
        intro hcx
        exact hnd2.2 x hcx (List.mem_filterMap.2 ⟨d, hd, hx⟩)
      rcases List.mem_cons.1 hc2 with h | h
      · rw [h]
        apply ChildOK_congr t1 (c.advance t0 t1 s).2 _ _ _
          (hok (hall c (List.mem_cons_self _ _)))
        intro x hx
        apply ihrd
        have hx2 : c.tweenTarget = some x := by
          rw [← tweenTarget_of_forget_eq _ _ hf]
          exact hx
        exact hnd2.2 x hx2
      · exact ihok hnd2.1 hall2 c2 h

theorem rootTargets_cons {K : Type} (tl : Timeline K) (tls : List (Timeline K)) :
    rootTargets (tl :: tls) = tl.children.filterMap Child.tweenTarget ++ rootTargets tls := by
  simp [rootTargets]

theorem mem_rootTargets {K : Type} (tls : List (Timeline K)) (x : Target) :
    x ∈ rootTargets tls ↔ ∃ tl ∈ tls, ∃ c ∈ tl.children, c.tweenTarget = some x := by
  simp [rootTargets, List.mem_flatMap, List.mem_filterMap]

theorem advanceAll_spec {K : Type} [LinearOrderedField K] (dt : K) (tls : List (Timeline K))
    (s : Anim K) :
    List.Forall₂ (Timeline.Later dt) tls (advanceAll dt tls s).1 ∧
      (∀ y, y ∉ rootTargets tls → y.read (advanceAll dt tls s).2 = y.read s) ∧
      presence (advanceAll dt tls s).2 = presence s ∧
      ((rootTargets tls).Nodup → (∀ tl ∈ tls, ∀ c ∈ tl.children, ChildOK tl.time s c) →
        ∀ tl ∈ (advanceAll dt tls s).1, ∀ c ∈ tl.children,
          ChildOK tl.time (advanceAll dt tls s).2 c) := by
  induction tls generalizing s with
  | nil => simp [advanceAll, rootTargets]
  | cons tl tls ih =>
    obtain ⟨hf, hrd, hpr, hok⟩ :=
      advanceChildren_spec tl.time (tl.time + dt) tl.children s
    obtain ⟨ihf, ihrd, ihpr, ihok⟩ :=
      ih (advanceChildren tl.time (tl.time + dt) tl.children s).2
    simp only [advanceAll, Timeline.advance]
    refine ⟨List.Forall₂.cons ⟨rfl, rfl, hf⟩ ihf, ?_, ?_, ?_⟩
    · intro y hy
      rw [rootTargets_cons, List.mem_append, not_or] at hy
      rw [ihrd y hy.2, hrd y hy.1]
    · rw [ihpr, hpr]
    · intro hnd hall tl2 htl2 c hc
      rw [rootTargets_cons, List.nodup_append] at hnd
      obtain ⟨hnd1, hnd2, hdisj⟩ := hnd
      have hall2 : ∀ t ∈ tls, ∀ d ∈ t.children,
          ChildOK t.time (advanceChildren tl.time (tl.time + dt) tl.children s).2 d := by
        intro t ht d hd
        apply ChildOK_congr t.time s _ d _ (hall t (List.mem_cons_of_mem _ ht) d hd)
        intro x hx
        apply hrd
        intro hmem
        exact hdisj hmem ((mem_rootTargets tls x).2 ⟨t, ht, d, hd, hx⟩)
      rcases List.mem_cons.1 htl2 with h | h
      · rw [h] at hc ⊢
        simp only at hc ⊢
        apply ChildOK_congr (tl.time + dt)
          (advanceChildren tl.time (tl.time + dt) tl.children s).2 _ c _
          (hok hnd1 (hall tl (List.mem_cons_self _ _)) c hc)
        intro x hx
        apply ihrd
        intro hmem
        have hx2 : x ∈ tl.children.filterMap Child.tweenTarget := by
          rw [← filterMap_tweenTarget_of_forget _ _ hf]
          exact List.mem_filterMap.2 ⟨c, hc, hx⟩
        exact hdisj hx2 hmem
      · exact ihok hnd2 hall2 tl2 h c hc

theorem later_map_id {K : Type} [LinearOrderedField K] (dt : K) (tls tls2 : List (Timeline K))
    (h : List.Forall₂ (Timeline.Later dt) tls tls2) :
    (tls2.map fun tl => tl.id) = tls.map fun tl => tl.id := by
  induction h with
  | nil => rfl
  | cons h _ ih => simp only [List.map_cons, ih, h.1]

theorem later_rootTargets {K : Type} [LinearOrderedField K] (dt : K)
    (tls tls2 : List (Timeline K)) (h : List.Forall₂ (Timeline.Later dt) tls tls2) :
    rootTargets tls2 = rootTargets tls := by
  induction h with
  | nil => rfl
  | cons h _ ih =>
    rw [rootTargets_cons, rootTargets_cons, ih, filterMap_tweenTarget_of_forget _ _ h.2.2]

theorem later_mem_right {K : Type} [LinearOrderedField K] (dt : K)
    (tls tls2 : List (Timeline K)) (h : List.Forall₂ (Timeline.Later dt) tls tls2)
    (tl2 : Timeline K) (h2 : tl2 ∈ tls2) : ∃ tl ∈ tls, Timeline.Later dt tl tl2 := by
  induction h with
  | nil => simp at h2
  | cons h _ ih =>
    rcases List.mem_cons.1 h2 with e | e
    · exact ⟨_, List.mem_cons_self _ _, e ▸ h⟩
    · obtain ⟨tl, htl, hl⟩ := ih e
      exact ⟨tl, List.mem_cons_of_mem _ htl, hl⟩

theorem later_mem_left {K : Type} [LinearOrderedField K] (dt : K)
    (tls tls2 : List (Timeline K)) (h : List.Forall₂ (Timeline.Later dt) tls tls2)
    (tl : Timeline K) (h1 : tl ∈ tls) : ∃ tl2 ∈ tls2, Timeline.Later dt tl tl2 := by
  induction h with
  | nil => simp at h1
  | cons h _ ih =>
    rcases List.mem_cons.1 h1 with e | e
    · exact ⟨_, List.mem_cons_self _ _, e ▸ h⟩
    · obtain ⟨tl2, htl2, hl⟩ := ih e
      exact ⟨tl2, List.mem_cons_of_mem _ htl2, hl⟩

theorem later_highlightOnly {K : Type} [LinearOrderedField K] (dt : K) (tl tl2 : Timeline K)
    (h : Timeline.Later dt tl tl2) (ho : tl.highlightOnly) : tl2.highlightOnly := by
  intro c hc
  have hm : c.forget ∈ tl2.children.map Child.forget := List.mem_map_of_mem _ hc
  rw [h.2.2] at hm
  obtain ⟨d, hd, hdc⟩ := List.mem_map.1 hm
  rw [tweenTarget_of_forget_eq c d hdc.symm]
  exact ho d hd

theorem Inv_tick {K : Type} [LinearOrderedField K] (M : JSMath K) (w : World K) (dt : K)
    (h : Inv w) : Inv (step M w (.tick dt)) := by
  obtain ⟨h1, h2, h3, h4, h5⟩ := h
  obtain ⟨hl, _, _, hok⟩ := advanceAll_spec dt w.gsap.root w.anim
  simp only [Inv, GInv, step, Gsap.tick]
  refine ⟨hok h2 h1, ?_, ?_, ?_, ?_⟩
  · rw [later_rootTargets dt _ _ hl]
    exact h2
  · intro tl2 htl2
    obtain ⟨tl, htl, hlt⟩ := later_mem_right dt _ _ hl tl2 htl2
    rw [hlt.1]
    exact h3 tl htl
  · rw [later_map_id dt _ _ hl]
    exact h4
  · intro tl2 htl2
    obtain ⟨tl, htl, hlt⟩ := later_mem_right dt _ _ hl tl2 htl2
    rcases h5 tl htl with e | e
    · left
      rw [hlt.1]
      exact e
    · right
      exact later_highlightOnly dt tl tl2 hlt e

theorem Inv_frame {K : Type} [LinearOrderedField K] (M : JSMath K) (w : World K) (delta : K)
    (h : Inv w) : Inv (step M w (.frame delta)) := by
  obtain ⟨h1, h2, h3, h4, h5⟩ := h
  refine ⟨?_, h2, h3, h4, h5⟩
  intro tl htl c hc
  exact ChildOK_congr tl.time w.anim _ c (fun x _ => read_frame M delta x w.anim)
    (h1 tl htl c hc)

/-! ### The sequencer: a stage change keeps the invariant -/

theorem rootTargets_filter_sublist {K : Type} (p : Timeline K → Bool)
    (tls : List (Timeline K)) :
    (rootTargets (tls.filter p)).Sublist (rootTargets tls) := by
  induction tls with
  | nil => exact List.Sublist.refl _
  | cons tl tls ih =>
    rw [List.filter_cons]
    split
    · rw [rootTargets_cons, rootTargets_cons]
      exact List.Sublist.append (List.Sublist.refl _) ih
    · rw [rootTargets_cons]
      exact ih.trans (List.sublist_append_right _ _)

theorem rootTargets_overwrite_sublist {K : Type} (xs : List Target) (g : Gsap K) :
    (rootTargets (g.overwrite xs).root).Sublist (rootTargets g.root) := by
  simp only [Gsap.overwrite]
  induction g.root with
  | nil => exact List.Sublist.refl _
  | cons tl tls ih =>
    rw [List.map_cons, rootTargets_cons, rootTargets_cons]
    exact List.Sublist.append ((List.filter_sublist _).filterMap _) ih

theorem mem_overwrite {K : Type} (xs : List Target) (g : Gsap K) (tl2 : Timeline K)
    (h : tl2 ∈ (g.overwrite xs).root) :
    ∃ tl ∈ g.root, tl2.id = tl.id ∧ tl2.time = tl.time ∧
      tl2.children = tl.children.filter (Child.survives xs) := by
  simp only [Gsap.overwrite, List.mem_map] at h
  obtain ⟨tl, htl, rfl⟩ := h
  exact ⟨tl, htl, rfl, rfl, rfl⟩

theorem GInv_kill {K : Type} [LinearOrderedField K] (a : Anim K) (id : Nat)
    (g : Gsap K) (h : GInv a (some id) g) : GInv a none (g.kill id) := by
  obtain ⟨h1, h2, h3, h4, h5⟩ := h
  simp only [Gsap.kill]
  refine ⟨?_, ?_, ?_, ?_, ?_⟩
  · intro tl htl
    exact h1 tl (List.mem_of_mem_filter htl)
  · exact h2.sublist (rootTargets_filter_sublist _ _)
  · intro tl htl
    exact h3 tl (List.mem_of_mem_filter htl)
  · exact h4.sublist ((List.filter_sublist _).map _)
  · intro tl htl
    have hne : tl.id ≠ id := by
      have := (List.mem_filter.1 htl).2
      simpa using this
    rcases h5 tl (List.mem_of_mem_filter htl) with e | e
    · simp only [Option.some.injEq] at e
      exact absurd e.symm hne
    · exact Or.inr e

theorem GInv_anim {K : Type} [LinearOrderedField K] (a a2 : Anim K) (g : Gsap K)
    (h : GInv a none g)
    (hr : Target.highlightOpacityRef.read a2 = Target.highlightOpacityRef.read a) :
    GInv a2 none g := by
  obtain ⟨h1, h2, h3, h4, h5⟩ := h
  refine ⟨?_, h2, h3, h4, h5⟩
  intro tl htl c hc
  apply ChildOK_congr tl.time a a2 c _ (h1 tl htl c hc)
  intro x hx
  rcases h5 tl htl with e | e
  · exact absurd e (by simp)
  · have := e c hc
    rw [hx] at this
    simp only [Option.some.injEq] at this
    rw [this]
    exact hr

theorem GInv_timeline {K : Type} [LinearOrderedField K] (a : Anim K) (g : Gsap K)
    (children : List (Child K)) (h : GInv a none g)
    (hok : ∀ c ∈ children, ChildOK 0 a c)
    (hnd : (children.filterMap Child.tweenTarget).Nodup) :
    GInv a (some g.nextId) (g.timeline children).1 ∧
      ((∀ c ∈ children, c.tweenTarget = some Target.highlightOpacityRef) →
        GInv a none (g.timeline children).1) := by
  obtain ⟨h1, h2, h3, h4, h5⟩ := h
  have hOld : ∀ tl2 ∈ (g.overwrite (children.filterMap Child.tweenTarget)).root,
      (∀ c ∈ tl2.children, ChildOK tl2.time a c) ∧ tl2.id < g.nextId ∧
        tl2.highlightOnly := by
    intro tl2 htl2
    obtain ⟨tl, htl, hid, htime, hch⟩ := mem_overwrite _ _ _ htl2
    refine ⟨?_, ?_, ?_⟩
    · intro c hc
      rw [hch] at hc
      rw [htime]
      exact h1 tl htl c (List.mem_of_mem_filter hc)
    · rw [hid]
      exact h3 tl htl
    · intro c hc
      rw [hch] at hc
      rcases h5 tl htl with e | e
      · exact absurd e (by simp)
      · exact e c (List.mem_of_mem_filter hc)
  have hids : ((g.overwrite (children.filterMap Child.tweenTarget)).root.map
      fun tl => tl.id) = g.root.map fun tl => tl.id := by
    simp [Gsap.overwrite, Function.comp_def]
  have hA : ∀ tl ∈ (g.timeline children).1.root, ∀ c ∈ tl.children, ChildOK tl.time a c := by
    intro tl htl c hc
    simp only [Gsap.timeline, List.mem_append, List.mem_singleton] at htl
    rcases htl with e | e
    · exact (hOld tl e).1 c hc
    · rw [e] at hc ⊢
      exact hok c hc
  have hB : (rootTargets (g.timeline children).1.root).Nodup := by
    simp only [Gsap.timeline, rootTargets, List.flatMap_append, List.flatMap_cons,
      List.flatMap_nil, List.append_nil]
    rw [List.nodup_append]
    refine ⟨h2.sublist (rootTargets_overwrite_sublist _ g), hnd, ?_⟩
    intro x hx1 hx2
    obtain ⟨tl2, htl2, c, hc, hcx⟩ := (mem_rootTargets _ x).1 hx1
    obtain ⟨tl, htl, hid, htime, hch⟩ := mem_overwrite _ _ _ htl2
    rw [hch] at hc
    have hsv := (List.mem_filter.1 hc).2
    simp only [Child.survives, hcx, Bool.not_eq_true'] at hsv
    have hx3 : (children.filterMap Child.tweenTarget).contains x = true :=
      List.elem_iff.2 hx2
    rw [hsv] at hx3
    exact Bool.noConfusion hx3
  have hC : ∀ tl ∈ (g.timeline children).1.root, tl.id < (g.timeline children).1.nextId := by
    intro tl htl
    simp only [Gsap.timeline, List.mem_append, List.mem_singleton] at htl ⊢
    rcases htl with e | e
    · exact Nat.lt_succ_of_lt (hOld tl e).2.1
    · rw [e]
      exact Nat.lt_succ_self _
  have hD : ((g.timeline children).1.root.map fun tl => tl.id).Nodup := by
    simp only [Gsap.timeline, List.map_append, List.map_cons, List.map_nil]
    rw [hids, List.nodup_append]
    refine ⟨h4, List.nodup_singleton _, ?_⟩
    intro i hi1 hi2
    rw [List.mem_singleton] at hi2
    obtain ⟨tl, htl, rfl⟩ := List.mem_map.1 hi1
    have := h3 tl htl
    omega
  refine ⟨⟨hA, hB, hC, hD, ?_⟩, fun hh => ⟨hA, hB, hC, hD, ?_⟩⟩
  · intro tl htl
    simp only [Gsap.timeline, List.mem_append, List.mem_singleton] at htl
    rcases htl with e | e
    · exact Or.inr (hOld tl e).2.2
    · left
      rw [e]
  · intro tl htl
    simp only [Gsap.timeline, List.mem_append, List.mem_singleton] at htl
    rcases htl with e | e
    · exact Or.inr (hOld tl e).2.2
    · right
      rw [e]
      exact hh

theorem starChildren_ok {K : Type} [LinearOrderedField K] (a : Anim K) :
    ∀ c ∈ starChildren a, ChildOK 0 a c := by
  intro c hc
  cases h1 : a.coreRef <;> cases h2 : a.coreMatRef <;> cases h3 : a.diskRef <;>
    cases h4 : a.diskMatRef <;>
    simp only [starChildren, h1, h2, h3, h4, Option.isSome_none, Option.isSome_some,
      Bool.false_eq_true, if_false, if_true, List.append_nil, List.cons_append,
      List.nil_append, List.mem_cons, List.mem_singleton, List.not_mem_nil, or_false] at hc <;>
    rcases hc with rfl | rfl | rfl | rfl | rfl | rfl | rfl | rfl | rfl <;>
    simp only [ChildOK, Target.read, h1, h2, h3, h4, STAGES.star, List.length_cons,
      List.length_nil, reduceCtorEq, false_implies, implies_true, and_true, true_and] <;>
    norm_num

theorem starChildren_nodup {K : Type} [LinearOrderedField K] (a : Anim K) :
    ((starChildren a).filterMap Child.tweenTarget).Nodup := by
  cases h1 : a.coreRef <;> cases h2 : a.coreMatRef <;> cases h3 : a.diskRef <;>
    cases h4 : a.diskMatRef <;>
    simp [starChildren, h1, h2, h3, h4, Child.tweenTarget]

theorem GInv_to {K : Type} [LinearOrderedField K] (a : Anim K) (g : Gsap K) (v duration : K)
    (ease : Ease) (h : GInv a none g) (hd : 0 < duration) :
    GInv a none (g.to .highlightOpacityRef [v] duration ease) := by
  refine (GInv_timeline a g _ h ?_ ?_).2 ?_
  · intro c hc
    rw [List.mem_singleton] at hc
    rw [hc]
    refine ⟨hd, rfl, fun st hst => absurd hst (by simp), fun hle => ?_⟩
    exact absurd hle (by linarith)
  · simp [Child.tweenTarget]
  · intro c hc
    rw [List.mem_singleton] at hc
    rw [hc]
    rfl

theorem Inv_stageEffect {K : Type} [LinearOrderedField K] (M : JSMath K) (stage : String)
    (w : World K) (h : GInv w.anim none w.gsap) : Inv (stageEffect M stage w) := by
  have hd : (0 : K) < (if stage = "nebula" then 0.25 else 0.6) := by
    split <;> norm_num
  unfold stageEffect
  simp only []
  split
  · show GInv _ _ _
    refine (GInv_timeline _ _ _ ?_ (starChildren_ok _) (starChildren_nodup _)).1
    exact GInv_to _ _ _ _ _ (GInv_anim _ _ _ h rfl) hd
  · split
    · show GInv _ _ _
      exact GInv_to _ _ _ _ _ (GInv_anim _ _ _ h rfl) (by norm_num)
    · show GInv _ _ _
      exact GInv_to _ _ _ _ _ (GInv_anim _ _ _ h rfl) (by norm_num)

theorem Inv_step {K : Type} [LinearOrderedField K] (M : JSMath K) (w : World K)
    (e : Event K) (h : Inv w) : Inv (step M w e) := by
  cases e with
  | tick dt => exact Inv_tick M w dt h
  | frame delta => exact Inv_frame M w delta h
  | setStage stage =>
    simp only [step]
    split
    · exact h
    · apply Inv_stageEffect
      cases hc : w.cleanup with
      | none =>
        have h2 : GInv w.anim none w.gsap := by
          have := h
          rw [Inv, hc] at this
          exact this
        exact h2
      | some id =>
        have h2 : GInv w.anim (some id) w.gsap := by
          have := h
          rw [Inv, hc] at this
          exact this
        exact GInv_kill w.anim id w.gsap h2

theorem Inv_init {K : Type} [LinearOrderedField K] (a : Anim K) : Inv (World.init a) := by
  simp [Inv, GInv, World.init, rootTargets]

theorem Inv_run {K : Type} [LinearOrderedField K] (M : JSMath K) (w : World K)
    (es : List (Event K)) (h : Inv w) : Inv (run M w es) := by
  induction es generalizing w with
  | nil => exact h
  | cons e es ih => exact ih (step M w e) (Inv_step M w e h)

/-! ### The sequencer: what a settled `nebula -> star` transition leaves -/

theorem later_trans {K : Type} [LinearOrderedField K] (d1 d2 : K) (t1 t2 t3 : Timeline K)
    (h1 : Timeline.Later d1 t1 t2) (h2 : Timeline.Later d2 t2 t3) :
    Timeline.Later (d1 + d2) t1 t3 := by
  refine ⟨h2.1.trans h1.1, ?_, h2.2.2.trans h1.2.2⟩
  rw [h2.2.1, h1.2.1]
  ring

theorem later_child {K : Type} [LinearOrderedField K] (dt : K) (tl tl2 : Timeline K)
    (h : Timeline.Later dt tl tl2) (pos : K) (tw : Tween K)
    (hc : Child.tween pos tw none ∈ tl.children) :
    ∃ start, Child.tween pos tw start ∈ tl2.children := by
  have hm : (Child.tween pos tw none).forget ∈ tl.children.map Child.forget :=
    List.mem_map_of_mem _ hc
  rw [← h.2.2] at hm
  obtain ⟨c2, hc2, he⟩ := List.mem_map.1 hm
  cases c2 with
  | call p cb => simp [Child.forget] at he
  | tween p tw2 start =>
    simp only [Child.forget, Child.tween.injEq, and_true] at he
    obtain ⟨hp, ht⟩ := he
    exact ⟨start, by rw [← hp, ← ht]; exact hc2⟩

theorem presence_stageEffect {K : Type} [LinearOrderedField K] (M : JSMath K)
    (stage : String) (w : World K) :
    presence (stageEffect M stage w).anim = presence w.anim := by
  unfold stageEffect
  simp only []
  split
  · rfl
  · split
    · simp [presence]
    · rfl

theorem presence_step {K : Type} [LinearOrderedField K] (M : JSMath K) (w : World K)
    (e : Event K) : presence (step M w e).anim = presence w.anim := by
  cases e with
  | tick dt => exact (advanceAll_spec dt w.gsap.root w.anim).2.2.1
  | frame delta => exact presence_frame M delta w.anim
  | setStage stage =>
    simp only [step]
    split
    · rfl
    · exact presence_stageEffect M stage _

theorem presence_run {K : Type} [LinearOrderedField K] (M : JSMath K) (w : World K)
    (es : List (Event K)) : presence (run M w es).anim = presence w.anim := by
  induction es generalizing w with
  | nil => rfl
  | cons e es ih =>
    show presence (run M (step M w e) es).anim = presence w.anim
    rw [ih, presence_step]

/-- Ticks and frames keep every live timeline, with its playhead advanced by the time of
the ticks. -/
theorem run_later {K : Type} [LinearOrderedField K] (M : JSMath K) (w : World K)
    (es : List (Event K)) (hes : ∀ e ∈ es, e.isStage = false) (tl : Timeline K)
    (htl : tl ∈ w.gsap.root) :
    ∃ tl2 ∈ (run M w es).gsap.root, Timeline.Later (tickSum es) tl tl2 := by
  induction es generalizing w tl with
  | nil =>
    refine ⟨tl, htl, rfl, ?_, rfl⟩
    simp [tickSum]
  | cons e es ih =>
    have hes2 : ∀ e2 ∈ es, e2.isStage = false := fun e2 h => hes e2 (List.mem_cons_of_mem _ h)
    cases e with
    | setStage stage =>
      have := hes _ (List.mem_cons_self _ _)
      simp [Event.isStage] at this
    | frame delta =>
      obtain ⟨tl2, h2, hl⟩ := ih (step M w (.frame delta)) hes2 tl htl
      exact ⟨tl2, h2, by simpa [tickSum] using hl⟩
    | tick dt =>
      obtain ⟨tl1, h1, hl1⟩ :=
        later_mem_left dt _ _ (advanceAll_spec dt w.gsap.root w.anim).1 tl htl
      obtain ⟨tl2, h2, hl2⟩ := ih (step M w (.tick dt)) hes2 tl1 h1
      exact ⟨tl2, h2, by simpa [tickSum] using later_trans dt (tickSum es) tl tl1 tl2 hl1 hl2⟩

theorem highlight_survives {K : Type} [LinearOrderedField K] (a : Anim K) (v d : K)
    (e : Ease) :
    Child.survives ((starChildren a).filterMap Child.tweenTarget)
      (Child.tween 0 (Tween.mk .highlightOpacityRef [v] d e) none) = true := by
  cases h1 : a.coreRef <;> cases h2 : a.coreMatRef <;> cases h3 : a.diskRef <;>
    cases h4 : a.diskMatRef <;>
    simp [starChildren, h1, h2, h3, h4, Child.tweenTarget, Child.survives]

/-- The state right after the handler has run the `nebula -> star` branch. -/
theorem star_effect_spec {K : Type} [LinearOrderedField K] (M : JSMath K) (w : World K)
    (hprev : w.anim.lastStageRef = "nebula") :
    (stageEffect M "star" w).anim
        = { w.anim with
            lastStageRef := "star"
            gasStartRef := captureAll M w.anim.gasMeshRefs
            swirlTargetRef := w.anim.swirlRef
            swirlStarsOpacityRef := 1 } ∧
      (∃ tl ∈ (stageEffect M "star" w).gsap.root,
        tl.time = 0 ∧ tl.children = starChildren (stageEffect M "star" w).anim) ∧
      (∃ tl ∈ (stageEffect M "star" w).gsap.root,
        tl.time = 0 ∧
          tl.children
            = [Child.tween 0 (Tween.mk .highlightOpacityRef [0.25] 0.6 .power2Out) none]) := by
  have hs : (stageEffect M "star" w)
      = { w with
          anim := { w.anim with
            lastStageRef := "star"
            gasStartRef := captureAll M w.anim.gasMeshRefs
            swirlTargetRef := w.anim.swirlRef
            swirlStarsOpacityRef := 1 }
          gsap := ((w.gsap.to .highlightOpacityRef [0.25] 0.6 .power2Out).timeline
            (starChildren { w.anim with
              lastStageRef := "star"
              gasStartRef := captureAll M w.anim.gasMeshRefs
              swirlTargetRef := w.anim.swirlRef
              swirlStarsOpacityRef := 1 })).1
          cleanup := some ((w.gsap.to .highlightOpacityRef [0.25] 0.6 .power2Out).timeline
            (starChildren { w.anim with
              lastStageRef := "star"
              gasStartRef := captureAll M w.anim.gasMeshRefs
              swirlTargetRef := w.anim.swirlRef
              swirlStarsOpacityRef := 1 })).2 } := by
    unfold stageEffect
    simp [hprev, STAGES.lookup, STAGES.star]
  rw [hs]
  refine ⟨rfl, ?_, ?_⟩
  · refine ⟨{ id := (w.gsap.to .highlightOpacityRef [0.25] 0.6 .power2Out).nextId, time := 0,
              children := starChildren { w.anim with
                lastStageRef := "star"
                gasStartRef := captureAll M w.anim.gasMeshRefs
                swirlTargetRef := w.anim.swirlRef
                swirlStarsOpacityRef := 1 } }, ?_, rfl, rfl⟩
    simp only [Gsap.timeline]
    exact List.mem_append_right _ (List.mem_singleton_self _)
  · refine ⟨{ id := w.gsap.nextId, time := 0,
              children := [Child.tween 0
                (Tween.mk .highlightOpacityRef [0.25] 0.6 .power2Out) none] }, ?_, rfl, rfl⟩
    simp only [Gsap.timeline, Gsap.to, Gsap.overwrite, List.map_append, List.map_cons,
      List.map_nil]
    apply List.mem_append_left
    apply List.mem_append_right
    rw [List.mem_singleton]
    simp only [List.filter_cons, highlight_survives, if_true, List.filter_nil]

theorem step_setStage_star {K : Type} [LinearOrderedField K] (M : JSMath K) (w : World K)
    (hst : w.stage ≠ some "star") :
    ∃ w0 : World K, w0.anim = w.anim ∧ step M w (.setStage "star") = stageEffect M "star" w0 := by
  refine ⟨{ w with
    gsap := match w.cleanup with
      | some id => w.gsap.kill id
      | none => w.gsap
    stage := some "star"
    cleanup := none }, rfl, ?_⟩
  simp only [step, if_neg hst]

theorem eq_none_of_isSome_false {α : Type} (o : Option α)
    (h : o.isSome = (none : Option α).isSome) : o = none := by
  cases o with
  | none => rfl
  | some v => simp at h

/-- Once the ticks after a `nebula -> star` stage change add up to the length of the
transition (`2.48`), every tweened property holds its end value, whatever frames and ticks
were interleaved. -/
theorem star_settles {K : Type} [LinearOrderedField K] (M : JSMath K) (w : World K)
    (hinv : Inv w) (hprev : w.anim.lastStageRef = "nebula") (hst : w.stage ≠ some "star")
    (es : List (Event K)) (hes : ∀ e ∈ es, e.isStage = false) (hsum : 2.48 ≤ tickSum es)
    (x : Target) :
    x.read (run M (step M w (.setStage "star")) es).anim = x.read (settledStar w.anim) := by
  have hinv2 : Inv (run M (step M w (.setStage "star")) es) :=
    Inv_run M _ es (Inv_step M w _ hinv)
  have hpres : presence (run M (step M w (.setStage "star")) es).anim = presence w.anim := by
    rw [presence_run, presence_step]
  obtain ⟨w0, hw0, hstep⟩ := step_setStage_star M w hst
  obtain ⟨hanim, ⟨T, hT, hT0, hTc⟩, ⟨H, hH, hH0, hHc⟩⟩ :=
    star_effect_spec M w0 (by rw [hw0]; exact hprev)
  rw [← hstep] at hanim hT hH hTc
  have hchild : ∀ (tl : Timeline K), tl ∈ (step M w (.setStage "star")).gsap.root →
      tl.time = 0 → ∀ (pos : K) (tw : Tween K), Child.tween pos tw none ∈ tl.children →
      pos + tw.duration ≤ 2.48 →
      tw.target.read (run M (step M w (.setStage "star")) es).anim = tw.vars := by
    intro tl htl htime pos tw hc hle
    obtain ⟨tl2, htl2, hl⟩ := run_later M _ es hes tl htl
    obtain ⟨start, hc2⟩ := later_child _ tl tl2 hl pos tw hc
    have hok := hinv2.1 tl2 htl2 _ hc2
    apply hok.2.2.2
    rw [hl.2.1, htime]
    linarith
  have hcore : (step M w (.setStage "star")).anim.coreRef = w.anim.coreRef := by
    rw [hanim, hw0]
  have hcoreMat : (step M w (.setStage "star")).anim.coreMatRef = w.anim.coreMatRef := by
    rw [hanim, hw0]
  have hdisk : (step M w (.setStage "star")).anim.diskRef = w.anim.diskRef := by
    rw [hanim, hw0]
  have hdiskMat : (step M w (.setStage "star")).anim.diskMatRef = w.anim.diskMatRef := by
    rw [hanim, hw0]
  simp only [presence, Prod.mk.injEq] at hpres
  obtain ⟨hp1, hp2, hp3, hp4⟩ := hpres
  cases x
  case highlightOpacityRef =>
    have := hchild H hH hH0 0 _ (by rw [hHc]; exact List.mem_singleton_self _) (by norm_num)
    rw [this]
    simp [Target.read, settledStar, STAGES.star]
  case swirlTargetRef =>
    have := hchild T hT hT0 0 (Tween.mk .swirlTargetRef [1] 1.6 .power3InOut)
      (by rw [hTc]; simp [starChildren]) (by norm_num)
    rw [this]
    simp [Target.read, settledStar]
  case nebulaOpacityRef =>
    have := hchild T hT hT0 0.1
      (Tween.mk .nebulaOpacityRef [(STAGES.star (K := K)).nebulaOpacity] 1.2 .power2Out)
      (by rw [hTc]; simp [starChildren]) (by norm_num)
    rw [this]
    simp [Target.read, settledStar]
  case spinRef =>
    have := hchild T hT hT0 1.58
      (Tween.mk .spinRef [(STAGES.star (K := K)).spin] 0.9 .power2Out)
      (by rw [hTc]; simp [starChildren]) (by norm_num)
    rw [this]
    simp [Target.read, settledStar]
  case swirlStarsOpacityRef =>
    have := hchild T hT hT0 1.48 (Tween.mk .swirlStarsOpacityRef [0] 0.35 .power2Out)
      (by rw [hTc]; simp [starChildren]) (by norm_num)
    rw [this]
    simp [Target.read, settledStar]
  case coreScale =>
    cases hc : w.anim.coreRef with
    | none =>
      rw [hc] at hp1
      simp [Target.read, settledStar, hc, eq_none_of_isSome_false _ hp1]
    | some m =>
      have := hchild T hT hT0 1.48
        (Tween.mk .coreScale [(STAGES.star (K := K)).coreScale,
          (STAGES.star (K := K)).coreScale, (STAGES.star (K := K)).coreScale] 0.45 .power3Out)
        (by rw [hTc]; simp [starChildren, hcore, hc]) (by norm_num)
      rw [this]
      simp [Target.read, settledStar, hc]
  case coreMat =>
    cases hc : w.anim.coreMatRef with
    | none =>
      rw [hc] at hp2
      simp [Target.read, settledStar, hc, eq_none_of_isSome_false _ hp2]
    | some m =>
      have := hchild T hT hT0 1.48
        (Tween.mk .coreMat [(STAGES.star (K := K)).coreOpacity,
          (STAGES.star (K := K)).coreGlow] 0.55 .power3Out)
        (by rw [hTc]; simp [starChildren, hcoreMat, hc]) (by norm_num)
      rw [this]
      simp [Target.read, settledStar, hc]
  case diskScale =>
    cases hc : w.anim.diskRef with
    | none =>
      rw [hc] at hp3
      simp [Target.read, settledStar, hc, eq_none_of_isSome_false _ hp3]
    | some m =>
      have := hchild T hT hT0 1.58
        (Tween.mk .diskScale [(STAGES.star (K := K)).diskScale,
          (STAGES.star (K := K)).diskScale, 1] 0.9 .power3Out)
        (by rw [hTc]; simp [starChildren, hdisk, hc]) (by norm_num)
      rw [this]
      simp [Target.read, settledStar, hc]
  case diskMat =>
    cases hc : w.anim.diskMatRef with
    | none =>
      rw [hc] at hp4
      simp [Target.read, settledStar, hc, eq_none_of_isSome_false _ hp4]
    | some m =>
      have := hchild T hT hT0 1.58
        (Tween.mk .diskMat [(STAGES.star (K := K)).diskOpacity] 0.7 .power2Out)
        (by rw [hTc]; simp [starChildren, hdiskMat, hc]) (by norm_num)
      rw [this]
      simp [Target.read, settledStar, hc]

/-! ### The sequencer: what ticks and stage changes leave alone -/

theorem advanceChildren_untouched {K β : Type} [LinearOrderedField K] (f : Anim K → β)
    (hw : ∀ (x : Target) (v : List K) (s : Anim K), f (x.write v s) = f s)
    (hb : ∀ s : Anim K, f (boomCallback s) = f s) (t0 t1 : K) (cs : List (Child K))
    (s : Anim K) : f (advanceChildren t0 t1 cs s).2 = f s := by
  induction cs generalizing s with
  | nil => rfl
  | cons c cs ih =>
    simp only [advanceChildren]
    rw [ih]
    cases c with
    | call pos cb =>
      simp only [Child.advance]
      split
      · cases cb
        exact hb s
      · rfl
    | tween pos tw start =>
      simp only [Child.advance]
      split
      · rfl
      · split
        · rfl
        · exact hw _ _ _

theorem advanceAll_untouched {K β : Type} [LinearOrderedField K] (f : Anim K → β)
    (hw : ∀ (x : Target) (v : List K) (s : Anim K), f (x.write v s) = f s)
    (hb : ∀ s : Anim K, f (boomCallback s) = f s) (dt : K) (tls : List (Timeline K))
    (s : Anim K) : f (advanceAll dt tls s).2 = f s := by
  induction tls generalizing s with
  | nil => rfl
  | cons tl tls ih =>
    simp only [advanceAll, Timeline.advance]
    rw [ih]
    exact advanceChildren_untouched f hw hb _ _ _ _

theorem write_lastStageRef {K : Type} (x : Target) (v : List K) (s : Anim K) :
    (x.write v s).lastStageRef = s.lastStageRef := by
  unfold Target.write
  split <;> rfl

theorem write_gasMeshRefs {K : Type} (x : Target) (v : List K) (s : Anim K) :
    (x.write v s).gasMeshRefs = s.gasMeshRefs := by
  unfold Target.write
  split <;> rfl

theorem write_gasStartRef {K : Type} (x : Target) (v : List K) (s : Anim K) :
    (x.write v s).gasStartRef = s.gasStartRef := by
  unfold Target.write
  split <;> rfl

theorem write_swirlRef {K : Type} (x : Target) (v : List K) (s : Anim K) :
    (x.write v s).swirlRef = s.swirlRef := by
  unfold Target.write
  split <;> rfl

theorem tick_lastStageRef {K : Type} [LinearOrderedField K] (M : JSMath K) (w : World K)
    (dt : K) : (step M w (.tick dt)).anim.lastStageRef = w.anim.lastStageRef :=
  advanceAll_untouched (fun s => s.lastStageRef) write_lastStageRef (fun _ => rfl) dt _ _

theorem tick_gasMeshRefs {K : Type} [LinearOrderedField K] (M : JSMath K) (w : World K)
    (dt : K) : (step M w (.tick dt)).anim.gasMeshRefs = w.anim.gasMeshRefs :=
  advanceAll_untouched (fun s => s.gasMeshRefs) write_gasMeshRefs (fun _ => rfl) dt _ _

theorem tick_gasStartRef {K : Type} [LinearOrderedField K] (M : JSMath K) (w : World K)
    (dt : K) : (step M w (.tick dt)).anim.gasStartRef = w.anim.gasStartRef :=
  advanceAll_untouched (fun s => s.gasStartRef) write_gasStartRef (fun _ => rfl) dt _ _

theorem tick_swirlRef {K : Type} [LinearOrderedField K] (M : JSMath K) (w : World K)
    (dt : K) : (step M w (.tick dt)).anim.swirlRef = w.anim.swirlRef :=
  advanceAll_untouched (fun s => s.swirlRef) write_swirlRef (fun _ => rfl) dt _ _

theorem tick_stage {K : Type} [LinearOrderedField K] (M : JSMath K) (w : World K)
    (dt : K) : (step M w (.tick dt)).stage = w.stage := rfl

theorem frame_stage {K : Type} [LinearOrderedField K] (M : JSMath K) (w : World K)
    (delta : K) : (step M w (.frame delta)).stage = w.stage := rfl

theorem frame_lastStageRef {K : Type} [LinearOrderedField K] (M : JSMath K) (w : World K)
    (delta : K) : (step M w (.frame delta)).anim.lastStageRef = w.anim.lastStageRef := rfl

theorem stageEffect_stage {K : Type} [LinearOrderedField K] (M : JSMath K) (stage : String)
    (w : World K) : (stageEffect M stage w).stage = w.stage := by
  unfold stageEffect
  simp only []
  split
  · rfl
  · split <;> rfl

theorem stageEffect_lastStageRef {K : Type} [LinearOrderedField K] (M : JSMath K)
    (stage : String) (w : World K) : (stageEffect M stage w).anim.lastStageRef = stage := by
  unfold stageEffect
  simp only []
  split
  · rfl
  · split <;> rfl

theorem stageEffect_gasMeshRefs {K : Type} [LinearOrderedField K] (M : JSMath K)
    (stage : String) (w : World K) :
    (stageEffect M stage w).anim.gasMeshRefs = w.anim.gasMeshRefs := by
  unfold stageEffect
  simp only []
  split
  · rfl
  · split <;> rfl

theorem stageEffect_swirlRef {K : Type} [LinearOrderedField K] (M : JSMath K)
    (stage : String) (w : World K) :
    (stageEffect M stage w).anim.swirlRef = w.anim.swirlRef := by
  unfold stageEffect
  simp only []
  split
  · rfl
  · split <;> rfl

theorem setStage_gasMeshRefs {K : Type} [LinearOrderedField K] (M : JSMath K) (w : World K)
    (stage : String) :
    (step M w (.setStage stage)).anim.gasMeshRefs = w.anim.gasMeshRefs := by
  simp only [step]
  split
  · rfl
  · exact stageEffect_gasMeshRefs M stage _

theorem setStage_swirlRef {K : Type} [LinearOrderedField K] (M : JSMath K) (w : World K)
    (stage : String) : (step M w (.setStage stage)).anim.swirlRef = w.anim.swirlRef := by
  simp only [step]
  split
  · rfl
  · exact stageEffect_swirlRef M stage _

theorem setStage_stage {K : Type} [LinearOrderedField K] (M : JSMath K) (w : World K)
    (stage : String) : (step M w (.setStage stage)).stage = some stage := by
  simp only [step]
  split
  · assumption
  · rw [stageEffect_stage]

theorem setStage_lastStageRef {K : Type} [LinearOrderedField K] (M : JSMath K) (w : World K)
    (stage : String) (h : w.stage ≠ some stage) :
    (step M w (.setStage stage)).anim.lastStageRef = stage := by
  simp only [step, if_neg h]
  exact stageEffect_lastStageRef M stage _

/-- Ticks and frames change neither the `stage` prop nor `lastStageRef.current`. -/
theorem run_stage_of_no_stage {K : Type} [LinearOrderedField K] (M : JSMath K) (w : World K)
    (es : List (Event K)) (hes : ∀ e ∈ es, e.isStage = false) :
    (run M w es).stage = w.stage ∧ (run M w es).anim.lastStageRef = w.anim.lastStageRef := by
  induction es generalizing w with
  | nil => exact ⟨rfl, rfl⟩
  | cons e es ih =>
    have hes2 : ∀ e2 ∈ es, e2.isStage = false := fun e2 h => hes e2 (List.mem_cons_of_mem _ h)
    have h := ih (step M w e) hes2
    cases e with
    | setStage stage =>
      have := hes _ (List.mem_cons_self _ _)
      simp [Event.isStage] at this
    | tick dt =>
      exact ⟨h.1.trans (tick_stage M w dt), h.2.trans (tick_lastStageRef M w dt)⟩
    | frame delta =>
      exact ⟨h.1.trans (frame_stage M w delta), h.2.trans (frame_lastStageRef M w delta)⟩

theorem run_append {K : Type} [LinearOrderedField K] (M : JSMath K) (w : World K)
    (es fs : List (Event K)) : run M w (es ++ fs) = run M (run M w es) fs := by
  simp [run, List.foldl_append]

theorem run_cons {K : Type} [LinearOrderedField K] (M : JSMath K) (w : World K)
    (e : Event K) (es : List (Event K)) : run M w (e :: es) = run M (step M w e) es := rfl

/-- The world in stage `nebula`: after a render with `stage = "nebula"` and any ticks and
frames, the `stage` prop and `lastStageRef.current` are `"nebula"` and the invariant
holds. -/
theorem nebula_world {K : Type} [LinearOrderedField K] (M : JSMath K) (w : World K)
    (hinv : Inv w) (hst : w.stage ≠ some "nebula") (es : List (Event K))
    (hes : ∀ e ∈ es, e.isStage = false) :
    Inv (run M w (.setStage "nebula" :: es)) ∧
      (run M w (.setStage "nebula" :: es)).anim.lastStageRef = "nebula" ∧
      (run M w (.setStage "nebula" :: es)).stage ≠ some "star" := by
  obtain ⟨h1, h2⟩ := run_stage_of_no_stage M (step M w (.setStage "nebula")) es hes
  refine ⟨Inv_run M w _ hinv, ?_, ?_⟩
  · rw [run_cons, h2]
    exact setStage_lastStageRef M w "nebula" hst
  · rw [run_cons, h1, setStage_stage]
    simp

theorem settledStar_read_congr {K : Type} [LinearOrderedField K] (a b : Anim K)
    (h : presence a = presence b) (x : Target) :
    x.read (settledStar a) = x.read (settledStar b) := by
  simp only [presence, Prod.mk.injEq] at h
  obtain ⟨h1, h2, h3, h4⟩ := h
  cases x <;> simp only [Target.read, settledStar]
  · cases ha : a.coreRef <;> cases hb : b.coreRef <;> simp_all
  · cases ha : a.coreMatRef <;> cases hb : b.coreMatRef <;> simp_all
  · cases ha : a.diskRef <;> cases hb : b.diskRef <;> simp_all
  · cases ha : a.diskMatRef <;> cases hb : b.diskMatRef <;> simp_all

/-! ### The `nebula -> star` transition -/

theorem star_snapshot {K : Type} [LinearOrderedField K] (M : JSMath K) (w : World K)
    (hprev : w.anim.lastStageRef = "nebula") (hst : w.stage ≠ some "star") :
    (step M w (.setStage "star")).anim.gasStartRef = captureAll M w.anim.gasMeshRefs ∧
      (step M w (.setStage "star")).cleanup.isSome = true := by
  obtain ⟨w0, hw0, hstep⟩ := step_setStage_star M w hst
  have h := (star_effect_spec M w0 (by rw [hw0]; exact hprev)).1
  constructor
  · rw [hstep, h, hw0]
  · rw [hstep]
    unfold stageEffect
    simp [hw0, hprev]

/-- The `nebula -> star` transition from any refs `a`, for the stage sequence
`[nebula, star]` with any ticks and frames in between: right after the handler has run
for the `nebula -> star` edge the collapse snapshot is the polar capture of the five gas meshes (`r0 = hypot(x, y)`,
`theta0 = atan2(y, x)`, `z0`, scale, `rotZ` of each) when all five are mounted, and `null`
when one of them is not; and once the ticks since then add up to the length of the
timeline (`2.48`), the core material (when mounted) has opacity `1.0`, the disk (when
mounted) has x and y scale `1.6`, and `spinRef.current` is `0.5`. -/
theorem star_transition_of_refs {K : Type} [LinearOrderedField K] (M : JSMath K)
    (a : Anim K) (es0 es1 : List (Event K)) (hes0 : ∀ e ∈ es0, e.isStage = false)
    (hes1 : ∀ e ∈ es1, e.isStage = false) (hsum : 2.48 ≤ tickSum es1) :
    ((∀ ma mb mc md me : Mesh K,
          (run M (World.init a) (.setStage "nebula" :: es0)).anim.gasMeshRefs
            = ⟨some ma, some mb, some mc, some md, some me⟩ →
          (step M (run M (World.init a) (.setStage "nebula" :: es0))
              (.setStage "star")).anim.gasStartRef
            = some (Five.map (GasStart.capture M) ⟨ma, mb, mc, md, me⟩)) ∧
        (∀ ma : Mesh K,
          GasStart.capture M ma
            = { r0 := M.hypot ma.position.x ma.position.y
                theta0 := M.atan2 ma.position.y ma.position.x
                z0 := ma.position.z
                scale := ma.scale
                rotZ := ma.rotation.z }) ∧
        (none ∈ (run M (World.init a) (.setStage "nebula" :: es0)).anim.gasMeshRefs.toList →
          (step M (run M (World.init a) (.setStage "nebula" :: es0))
              (.setStage "star")).anim.gasStartRef = none)) ∧
      ((∀ m, (run M (step M (run M (World.init a) (.setStage "nebula" :: es0))
            (.setStage "star")) es1).anim.coreMatRef = some m → m.opacity = 1.0) ∧
        (∀ d, (run M (step M (run M (World.init a) (.setStage "nebula" :: es0))
            (.setStage "star")) es1).anim.diskRef = some d →
          d.scale.x = 1.6 ∧ d.scale.y = 1.6) ∧
        (run M (step M (run M (World.init a) (.setStage "nebula" :: es0))
            (.setStage "star")) es1).anim.spinRef = 0.5 ∧
        presence (run M (step M (run M (World.init a) (.setStage "nebula" :: es0))
            (.setStage "star")) es1).anim = presence a) := by
  obtain ⟨h1, h2, h3⟩ := nebula_world M (World.init a) (Inv_init _)
    (by simp [World.init]) es0 hes0
  obtain ⟨h4, _⟩ := star_snapshot M _ h2 h3
  have hset := star_settles M _ h1 h2 h3 es1 hes1 hsum
  have hpres : presence (run M (step M (run M (World.init a) (.setStage "nebula" :: es0))
      (.setStage "star")) es1).anim = presence a := by
    rw [presence_run, presence_step, presence_run]
    rfl
  generalize run M (World.init a) (.setStage "nebula" :: es0) = w at h1 h2 h3 h4 hset hpres ⊢
  refine ⟨⟨?_, fun _ => rfl, ?_⟩, ?_, ?_, ?_, ?_⟩
  · intro ma mb mc md me hm
    rw [h4, hm]
    rfl
  · intro hn
    rw [h4]
    simp only [Five.toList, List.mem_cons, List.mem_singleton, List.not_mem_nil,
      or_false] at hn
    unfold captureAll
    rcases hn with h | h | h | h | h <;> split <;> simp_all
  · intro m hm
    have h := hset .coreMat
    simp only [Target.read, hm, settledStar] at h
    cases hc : w.anim.coreMatRef with
    | none => simp [hc] at h
    | some m0 =>
      simp only [hc, Option.map_some', List.cons.injEq, and_true] at h
      rw [h.1]
      simp [STAGES.star]
  · intro d hd
    have h := hset .diskScale
    simp only [Target.read, hd, settledStar] at h
    cases hc : w.anim.diskRef with
    | none => simp [hc] at h
    | some m0 =>
      simp only [hc, Option.map_some', List.cons.injEq, and_true] at h
      rw [h.1, h.2.1]
      simp [STAGES.star]
  · have h := hset .spinRef
    simp only [Target.read, settledStar, List.cons.injEq, and_true] at h
    rw [h]
    simp [STAGES.star]
  · exact hpres

theorem frame_gasMeshRefs {K : Type} [LinearOrderedField K] (M : JSMath K) (delta : K)
    (s : Anim K) :
    (frame M delta s).gasMeshRefs
      = if swirlSmooth M s.swirlTargetRef delta s.swirlRef > 0.0001 then
          Five.zipWith (gasSwirl M (swirlSmooth M s.swirlTargetRef delta s.swirlRef))
            (gasStarts s.gasStartRef)
            (if swirlSmooth M s.swirlTargetRef delta s.swirlRef < 0.0001 then
              Five.zipWith (gasPassive delta) GAS_SPEEDS s.gasMeshRefs
            else s.gasMeshRefs)
        else
          if swirlSmooth M s.swirlTargetRef delta s.swirlRef < 0.0001 then
            Five.zipWith (gasPassive delta) GAS_SPEEDS s.gasMeshRefs
          else s.gasMeshRefs := rfl

/-- No event mounts or unmounts a gas mesh. -/
theorem step_gasMounted {K : Type} [LinearOrderedField K] (M : JSMath K) (w : World K)
    (e : Event K) :
    (step M w e).anim.gasMeshRefs.map Option.isSome = w.anim.gasMeshRefs.map Option.isSome := by
  cases e with
  | setStage stage => rw [setStage_gasMeshRefs]
  | tick dt => rw [tick_gasMeshRefs]
  | frame delta =>
    show (frame M delta w.anim).gasMeshRefs.map Option.isSome = _
    rw [frame_gasMeshRefs]
    split <;> split <;> simp [Five.zipWith, Five.map, gasSwirl, gasPassive]

theorem run_gasMounted {K : Type} [LinearOrderedField K] (M : JSMath K) (w : World K)
    (es : List (Event K)) :
    (run M w es).anim.gasMeshRefs.map Option.isSome = w.anim.gasMeshRefs.map Option.isSome := by
  induction es generalizing w with
  | nil => rfl
  | cons e es ih => rw [run_cons, ih, step_gasMounted]

/-- From the scene at mount the five gas meshes stay mounted. -/
theorem mount_gasMeshRefs {K : Type} [LinearOrderedField K] (M : JSMath K)
    (es : List (Event K)) :
    ∃ ma mb mc md me : Mesh K,
      (run M (World.init (mountAnim M)) es).anim.gasMeshRefs
        = ⟨some ma, some mb, some mc, some md, some me⟩ := by
  have h := run_gasMounted M (World.init (mountAnim M)) es
  generalize (run M (World.init (mountAnim M)) es).anim.gasMeshRefs = g at h
  obtain ⟨a, b, c, d, e⟩ := g
  simp only [Five.map, World.init, mountAnim, GAS_BASE, Option.isSome_some, Five.mk.injEq] at h
  obtain ⟨ha, hb, hc, hd, he⟩ := h
  obtain ⟨ma, rfl⟩ := Option.isSome_iff_exists.1 ha
  obtain ⟨mb, rfl⟩ := Option.isSome_iff_exists.1 hb
  obtain ⟨mc, rfl⟩ := Option.isSome_iff_exists.1 hc
  obtain ⟨md, rfl⟩ := Option.isSome_iff_exists.1 hd
  obtain ⟨me, rfl⟩ := Option.isSome_iff_exists.1 he
  exact ⟨ma, mb, mc, md, me, rfl⟩

/-- C8: for the stage sequence `[nebula, star]` from the scene at mount, with any ticks and
frames in between: right after the handler has run for the `nebula -> star` edge the
collapse snapshot is non-null, with one entry per gas-cloud node holding `r0 = hypot(x, y)`,
`theta0 = atan2(y, x)`, `z0`, scale and `rotZ` of that node as it then is; and once the
ticks since then add up to the length of the timeline (`2.48`), the core material has
opacity `1.0`, the disk has x and y scale `1.6`, and `spinRef.current` is `0.5`. -/
theorem star_transition_snapshot_and_end {K : Type} [LinearOrderedField K] (M : JSMath K)
    (es0 es1 : List (Event K)) (hes0 : ∀ e ∈ es0, e.isStage = false)
    (hes1 : ∀ e ∈ es1, e.isStage = false) (hsum : 2.48 ≤ tickSum es1) :
    (∃ ma mb mc md me : Mesh K,
        (run M (World.init (mountAnim M)) (.setStage "nebula" :: es0)).anim.gasMeshRefs
          = ⟨some ma, some mb, some mc, some md, some me⟩ ∧
        (step M (run M (World.init (mountAnim M)) (.setStage "nebula" :: es0))
            (.setStage "star")).anim.gasStartRef
          = some (Five.map
              (fun m : Mesh K =>
                { r0 := M.hypot m.position.x m.position.y
                  theta0 := M.atan2 m.position.y m.position.x
                  z0 := m.position.z
                  scale := m.scale
                  rotZ := m.rotation.z })
              ⟨ma, mb, mc, md, me⟩)) ∧
      (∃ m, (run M (step M (run M (World.init (mountAnim M)) (.setStage "nebula" :: es0))
          (.setStage "star")) es1).anim.coreMatRef = some m ∧ m.opacity = 1.0) ∧
      (∃ d, (run M (step M (run M (World.init (mountAnim M)) (.setStage "nebula" :: es0))
          (.setStage "star")) es1).anim.diskRef = some d ∧
        d.scale.x = 1.6 ∧ d.scale.y = 1.6) ∧
      (run M (step M (run M (World.init (mountAnim M)) (.setStage "nebula" :: es0))
          (.setStage "star")) es1).anim.spinRef = 0.5 := by
  obtain ⟨⟨hcap, _, _⟩, hcore, hdisk, hspin, hpres⟩ :=
    star_transition_of_refs M (mountAnim M) es0 es1 hes0 hes1 hsum
  obtain ⟨ma, mb, mc, md, me, hm⟩ := mount_gasMeshRefs M (.setStage "nebula" :: es0)
  have hp1 : (run M (step M (run M (World.init (mountAnim M)) (.setStage "nebula" :: es0))
      (.setStage "star")) es1).anim.coreMatRef.isSome = true :=
    congrArg (fun p => p.2.1) hpres
  have hp2 : (run M (step M (run M (World.init (mountAnim M)) (.setStage "nebula" :: es0))
      (.setStage "star")) es1).anim.diskRef.isSome = true :=
    congrArg (fun p => p.2.2.1) hpres
  obtain ⟨m, hm1⟩ := Option.isSome_iff_exists.1 hp1
  obtain ⟨d, hd1⟩ := Option.isSome_iff_exists.1 hp2
  exact ⟨⟨ma, mb, mc, md, me, hm, hcap ma mb mc md me hm⟩, ⟨m, hm1, hcore m hm1⟩,
    ⟨d, hd1, hdisk d hd1⟩, hspin⟩

/-- Witness for C8: a frame before the stage change, and ticks of `1` and `1.5` seconds
with a frame in between after it. -/
theorem star_transition_snapshot_and_end_witness :
    ((∀ e ∈ [(Event.frame (1 / 60) : Event ℝ)], e.isStage = false) ∧
        (∀ e ∈ [(Event.tick 1 : Event ℝ), .frame (1 / 60), .tick 1.5], e.isStage = false) ∧
        (2.48 : ℝ) ≤ tickSum [(Event.tick 1 : Event ℝ), .frame (1 / 60), .tick 1.5]) ∧
      ((∃ ma mb mc md me : Mesh ℝ,
          (run realMath (World.init (mountAnim realMath))
              (.setStage "nebula" :: [.frame (1 / 60)])).anim.gasMeshRefs
            = ⟨some ma, some mb, some mc, some md, some me⟩ ∧
          (step realMath (run realMath (World.init (mountAnim realMath))
              (.setStage "nebula" :: [.frame (1 / 60)])) (.setStage "star")).anim.gasStartRef
            = some (Five.map
                (fun m : Mesh ℝ =>
                  { r0 := realMath.hypot m.position.x m.position.y
                    theta0 := realMath.atan2 m.position.y m.position.x
                    z0 := m.position.z
                    scale := m.scale
                    rotZ := m.rotation.z })
                ⟨ma, mb, mc, md, me⟩)) ∧
        (∃ m, (run realMath (step realMath (run realMath (World.init (mountAnim realMath))
            (.setStage "nebula" :: [.frame (1 / 60)])) (.setStage "star"))
            [.tick 1, .frame (1 / 60), .tick 1.5]).anim.coreMatRef = some m ∧
          m.opacity = 1.0) ∧
        (∃ d, (run realMath (step realMath (run realMath (World.init (mountAnim realMath))
            (.setStage "nebula" :: [.frame (1 / 60)])) (.setStage "star"))
            [.tick 1, .frame (1 / 60), .tick 1.5]).anim.diskRef = some d ∧
          d.scale.x = 1.6 ∧ d.scale.y = 1.6) ∧
        (run realMath (step realMath (run realMath (World.init (mountAnim realMath))
            (.setStage "nebula" :: [.frame (1 / 60)])) (.setStage "star"))
            [.tick 1, .frame (1 / 60), .tick 1.5]).anim.spinRef = 0.5) :=
  ⟨⟨by simp [Event.isStage], by simp [Event.isStage], by norm_num [tickSum]⟩,
    star_transition_snapshot_and_end realMath [.frame (1 / 60)]
      [.tick 1, .frame (1 / 60), .tick 1.5] (by simp [Event.isStage])
      (by simp [Event.isStage]) (by norm_num [tickSum])⟩

/-! ### Rapid stage changes -/

theorem writers_le_count {K : Type} (x : Target) (root : List (Timeline K)) :
    (root.filter fun tl => tl.children.any (Child.targets x)).length
      ≤ (rootTargets root).count x := by
  induction root with
  | nil => simp [rootTargets]
  | cons tl root ih =>
    rw [rootTargets_cons, List.count_append, List.filter_cons]
    split
    · rename_i h
      have hx : x ∈ tl.children.filterMap Child.tweenTarget := by
        obtain ⟨c, hc, hcx⟩ := List.any_eq_true.1 h
        simp only [Child.targets, decide_eq_true_eq] at hcx
        exact List.mem_filterMap.2 ⟨c, hc, hcx⟩
      have := List.count_pos_iff.2 hx
      simp only [List.length_cons]
      omega
    · omega

theorem single_writer {K : Type} [LinearOrderedField K] (w : World K) (h : Inv w)
    (x : Target) :
    (w.gsap.root.filter fun tl => tl.children.any (Child.targets x)).length ≤ 1 :=
  le_trans (writers_le_count x _) (List.nodup_iff_count_le_one.1 h.2.1 x)

/-- C9 (amended): after any sequence of renders, ticks and frames, at most one live
timeline holds a tween of the core material (its opacity), since every stage change kills
the timeline of the previous transition before the handler runs; and for the stage changes
`nebula -> star -> nebula -> star` with any ticks and frames in between, once the ticks
after the last change add up to the length of the timeline (`2.48`), every property written
by a tween (highlight opacity, swirl target, nebula opacity, core scale, core opacity and
glow, disk scale and opacity, spin, swirl-stars opacity) has the value it has after a
single `nebula -> star` transition from the same initial state, namely the star profile's
value. -/
theorem rapid_toggle_settles {K : Type} [LinearOrderedField K] (M : JSMath K) (a : Anim K)
    (es es0 es1 es2 es3 : List (Event K)) (h0 : ∀ e ∈ es0, e.isStage = false)
    (h1 : ∀ e ∈ es1, e.isStage = false) (h2 : ∀ e ∈ es2, e.isStage = false)
    (h3 : ∀ e ∈ es3, e.isStage = false) (hsum : 2.48 ≤ tickSum es3) :
    ((run M (World.init a) es).gsap.root.filter
        fun tl => tl.children.any (Child.targets .coreMat)).length ≤ 1 ∧
      (∀ x : Target,
        x.read (run M (World.init a)
            (.setStage "nebula" :: es0 ++ .setStage "star" :: es1
              ++ .setStage "nebula" :: es2 ++ .setStage "star" :: es3)).anim
          = x.read (run M (World.init a)
            (.setStage "nebula" :: es0 ++ .setStage "star" :: es3)).anim) ∧
      (∀ x : Target,
        x.read (run M (World.init a)
            (.setStage "nebula" :: es0 ++ .setStage "star" :: es1
              ++ .setStage "nebula" :: es2 ++ .setStage "star" :: es3)).anim
          = x.read (settledStar a)) := by
  have hclean : ∀ x : Target,
      x.read (run M (World.init a)
          (.setStage "nebula" :: es0 ++ .setStage "star" :: es3)).anim
        = x.read (settledStar a) := by
    intro x
    obtain ⟨i1, i2, i3⟩ := nebula_world M (World.init a) (Inv_init _)
      (by simp [World.init]) es0 h0
    have e : run M (World.init a) (.setStage "nebula" :: es0 ++ .setStage "star" :: es3)
        = run M (step M (run M (World.init a) (.setStage "nebula" :: es0))
            (.setStage "star")) es3 := by
      rw [run_append, run_cons]
    rw [e, star_settles M _ i1 i2 i3 es3 h3 hsum x]
    apply settledStar_read_congr
    rw [presence_run]
    rfl
  have hrapid : ∀ x : Target,
      x.read (run M (World.init a)
          (.setStage "nebula" :: es0 ++ .setStage "star" :: es1
            ++ .setStage "nebula" :: es2 ++ .setStage "star" :: es3)).anim
        = x.read (settledStar a) := by
    intro x
    have hmid : Inv (run M (World.init a) (.setStage "nebula" :: es0 ++ .setStage "star" :: es1)) :=
      Inv_run M _ _ (Inv_init _)
    have hstage : (run M (World.init a)
        (.setStage "nebula" :: es0 ++ .setStage "star" :: es1)).stage ≠ some "nebula" := by
      rw [run_append, run_cons, (run_stage_of_no_stage M _ es1 h1).1, setStage_stage]
      simp
    obtain ⟨i1, i2, i3⟩ := nebula_world M _ hmid hstage es2 h2
    have e : run M (World.init a)
        (.setStage "nebula" :: es0 ++ .setStage "star" :: es1
          ++ .setStage "nebula" :: es2 ++ .setStage "star" :: es3)
        = run M (step M (run M (run M (World.init a)
            (.setStage "nebula" :: es0 ++ .setStage "star" :: es1))
            (.setStage "nebula" :: es2)) (.setStage "star")) es3 := by
      rw [run_append, run_append, run_cons]
    rw [e, star_settles M _ i1 i2 i3 es3 h3 hsum x]
    apply settledStar_read_congr
    rw [presence_run, presence_run]
    rfl
  refine ⟨single_writer _ (Inv_run M _ es (Inv_init _)) _, fun x => ?_, hrapid⟩
  rw [hrapid x, hclean x]

/-- Witness for C9 (amended): the scene at mount; `nebula` is pressed `0.8` seconds into
the first transition and `star` again a frame later. -/
theorem rapid_toggle_settles_witness :
    ((∀ e ∈ ([] : List (Event ℝ)), e.isStage = false) ∧
        (∀ e ∈ [(Event.tick 0.8 : Event ℝ), .frame 0.8], e.isStage = false) ∧
        (∀ e ∈ [(Event.frame (1 / 60) : Event ℝ)], e.isStage = false) ∧
        (∀ e ∈ [(Event.tick 2.5 : Event ℝ), .frame 2.5], e.isStage = false) ∧
        (2.48 : ℝ) ≤ tickSum [(Event.tick 2.5 : Event ℝ), .frame 2.5]) ∧
      ∀ x : Target,
        x.read (run realMath (World.init (mountAnim realMath))
            (.setStage "nebula" :: [] ++ .setStage "star" :: [.tick 0.8, .frame 0.8]
              ++ .setStage "nebula" :: [.frame (1 / 60)]
              ++ .setStage "star" :: [.tick 2.5, .frame 2.5])).anim
          = x.read (run realMath (World.init (mountAnim realMath))
            (.setStage "nebula" :: [] ++ .setStage "star" :: [.tick 2.5, .frame 2.5])).anim :=
  ⟨⟨by simp, by simp [Event.isStage], by simp [Event.isStage], by simp [Event.isStage],
      by norm_num [tickSum]⟩,
    (rapid_toggle_settles realMath (mountAnim realMath) [] [] [.tick 0.8, .frame 0.8]
      [.frame (1 / 60)] [.tick 2.5, .frame 2.5] (by simp) (by simp [Event.isStage])
      (by simp [Event.isStage]) (by simp [Event.isStage]) (by norm_num [tickSum])).2.1⟩

theorem starChildren_congr {K : Type} [LinearOrderedField K] (a b : Anim K)
    (h : presence a = presence b) : starChildren a = starChildren b := by
  simp only [presence, Prod.mk.injEq] at h
  obtain ⟨h1, h2, h3, h4⟩ := h
  simp only [starChildren, h1, h2, h3, h4]

/-- A tween of the `nebula -> star` timeline whose end the ticks have reached has written
its end values, whatever frames and ticks were interleaved. -/
theorem star_child_done {K : Type} [LinearOrderedField K] (M : JSMath K) (w : World K)
    (hinv : Inv w) (hprev : w.anim.lastStageRef = "nebula") (hst : w.stage ≠ some "star")
    (es : List (Event K)) (hes : ∀ e ∈ es, e.isStage = false) (pos : K) (tw : Tween K)
    (hmem : Child.tween pos tw none ∈ starChildren w.anim)
    (hle : pos + tw.duration ≤ tickSum es) :
    tw.target.read (run M (step M w (.setStage "star")) es).anim = tw.vars := by
  have hinv2 : Inv (run M (step M w (.setStage "star")) es) :=
    Inv_run M _ es (Inv_step M w _ hinv)
  obtain ⟨w0, hw0, hstep⟩ := step_setStage_star M w hst
  obtain ⟨_, ⟨T, hT, hT0, hTc⟩, _⟩ := star_effect_spec M w0 (by rw [hw0]; exact hprev)
  rw [← hstep] at hT hTc
  rw [starChildren_congr _ w.anim (presence_step M w _)] at hTc
  obtain ⟨tl2, htl2, hl⟩ := run_later M _ es hes T hT
  obtain ⟨start, hc2⟩ := later_child _ T tl2 hl pos tw (by rw [hTc]; exact hmem)
  have hok := hinv2.1 tl2 htl2 _ hc2
  apply hok.2.2.2
  rw [hl.2.1, hT0]
  linarith

/-- C9 (counterexample): from the scene at mount, pressing `nebula` two seconds into the
`nebula -> star` transition (its timeline runs `2.48` seconds), after one tick and one
frame of two seconds, and then `star` again, leaves after settling a collapse snapshot
that differs from the one left by a single `nebula -> star` transition: the second capture
is taken from the gas meshes as the swirl transform has moved them. -/
theorem rapid_toggle_snapshot_counterexample :
    (run realMath (World.init (mountAnim realMath))
        [.setStage "nebula", .setStage "star", .tick 2, .frame 2, .setStage "nebula",
          .setStage "star", .tick 3]).anim.gasStartRef
      ≠ (run realMath (World.init (mountAnim realMath))
        [.setStage "nebula", .setStage "star", .tick 3]).anim.gasStartRef := by
  obtain ⟨i1, i2, i3⟩ := nebula_world realMath (World.init (mountAnim realMath)) (Inv_init _)
    (by simp [World.init]) [] (by simp)
  have hm1 : (run realMath (World.init (mountAnim realMath))
      [.setStage "nebula"]).anim.gasMeshRefs = (GAS_BASE (K := ℝ)).map some :=
    setStage_gasMeshRefs realMath (World.init (mountAnim realMath)) "nebula"
  have hs1 : (run realMath (World.init (mountAnim realMath))
      [.setStage "nebula"]).anim.swirlRef = 0 :=
    setStage_swirlRef realMath (World.init (mountAnim realMath)) "nebula"
  have eR : run realMath (World.init (mountAnim realMath))
      [.setStage "nebula", .setStage "star", .tick 2, .frame 2, .setStage "nebula",
        .setStage "star", .tick 3]
      = step realMath (step realMath (step realMath (step realMath (step realMath
          (step realMath (run realMath (World.init (mountAnim realMath)) [.setStage "nebula"])
            (.setStage "star")) (.tick 2)) (.frame 2)) (.setStage "nebula"))
          (.setStage "star")) (.tick 3) := rfl
  have eC : run realMath (World.init (mountAnim realMath))
      [.setStage "nebula", .setStage "star", .tick 3]
      = step realMath (step realMath
          (run realMath (World.init (mountAnim realMath)) [.setStage "nebula"])
            (.setStage "star")) (.tick 3) := rfl
  rw [eR, eC]
  generalize run realMath (World.init (mountAnim realMath)) [.setStage "nebula"] = w1
    at i1 i2 i3 hm1 hs1
  -- the single transition
  have hc2 := (star_snapshot realMath w1 i2 i3).1
  have hC : (step realMath (step realMath w1 (.setStage "star")) (.tick 3)).anim.gasStartRef
      = captureAll realMath ((GAS_BASE (K := ℝ)).map some) := by
    rw [tick_gasStartRef, hc2, hm1]
  rw [hC]
  -- the first transition of the rapid sequence: a tick and a frame of two seconds
  have ht3 : (step realMath (step realMath w1 (.setStage "star")) (.tick 2)).anim.swirlTargetRef
      = 1 := by
    have h := star_child_done realMath w1 i1 i2 i3 [.tick 2] (by simp [Event.isStage]) 0
      (Tween.mk .swirlTargetRef [1] 1.6 .power3InOut) (by simp [starChildren])
      (by norm_num [tickSum])
    simpa [Target.read, run] using h
  have hs3 : (step realMath (step realMath w1 (.setStage "star")) (.tick 2)).anim.swirlRef
      = 0 := by
    rw [tick_swirlRef, setStage_swirlRef, hs1]
  have hg3 : (step realMath (step realMath w1 (.setStage "star")) (.tick 2)).anim.gasStartRef
      = captureAll realMath ((GAS_BASE (K := ℝ)).map some) := by
    rw [tick_gasStartRef, hc2, hm1]
  have hm3 : (step realMath (step realMath w1 (.setStage "star")) (.tick 2)).anim.gasMeshRefs
      = (GAS_BASE (K := ℝ)).map some := by
    rw [tick_gasMeshRefs, setStage_gasMeshRefs, hm1]
  have hst3 : (step realMath (step realMath w1 (.setStage "star")) (.tick 2)).stage
      = some "star" := by
    rw [tick_stage, setStage_stage]
  generalize step realMath (step realMath w1 (.setStage "star")) (.tick 2) = w3
    at ht3 hs3 hg3 hm3 hst3
  have hp : swirlSmooth realMath (1 : ℝ) 2 0 = 0.99999936 := by
    simp only [swirlSmooth, realMath, Real.rpow_two]
    norm_num
  have hm4 : (step realMath w3 (.frame 2)).anim.gasMeshRefs
      = Five.zipWith (gasSwirl realMath 0.99999936)
          (gasStarts (captureAll realMath ((GAS_BASE (K := ℝ)).map some)))
          ((GAS_BASE (K := ℝ)).map some) := by
    show (frame realMath 2 w3.anim).gasMeshRefs = _
    rw [frame_gasMeshRefs, ht3, hs3, hg3, hm3, hp]
    norm_num
  have hst4 : (step realMath w3 (.frame 2)).stage = some "star" := hst3
  generalize step realMath w3 (.frame 2) = w4 at hm4 hst4
  -- back to nebula, and star again
  have hst5 : (step realMath w4 (.setStage "nebula")).stage ≠ some "star" := by
    rw [setStage_stage]
    simp
  have hl5 : (step realMath w4 (.setStage "nebula")).anim.lastStageRef = "nebula" :=
    setStage_lastStageRef realMath w4 "nebula" (by rw [hst4]; simp)
  have hm5 : (step realMath w4 (.setStage "nebula")).anim.gasMeshRefs
      = Five.zipWith (gasSwirl realMath 0.99999936)
          (gasStarts (captureAll realMath ((GAS_BASE (K := ℝ)).map some)))
          ((GAS_BASE (K := ℝ)).map some) := by
    rw [setStage_gasMeshRefs, hm4]
  generalize step realMath w4 (.setStage "nebula") = w5 at hst5 hl5 hm5
  rw [tick_gasStartRef, (star_snapshot realMath w5 hl5 hst5).1, hm5]
  intro h
  have h2 := congrArg (fun o : Option (Five (GasStart ℝ)) => o.map fun g => g.a.scale.x) h
  simp only [captureAll, Five.zipWith, gasSwirl, gasStarts, Five.map, GAS_BASE,
    swirlTransform, GasStart.capture, Option.map_some', Option.getD_some,
    Option.some.injEq] at h2
  norm_num at h2

/-! ### Entering `nebula` -/

/-- C7: whenever the stage handler runs with `stage = "nebula"`, from any previous stage
and any animation state, then in that same call: `swirlTargetRef.current` is `0`, the
collapse snapshot is `null`, the disk node (when mounted) has scale `(0, 0, 1)` and the
disk material (when mounted) has opacity `0`, `spinRef.current` is the nebula profile's
`0.05`, and the alphas of the three pulses are `0`.  The same holds for the render event
that runs the handler; and after that event, in any run of the component, every live tween
is a tween of `highlightOpacityRef`: no tween is left that would write these fields. -/
theorem nebula_entry_resets {K : Type} [LinearOrderedField K] (M : JSMath K) (w : World K) :
    ((stageEffect M "nebula" w).anim.swirlTargetRef = 0 ∧
        (stageEffect M "nebula" w).anim.gasStartRef = none ∧
        (stageEffect M "nebula" w).anim.diskRef
          = w.anim.diskRef.map (fun m => { m with scale := ⟨0, 0, 1⟩ }) ∧
        (stageEffect M "nebula" w).anim.diskMatRef = w.anim.diskMatRef.map (fun _ => 0) ∧
        (stageEffect M "nebula" w).anim.spinRef = 0.05 ∧
        (stageEffect M "nebula" w).anim.microFlashRef.a = 0 ∧
        (stageEffect M "nebula" w).anim.burstRef.a = 0 ∧
        (stageEffect M "nebula" w).anim.shockRef.a = 0) ∧
      (w.stage ≠ some "nebula" →
        (step M w (.setStage "nebula")).anim = (stageEffect M "nebula" w).anim) ∧
      (∀ (a : Anim K) (es : List (Event K)), w = run M (World.init a) es →
        w.stage ≠ some "nebula" →
        ∀ tl ∈ (step M w (.setStage "nebula")).gsap.root, tl.highlightOnly) := by
  have h0 : (0.0 : K) = 0 := by norm_num
  refine ⟨?_, ?_, ?_⟩
  · simp [stageEffect, STAGES.nebula, h0]
  · intro h
    simp [step, h, stageEffect]
  · intro a es hw hst tl htl
    have hinv : Inv (step M w (.setStage "nebula")) := by
      rw [hw]
      exact Inv_step M _ _ (Inv_run M _ es (Inv_init a))
    have hc : (step M w (.setStage "nebula")).cleanup = none := by
      simp [step, hst, stageEffect]
    rcases hinv.2.2.2.2 tl htl with e | e
    · rw [hc] at e
      exact absurd e (by simp)
    · exact e

/-! ### The swirl transform on a captured node -/

theorem hypot_eq_abs (x y : ℝ) : realMath.hypot x y = Complex.abs ⟨x, y⟩ := by
  simp only [realMath, Complex.abs_apply, Complex.normSq_mk]
  congr 1
  ring

/-- C12: for the snapshot captured from a gas-cloud node at position `(x, y, z)` with scale
`(sx, sy, sz)` and rotation `rotZ`, the formulas of the swirl transform at `p = 0` give
position `(x, 0.55 * y, z)`, scale `(sx, sy, sz)` and rotation `rotZ`: the captured x, z,
scale and rotation are reproduced, the captured y is multiplied by `Y_FLATTEN`, and the
position equals the captured one exactly when `y = 0`. -/
theorem swirl_at_zero_flattens (m : Mesh ℝ) :
    (swirlTransform realMath 0 (GasStart.capture realMath m) m).position
        = ⟨m.position.x, 0.55 * m.position.y, m.position.z⟩ ∧
      (swirlTransform realMath 0 (GasStart.capture realMath m) m).scale = m.scale ∧
      (swirlTransform realMath 0 (GasStart.capture realMath m) m).rotation = m.rotation ∧
      ((swirlTransform realMath 0 (GasStart.capture realMath m) m).position = m.position
        ↔ m.position.y = 0) := by
  have hx : Real.cos (Complex.arg ⟨m.position.x, m.position.y⟩)
      * Complex.abs ⟨m.position.x, m.position.y⟩ = m.position.x := by
    rw [mul_comm]
    exact Complex.abs_mul_cos_arg ⟨m.position.x, m.position.y⟩
  have hy : Real.sin (Complex.arg ⟨m.position.x, m.position.y⟩)
      * Complex.abs ⟨m.position.x, m.position.y⟩ = m.position.y := by
    rw [mul_comm]
    exact Complex.abs_mul_sin_arg ⟨m.position.x, m.position.y⟩
  have hpos : (swirlTransform realMath 0 (GasStart.capture realMath m) m).position
      = ⟨m.position.x, 0.55 * m.position.y, m.position.z⟩ := by
    simp only [swirlTransform, swirlTheta, GasStart.capture, Y_FLATTEN, zero_mul, add_zero,
      sub_zero, mul_one, hypot_eq_abs]
    simp only [realMath, hx, hy]
    rw [mul_comm]
  refine ⟨hpos, ?_, ?_, ?_⟩
  · obtain ⟨p, r, ⟨sx, sy, sz⟩⟩ := m
    simp [swirlTransform, GasStart.capture]
  · obtain ⟨p, ⟨rx, ry, rz⟩, s⟩ := m
    simp [swirlTransform, GasStart.capture]
  · rw [hpos]
    obtain ⟨⟨x, y, z⟩, r, s⟩ := m
    simp only [Vec3.mk.injEq, true_and, and_true]
    constructor
    · intro h
      linarith
    · intro h
      rw [h]
      norm_num

/-! ### The fallback capture of the frame callback -/

theorem frame_gasStartRef {K : Type} [LinearOrderedField K] (M : JSMath K) (delta : K)
    (s : Anim K) : (frame M delta s).gasStartRef = s.gasStartRef := rfl

theorem setStage_nebula_anim {K : Type} [LinearOrderedField K] (M : JSMath K) (w : World K)
    (h : w.stage ≠ some "nebula") :
    (step M w (.setStage "nebula")).anim
      = { w.anim with
          lastStageRef := "nebula"
          swirlTargetRef := 0
          swirlStarsOpacityRef := 1
          gasStartRef := none
          diskRef := w.anim.diskRef.map fun m => { m with scale := ⟨0, 0, 1⟩ }
          diskMatRef := w.anim.diskMatRef.map fun _ => 0
          spinRef := 0.05
          microFlashRef := { a := 0, s := 1.0 }
          burstRef := { a := 0, s := 2.8 }
          shockRef := { a := 0, s := 0.15 } } := by
  have h0 : (0.0 : K) = 0 := by norm_num
  simp [step, h, stageEffect, STAGES.nebula, h0]

/-- The frame callback with no snapshot: a mounted gas mesh is transformed from the polar
capture of its own current transform. -/
theorem frame_gasMesh_fallback {K : Type} [LinearOrderedField K] (M : JSMath K) (delta : K)
    (s : Anim K) (hs : s.gasStartRef = none)
    (hp : swirlSmooth M s.swirlTargetRef delta s.swirlRef > 0.0001) :
    (frame M delta s).gasMeshRefs.a
      = s.gasMeshRefs.a.map fun m =>
          swirlTransform M (swirlSmooth M s.swirlTargetRef delta s.swirlRef)
            (GasStart.capture M m) m := by
  have hn : ¬ swirlSmooth M s.swirlTargetRef delta s.swirlRef < 0.0001 := not_lt.2 hp.le
  rw [frame_gasMeshRefs, if_pos hp, if_neg hn, hs]
  rfl

theorem swirlTransform_scale_x {K : Type} [LinearOrderedField K] (M : JSMath K) (p : K)
    (start : GasStart K) (m : Mesh K) :
    (swirlTransform M p start m).scale.x = start.scale.x * (1 - p * 0.78) := rfl

theorem capture_scale {K : Type} [LinearOrderedField K] (M : JSMath K) (m : Mesh K) :
    (GasStart.capture M m).scale = m.scale := rfl

/-- The scene two seconds into the `nebula -> star` transition, after one tick and one
frame of two seconds. -/
theorem star_after_two_seconds :
    (run realMath (World.init (mountAnim realMath))
        [.setStage "nebula", .setStage "star", .tick 2, .frame 2]).anim.gasMeshRefs.a
      = some (swirlTransform realMath 0.99999936
          (GasStart.capture realMath (GAS_BASE (K := ℝ)).a) (GAS_BASE (K := ℝ)).a) ∧
      (run realMath (World.init (mountAnim realMath))
        [.setStage "nebula", .setStage "star", .tick 2, .frame 2]).anim.swirlRef
        = 0.99999936 ∧
      (run realMath (World.init (mountAnim realMath))
        [.setStage "nebula", .setStage "star", .tick 2, .frame 2]).stage = some "star" := by
  obtain ⟨i1, i2, i3⟩ := nebula_world realMath (World.init (mountAnim realMath)) (Inv_init _)
    (by simp [World.init]) [] (by simp)
  have hm1 : (run realMath (World.init (mountAnim realMath))
      [.setStage "nebula"]).anim.gasMeshRefs = (GAS_BASE (K := ℝ)).map some :=
    setStage_gasMeshRefs realMath (World.init (mountAnim realMath)) "nebula"
  have hs1 : (run realMath (World.init (mountAnim realMath))
      [.setStage "nebula"]).anim.swirlRef = 0 :=
    setStage_swirlRef realMath (World.init (mountAnim realMath)) "nebula"
  have eR : run realMath (World.init (mountAnim realMath))
      [.setStage "nebula", .setStage "star", .tick 2, .frame 2]
      = step realMath (step realMath (step realMath
          (run realMath (World.init (mountAnim realMath)) [.setStage "nebula"])
            (.setStage "star")) (.tick 2)) (.frame 2) := rfl
  rw [eR]
  generalize run realMath (World.init (mountAnim realMath)) [.setStage "nebula"] = w1
    at i1 i2 i3 hm1 hs1
  have hc2 := (star_snapshot realMath w1 i2 i3).1
  have ht3 : (step realMath (step realMath w1 (.setStage "star")) (.tick 2)).anim.swirlTargetRef
      = 1 := by
    have h := star_child_done realMath w1 i1 i2 i3 [.tick 2] (by simp [Event.isStage]) 0
      (Tween.mk .swirlTargetRef [1] 1.6 .power3InOut) (by simp [starChildren])
      (by norm_num [tickSum])
    simpa [Target.read, run] using h
  have hs3 : (step realMath (step realMath w1 (.setStage "star")) (.tick 2)).anim.swirlRef
      = 0 := by
    rw [tick_swirlRef, setStage_swirlRef, hs1]
  have hg3 : (step realMath (step realMath w1 (.setStage "star")) (.tick 2)).anim.gasStartRef
      = captureAll realMath ((GAS_BASE (K := ℝ)).map some) := by
    rw [tick_gasStartRef, hc2, hm1]
  have hm3 : (step realMath (step realMath w1 (.setStage "star")) (.tick 2)).anim.gasMeshRefs
      = (GAS_BASE (K := ℝ)).map some := by
    rw [tick_gasMeshRefs, setStage_gasMeshRefs, hm1]
  have hst3 : (step realMath (step realMath w1 (.setStage "star")) (.tick 2)).stage
      = some "star" := by
    rw [tick_stage, setStage_stage]
  generalize step realMath (step realMath w1 (.setStage "star")) (.tick 2) = w3
    at ht3 hs3 hg3 hm3 hst3
  have hp : swirlSmooth realMath (1 : ℝ) 2 0 = 0.99999936 := by
    simp only [swirlSmooth, realMath, Real.rpow_two]
    norm_num
  refine ⟨?_, ?_, hst3⟩
  · show (frame realMath 2 w3.anim).gasMeshRefs.a = _
    rw [frame_gasMeshRefs, ht3, hs3, hg3, hm3, hp]
    norm_num
    rfl
  · show (frame realMath 2 w3.anim).swirlRef = _
    rw [frame_swirlRef, ht3, hs3, hp]

/-- C11 (the code at the failing input): the frame callback never assigns
`gasStartRef.current`; its fallback capture is rebuilt in every frame from the transform
that the previous frame wrote.  From the scene at mount, two seconds into the
`nebula -> star` transition `nebula` is pressed (the snapshot is cleared, the progress is
`0.99999936`).  After the next frame the snapshot is still `null`; and two frames of delta
`0`, which leave the progress where it is, give gas cloud `A` two different x scales: each
frame multiplies the scale it finds by `1 - 0.78 p` again. -/
theorem swirl_fallback_not_kept :
    (∀ (delta : ℝ) (s : Anim ℝ), (frame realMath delta s).gasStartRef = s.gasStartRef) ∧
      (run realMath (World.init (mountAnim realMath))
        [.setStage "nebula", .setStage "star", .tick 2, .frame 2, .setStage "nebula",
          .frame 0]).anim.gasStartRef = none ∧
      ((run realMath (World.init (mountAnim realMath))
          [.setStage "nebula", .setStage "star", .tick 2, .frame 2, .setStage "nebula",
            .frame 0]).anim.swirlRef = 0.99999936 ∧
        (run realMath (World.init (mountAnim realMath))
          [.setStage "nebula", .setStage "star", .tick 2, .frame 2, .setStage "nebula",
            .frame 0, .frame 0]).anim.swirlRef = 0.99999936) ∧
      ((run realMath (World.init (mountAnim realMath))
          [.setStage "nebula", .setStage "star", .tick 2, .frame 2, .setStage "nebula",
            .frame 0]).anim.gasMeshRefs.a.map (fun m => m.scale.x)
          = some (9.6 * (1 - 0.99999936 * 0.78) ^ 2) ∧
        (run realMath (World.init (mountAnim realMath))
          [.setStage "nebula", .setStage "star", .tick 2, .frame 2, .setStage "nebula",
            .frame 0, .frame 0]).anim.gasMeshRefs.a.map (fun m => m.scale.x)
          = some (9.6 * (1 - 0.99999936 * 0.78) ^ 3)) ∧
      (9.6 * (1 - 0.99999936 * 0.78) ^ 2 : ℝ) ≠ 9.6 * (1 - 0.99999936 * 0.78) ^ 3 := by
  obtain ⟨hm4, hs4, hst4⟩ := star_after_two_seconds
  have e1 : run realMath (World.init (mountAnim realMath))
      [.setStage "nebula", .setStage "star", .tick 2, .frame 2, .setStage "nebula", .frame 0]
      = step realMath (step realMath (run realMath (World.init (mountAnim realMath))
          [.setStage "nebula", .setStage "star", .tick 2, .frame 2]) (.setStage "nebula"))
          (.frame 0) := rfl
  have e2 : run realMath (World.init (mountAnim realMath))
      [.setStage "nebula", .setStage "star", .tick 2, .frame 2, .setStage "nebula", .frame 0,
        .frame 0]
      = step realMath (step realMath (step realMath
          (run realMath (World.init (mountAnim realMath))
          [.setStage "nebula", .setStage "star", .tick 2, .frame 2]) (.setStage "nebula"))
          (.frame 0)) (.frame 0) := rfl
  rw [e1, e2]
  generalize run realMath (World.init (mountAnim realMath))
    [.setStage "nebula", .setStage "star", .tick 2, .frame 2] = w4 at hm4 hs4 hst4
  have h5 := setStage_nebula_anim realMath w4 (by rw [hst4]; simp)
  have hg5 : (step realMath w4 (.setStage "nebula")).anim.gasStartRef = none := by rw [h5]
  have ht5 : (step realMath w4 (.setStage "nebula")).anim.swirlTargetRef = 0 := by rw [h5]
  have hs5 : (step realMath w4 (.setStage "nebula")).anim.swirlRef = 0.99999936 := by
    rw [h5]
    exact hs4
  have hm5 : (step realMath w4 (.setStage "nebula")).anim.gasMeshRefs.a
      = some (swirlTransform realMath 0.99999936
          (GasStart.capture realMath (GAS_BASE (K := ℝ)).a) (GAS_BASE (K := ℝ)).a) := by
    rw [h5]
    exact hm4
  have e3 : ∀ w : World ℝ, (step realMath w (.frame 0)).anim = frame realMath 0 w.anim :=
    fun _ => rfl
  simp only [e3]
  generalize (step realMath w4 (.setStage "nebula")).anim = a5 at hg5 ht5 hs5 hm5 ⊢
  have hkeep : ∀ p : ℝ, swirlSmooth realMath 0 0 p = p := by
    intro p
    simp [swirlSmooth, realMath]
  -- the first frame after the snapshot was cleared
  have hs6 : (frame realMath 0 a5).swirlRef = 0.99999936 := by
    rw [frame_swirlRef, ht5, hs5, hkeep]
  have ht6 : (frame realMath 0 a5).swirlTargetRef = 0 := by
    rw [frame_swirlTargetRef, ht5]
  have hg6 : (frame realMath 0 a5).gasStartRef = none := by
    rw [frame_gasStartRef, hg5]
  have hm6 : (frame realMath 0 a5).gasMeshRefs.a.map (fun m => m.scale.x)
      = some (9.6 * (1 - 0.99999936 * 0.78) ^ 2) := by
    rw [frame_gasMesh_fallback realMath 0 a5 hg5 (by rw [ht5, hs5, hkeep]; norm_num), ht5,
      hs5, hkeep, hm5]
    simp only [Option.map_some', swirlTransform_scale_x, capture_scale, GAS_BASE]
    congr 1
    ring
  -- the second frame, at the same progress
  have hs7 : (frame realMath 0 (frame realMath 0 a5)).swirlRef = 0.99999936 := by
    rw [frame_swirlRef, ht6, hs6, hkeep]
  have hm7 : (frame realMath 0 (frame realMath 0 a5)).gasMeshRefs.a.map (fun m => m.scale.x)
      = some (9.6 * (1 - 0.99999936 * 0.78) ^ 3) := by
    rw [frame_gasMesh_fallback realMath 0 _ hg6 (by rw [ht6, hs6, hkeep]; norm_num), ht6,
      hs6, hkeep]
    rw [Option.map_map]
    have hf : ((fun m : Mesh ℝ => m.scale.x) ∘ fun m : Mesh ℝ =>
        swirlTransform realMath 0.99999936 (GasStart.capture realMath m) m)
        = fun m : Mesh ℝ => m.scale.x * (1 - 0.99999936 * 0.78) := by
      funext m
      rfl
    rw [hf]
    have hm6b := hm6
    cases hx : (frame realMath 0 a5).gasMeshRefs.a with
    | none => simp [hx] at hm6b
    | some m =>
      simp only [hx, Option.map_some', Option.some.injEq] at hm6b ⊢
      rw [hm6b]
      ring
  refine ⟨fun _ _ => rfl, hg6, ⟨hs6, hs7⟩, ⟨hm6, hm7⟩, ?_⟩
  norm_num

/-! ### What entering `nebula` leaves alone -/

theorem setStage_nebula_cleanup {K : Type} [LinearOrderedField K] (M : JSMath K)
    (w : World K) (h : w.stage ≠ some "nebula") :
    (step M w (.setStage "nebula")).cleanup = none := by
  simp [step, h, stageEffect]

/-- Ticks and frames do not change the tweened properties of a target that no live tween
has. -/
theorem run_read_untargeted {K : Type} [LinearOrderedField K] (M : JSMath K) (w : World K)
    (es : List (Event K)) (hes : ∀ e ∈ es, e.isStage = false) (y : Target)
    (hy : y ∉ rootTargets w.gsap.root) : y.read (run M w es).anim = y.read w.anim := by
  induction es generalizing w with
  | nil => rfl
  | cons e es ih =>
    have hes2 : ∀ e2 ∈ es, e2.isStage = false := fun e2 h => hes e2 (List.mem_cons_of_mem _ h)
    cases e with
    | setStage stage =>
      have := hes _ (List.mem_cons_self _ _)
      simp [Event.isStage] at this
    | frame delta =>
      rw [run_cons, ih (step M w (.frame delta)) hes2 hy]
      exact read_frame M delta y w.anim
    | tick dt =>
      obtain ⟨hl, hrd, _, _⟩ := advanceAll_spec dt w.gsap.root w.anim
      have hy2 : y ∉ rootTargets (step M w (.tick dt)).gsap.root := by
        show y ∉ rootTargets (advanceAll dt w.gsap.root w.anim).1
        rw [later_rootTargets dt _ _ hl]
        exact hy
      rw [run_cons, ih (step M w (.tick dt)) hes2 hy2]
      exact hrd y hy

/-- After a render with `stage = "nebula"` the only live tweens are tweens of
`highlightOpacityRef`. -/
theorem nebula_root_highlight {K : Type} [LinearOrderedField K] (M : JSMath K) (w : World K)
    (hinv : Inv w) (h : w.stage ≠ some "nebula") (y : Target)
    (hy : y ∈ rootTargets (step M w (.setStage "nebula")).gsap.root) :
    y = Target.highlightOpacityRef := by
  have hinv2 := Inv_step M w (.setStage "nebula") hinv
  obtain ⟨tl, htl, c, hc, hcy⟩ := (mem_rootTargets _ y).1 hy
  rcases hinv2.2.2.2.2 tl htl with e | e
  · rw [setStage_nebula_cleanup M w h] at e
    exact absurd e (by simp)
  · have := e c hc
    rw [hcy] at this
    simpa using this

/-- C13: the nebula branch of the stage handler writes only `lastStageRef`, the swirl
target, the swirl-stars opacity, the collapse snapshot, the disk scale and opacity, the
spin and the three pulses, and starts the highlight tween; it leaves `nebulaOpacityRef`,
`swirlRef` and the core node's scale, opacity and emissive intensity as they are.  So after
a settled `nebula -> star` transition, entering `nebula` and any ticks and frames that
follow leave the nebula opacity at `0.45` and, where the core mesh and material are mounted,
the core scale at `1.05`, the core opacity at `1.0` and the core glow at `1.35`, none of
which is the nebula profile's value: they are not restored. -/
theorem nebula_branch_leaves_star_values {K : Type} [LinearOrderedField K] (M : JSMath K)
    (w : World K) (a : Anim K) (es0 es1 es2 : List (Event K))
    (h0 : ∀ e ∈ es0, e.isStage = false) (h1 : ∀ e ∈ es1, e.isStage = false)
    (h2 : ∀ e ∈ es2, e.isStage = false) (hsum : 2.48 ≤ tickSum es1) :
    ((stageEffect M "nebula" w).anim
          = { w.anim with
              lastStageRef := "nebula"
              swirlTargetRef := 0
              swirlStarsOpacityRef := 1
              gasStartRef := none
              diskRef := w.anim.diskRef.map fun m => { m with scale := ⟨0, 0, 1⟩ }
              diskMatRef := w.anim.diskMatRef.map fun _ => 0
              spinRef := 0.05
              microFlashRef := { a := 0, s := 1.0 }
              burstRef := { a := 0, s := 2.8 }
              shockRef := { a := 0, s := 0.15 } } ∧
        (stageEffect M "nebula" w).gsap
          = w.gsap.to .highlightOpacityRef [0] 0.25 .power2Out ∧
        (stageEffect M "nebula" w).anim.nebulaOpacityRef = w.anim.nebulaOpacityRef ∧
        (stageEffect M "nebula" w).anim.swirlRef = w.anim.swirlRef ∧
        (stageEffect M "nebula" w).anim.coreRef = w.anim.coreRef ∧
        (stageEffect M "nebula" w).anim.coreMatRef = w.anim.coreMatRef) ∧
      ((run M (World.init a) ((.setStage "nebula" :: es0) ++ (.setStage "star" :: es1)
            ++ (.setStage "nebula" :: es2))).anim.nebulaOpacityRef = 0.45 ∧
        ((STAGES.nebula (K := K)).nebulaOpacity ≠ 0.45 ∧
          (STAGES.nebula (K := K)).coreScale ≠ 1.05 ∧
          (STAGES.nebula (K := K)).coreOpacity ≠ 1.0 ∧
          (STAGES.nebula (K := K)).coreGlow ≠ 1.35) ∧
        (run M (World.init a) ((.setStage "nebula" :: es0) ++ (.setStage "star" :: es1)
            ++ (.setStage "nebula" :: es2))).anim.coreRef.map (fun m => m.scale)
          = a.coreRef.map (fun _ => ⟨1.05, 1.05, 1.05⟩) ∧
        (run M (World.init a) ((.setStage "nebula" :: es0) ++ (.setStage "star" :: es1)
            ++ (.setStage "nebula" :: es2))).anim.coreMatRef
          = a.coreMatRef.map (fun _ => ⟨1.0, 1.35⟩)) := by
  have z0 : (0.0 : K) = 0 := by norm_num
  refine ⟨⟨?_, ?_, ?_, ?_, ?_, ?_⟩, ?_⟩
  · simp [stageEffect, STAGES.nebula, z0]
  · simp [stageEffect, STAGES.lookup, STAGES.nebula, z0]
  · simp [stageEffect]
  · simp [stageEffect]
  · simp [stageEffect]
  · simp [stageEffect]
  · obtain ⟨i1, i2, i3⟩ := nebula_world M (World.init a) (Inv_init _)
      (by simp [World.init]) es0 h0
    have hset := star_settles M _ i1 i2 i3 es1 h1 hsum
    have e : run M (World.init a) ((.setStage "nebula" :: es0) ++ (.setStage "star" :: es1)
        ++ (.setStage "nebula" :: es2))
        = run M (step M (run M (step M (run M (World.init a) (.setStage "nebula" :: es0))
            (.setStage "star")) es1) (.setStage "nebula")) es2 := by
      rw [run_append, run_append, run_cons, run_cons]
    rw [e]
    have hst2 : (run M (step M (run M (World.init a) (.setStage "nebula" :: es0))
        (.setStage "star")) es1).stage ≠ some "nebula" := by
      rw [(run_stage_of_no_stage M _ es1 h1).1, setStage_stage]
      simp
    have hinv2 : Inv (run M (step M (run M (World.init a) (.setStage "nebula" :: es0))
        (.setStage "star")) es1) := Inv_run M _ es1 (Inv_step M _ _ i1)
    have hp := presence_run M (World.init a) (.setStage "nebula" :: es0)
    have hp1 : (run M (World.init a) (.setStage "nebula" :: es0)).anim.coreRef.isSome
        = a.coreRef.isSome := congrArg Prod.fst hp
    have hp2 : (run M (World.init a) (.setStage "nebula" :: es0)).anim.coreMatRef.isSome
        = a.coreMatRef.isSome := congrArg (fun p => p.2.1) hp
    clear hp
    generalize run M (World.init a) (.setStage "nebula" :: es0) = w0
      at i1 i2 i3 hset hst2 hinv2 hp1 hp2 ⊢
    generalize run M (step M w0 (.setStage "star")) es1 = w2 at hset hst2 hinv2 ⊢
    have hkeep : ∀ y : Target, y ≠ Target.highlightOpacityRef →
        y.read (run M (step M w2 (.setStage "nebula")) es2).anim
          = y.read (step M w2 (.setStage "nebula")).anim := by
      intro y hy
      apply run_read_untargeted M _ es2 h2
      intro hmem
      exact hy (nebula_root_highlight M w2 hinv2 hst2 y hmem)
    have h3 := setStage_nebula_anim M w2 hst2
    have hn := hkeep .nebulaOpacityRef (by simp)
    have hc := hkeep .coreScale (by simp)
    have hm := hkeep .coreMat (by simp)
    rw [h3] at hn hc hm
    simp only [Target.read] at hn hc hm
    have sn := hset .nebulaOpacityRef
    have sc := hset .coreScale
    have sm := hset .coreMat
    simp only [Target.read, settledStar] at sn sc sm
    rw [sn] at hn
    rw [sc] at hc
    rw [sm] at hm
    simp only [List.cons.injEq, and_true] at hn
    refine ⟨?_, ?_, ?_, ?_⟩
    · rw [hn]
      norm_num [STAGES.star]
    · norm_num [STAGES.nebula]
    · cases hf : (run M (step M w2 (.setStage "nebula")) es2).anim.coreRef with
      | none =>
        cases hw : w0.anim.coreRef with
        | none =>
          rw [hw] at hp1
          rw [eq_none_of_isSome_false _ hp1.symm]
          rfl
        | some m0 => simp [hf, hw] at hc
      | some m =>
        cases hw : w0.anim.coreRef with
        | none => simp [hf, hw] at hc
        | some m0 =>
          rw [hw] at hp1
          obtain ⟨m1, hm1⟩ := Option.isSome_iff_exists.1 hp1.symm
          simp only [hf, hw, Option.map_some', List.cons.injEq, and_true] at hc
          obtain ⟨p, r, ⟨x, y, z⟩⟩ := m
          simp only at hc
          rw [hm1]
          simp only [Option.map_some', Option.some.injEq, Vec3.mk.injEq]
          rw [hc.1, hc.2.1, hc.2.2]
          norm_num [STAGES.star]
    · cases hf : (run M (step M w2 (.setStage "nebula")) es2).anim.coreMatRef with
      | none =>
        cases hw : w0.anim.coreMatRef with
        | none =>
          rw [hw] at hp2
          rw [eq_none_of_isSome_false _ hp2.symm]
          rfl
        | some m0 => simp [hf, hw] at hm
      | some m =>
        cases hw : w0.anim.coreMatRef with
        | none => simp [hf, hw] at hm
        | some m0 =>
          rw [hw] at hp2
          obtain ⟨m1, hm1⟩ := Option.isSome_iff_exists.1 hp2.symm
          simp only [hf, hw, Option.map_some', List.cons.injEq, and_true] at hm
          obtain ⟨o, g⟩ := m
          simp only at hm
          rw [hm1]
          simp only [Option.map_some', Option.some.injEq, CoreMat.mk.injEq]
          rw [hm.1, hm.2]
          norm_num [STAGES.star]

/-- Witness for C13: the scene at mount; the `nebula -> star` transition runs for `2.5`
seconds, then `nebula` is pressed and one more second passes. -/
theorem nebula_branch_leaves_star_values_witness :
    ((∀ e ∈ ([] : List (Event ℝ)), e.isStage = false) ∧
        (∀ e ∈ [(Event.tick 2.5 : Event ℝ), .frame 2.5], e.isStage = false) ∧
        (∀ e ∈ [(Event.tick 1 : Event ℝ), .frame 1], e.isStage = false) ∧
        (2.48 : ℝ) ≤ tickSum [(Event.tick 2.5 : Event ℝ), .frame 2.5]) ∧
      ((run realMath (World.init (mountAnim realMath))
            ((.setStage "nebula" :: []) ++ (.setStage "star" :: [.tick 2.5, .frame 2.5])
              ++ (.setStage "nebula" :: [.tick 1, .frame 1]))).anim.nebulaOpacityRef = 0.45 ∧
        ((STAGES.nebula (K := ℝ)).nebulaOpacity ≠ 0.45 ∧
          (STAGES.nebula (K := ℝ)).coreScale ≠ 1.05 ∧
          (STAGES.nebula (K := ℝ)).coreOpacity ≠ 1.0 ∧
          (STAGES.nebula (K := ℝ)).coreGlow ≠ 1.35) ∧
        (run realMath (World.init (mountAnim realMath))
            ((.setStage "nebula" :: []) ++ (.setStage "star" :: [.tick 2.5, .frame 2.5])
              ++ (.setStage "nebula" :: [.tick 1, .frame 1]))).anim.coreRef.map
              (fun m => m.scale)
          = (mountAnim realMath).coreRef.map (fun _ => ⟨1.05, 1.05, 1.05⟩) ∧
        (run realMath (World.init (mountAnim realMath))
            ((.setStage "nebula" :: []) ++ (.setStage "star" :: [.tick 2.5, .frame 2.5])
              ++ (.setStage "nebula" :: [.tick 1, .frame 1]))).anim.coreMatRef
          = (mountAnim realMath).coreMatRef.map (fun _ => ⟨1.0, 1.35⟩)) :=
  ⟨⟨by simp, by simp [Event.isStage], by simp [Event.isStage], by norm_num [tickSum]⟩,
    (nebula_branch_leaves_star_values realMath (World.init (mountAnim realMath))
      (mountAnim realMath) [] [.tick 2.5, .frame 2.5] [.tick 1, .frame 1] (by simp)
      (by simp [Event.isStage]) (by simp [Event.isStage]) (by norm_num [tickSum])).2⟩

end BlackHoleSignature
